import Mathlib

/-!
# Esoterica: resource compilation requests, workspaces and graph instances

A shallow embedding of

* `Code/Applications/ResourceServer/ResourceCompilationRequest.h`
  (the `EE::Resource::CompilationRequest` record and its accessors),
* `Code/EngineTools/Core/Workspace.cpp`
  (`Workspace::BeginHotReload` / `Workspace::EndHotReload` /
  `Workspace::LoadDescriptor` and `ResourceWorkspaceFactory::CreateWorkspace`),
* `Code/Engine/Animation/Graph/Animation_RuntimeGraph_Instance.h`
  (the control parameter accessors of `GraphInstance`), and
* the `ResourceServer` scheduler and its `ResourceServerWorker`, whose sources
  are outside the verified files and which are modelled from the specification,

followed by the properties established about them.

Conventions of the embedding:

* `EE_ASSERT( c )` is a check that aborts: an accessor guarded by an assertion
  returns `Option`, with `none` standing for the failed assertion.
* `PlatformClock::GetTime()` is an explicit argument `now`.
* The duration types `Nanoseconds` / `Milliseconds` live in `System/Time/Time.h`,
  which is not among the sources; the operations the accessors use on them are
  collected in `TimeUnits` and taken as a parameter.
* Calls into the external `ResourceSystem` are recorded, in order, in a log
  carried by the workspace state.
* `int16_t` / `int32_t` values are integers, with the conversions `toInt16` /
  `toInt32` applied where the code stores into such a type; a loop that may not
  terminate takes fuel, one unit per loop test.
-/

namespace EE

/-! ## Definitions: `CompilationRequest` -/

/-- The operations of `System/Time/Time.h` used by `CompilationRequest`:
construction of a `Nanoseconds` from an integer literal (the `= 0` member
initialisers), `Nanoseconds::operator-`, the converting constructor
`Milliseconds( Nanoseconds )` and the construction of a `Milliseconds` from an
integer literal (`return 0;`). -/
structure TimeUnits (Nanoseconds Milliseconds : Type) where
  nanoseconds : Nat → Nanoseconds
  sub : Nanoseconds → Nanoseconds → Nanoseconds
  toMilliseconds : Nanoseconds → Milliseconds
  milliseconds : Nat → Milliseconds

/-- Modelled from the spec: the unit types of `System/Time/Time.h` (absent from
the sources) read as exact arithmetic. The timing fields are "monotonic clock
samples" and the accessors "derive durations from these": a sample is an integer
count of nanoseconds, a duration is the difference of two samples, and a
duration in milliseconds is the nanosecond count divided by `10^6`. -/
def exactUnits : TimeUnits Int ℚ where
  nanoseconds := fun n => (n : Int)
  sub := fun a b => a - b
  toMilliseconds := fun d => (d : ℚ) / 1000000
  milliseconds := fun n => (n : ℚ)

/-- The enumeration `CompilationRequest::Status`. -/
inductive Status where
  | Pending
  | Compiling
  | Succeeded
  | SucceededWithWarnings
  | Failed
  deriving DecidableEq, Repr

/-- The enumeration `CompilationRequest::Origin`. -/
inductive Origin where
  | External
  | ManualCompile
  | FileWatcher
  | Package
  deriving DecidableEq, Repr

/-- The data members of `CompilationRequest`, in declaration order.
`ResourceID`, `FileSystem::Path` and `String` members are strings, the
`TimeStamp` member is a number, `uint32_t` / `uint64_t` members are naturals
and the `int32_t` member is an integer; no accessor below does arithmetic on
them. -/
structure CompilationRequest (Nanoseconds : Type) where
  m_clientID : Nat
  m_resourceID : String
  m_compilerVersion : Int
  m_fileTimestamp : Nat
  m_sourceTimestampHash : Nat
  m_sourceFile : String
  m_destinationFile : String
  m_compilerArgs : String
  m_timeRequested : Nat
  m_compilationTimeStarted : Nanoseconds
  m_compilationTimeFinished : Nanoseconds
  m_upToDateCheckTimeStarted : Nanoseconds
  m_upToDateCheckTimeFinished : Nanoseconds
  m_log : String
  m_status : Status
  m_origin : Origin

namespace CompilationRequest

variable {Nanoseconds Milliseconds : Type}

/-- A request as its default member initialisers leave it. The members without
an initialiser in the class (`m_resourceID`, the two paths, `m_compilerArgs`,
`m_log`) are default-constructed strings; the default `TimeStamp` is not fixed
by the sources and is passed in. -/
def defaultInit (U : TimeUnits Nanoseconds Milliseconds) (timeRequested : Nat) :
    CompilationRequest Nanoseconds where
  m_clientID := 0
  m_resourceID := ""
  m_compilerVersion := -1
  m_fileTimestamp := 0
  m_sourceTimestampHash := 0
  m_sourceFile := ""
  m_destinationFile := ""
  m_compilerArgs := ""
  m_timeRequested := timeRequested
  m_compilationTimeStarted := U.nanoseconds 0
  m_compilationTimeFinished := U.nanoseconds 0
  m_upToDateCheckTimeStarted := U.nanoseconds 0
  m_upToDateCheckTimeFinished := U.nanoseconds 0
  m_log := ""
  m_status := Status.Pending
  m_origin := Origin.External

/-- Accessor `IsInternalRequest()`: `m_origin != Origin::External`. -/
def IsInternalRequest (r : CompilationRequest Nanoseconds) : Bool :=
  r.m_origin != Origin.External

/-- Accessor `GetClientID()`: `EE_ASSERT( !IsInternalRequest() ); return m_clientID;`.
The result is `none` when the assertion fails. -/
def GetClientID (r : CompilationRequest Nanoseconds) : Option Nat :=
  if !r.IsInternalRequest then some r.m_clientID else none

/-- Accessor `GetStatus()`. -/
def GetStatus (r : CompilationRequest Nanoseconds) : Status := r.m_status

/-- Accessor `IsPending()`. -/
def IsPending (r : CompilationRequest Nanoseconds) : Bool :=
  r.m_status == Status.Pending

/-- Accessor `IsExecuting()`. -/
def IsExecuting (r : CompilationRequest Nanoseconds) : Bool :=
  r.m_status == Status.Compiling

/-- Accessor `HasSucceeded()`. -/
def HasSucceeded (r : CompilationRequest Nanoseconds) : Bool :=
  r.m_status == Status.Succeeded || r.m_status == Status.SucceededWithWarnings

/-- Accessor `HasSucceededWithWarnings()`. -/
def HasSucceededWithWarnings (r : CompilationRequest Nanoseconds) : Bool :=
  r.m_status == Status.SucceededWithWarnings

/-- Accessor `HasFailed()`. -/
def HasFailed (r : CompilationRequest Nanoseconds) : Bool :=
  r.m_status == Status.Failed

/-- Accessor `IsComplete()`: `HasSucceeded() || HasFailed()`. -/
def IsComplete (r : CompilationRequest Nanoseconds) : Bool :=
  r.HasSucceeded || r.HasFailed

/-- Accessor `GetCompilationElapsedTime()`; `now` is the value `PlatformClock::GetTime()`
returns, read only on the branch that calls it. -/
def GetCompilationElapsedTime (U : TimeUnits Nanoseconds Milliseconds)
    (r : CompilationRequest Nanoseconds) (now : Nanoseconds) : Milliseconds :=
  if r.m_status == Status.Pending then
    U.milliseconds 0
  else if !r.IsComplete then
    U.toMilliseconds (U.sub now r.m_compilationTimeStarted)
  else
    U.toMilliseconds (U.sub r.m_compilationTimeFinished r.m_compilationTimeStarted)

/-- Accessor `GetUptoDateCheckElapsedTime()`; the function does not read the clock. -/
def GetUptoDateCheckElapsedTime (U : TimeUnits Nanoseconds Milliseconds)
    (r : CompilationRequest Nanoseconds) : Milliseconds :=
  if r.m_status == Status.Pending then
    U.milliseconds 0
  else
    U.toMilliseconds (U.sub r.m_upToDateCheckTimeFinished r.m_upToDateCheckTimeStarted)

end CompilationRequest

/-! ## Definitions: `Workspace` hot reload -/

/-- The helper `VectorContains( vector, value )`: linear membership test. -/
def VectorContains {α : Type} [DecidableEq α] (vector : List α) (value : α) : Bool :=
  decide (value ∈ vector)

/-- What `Workspace.cpp` reads from a `Resource::ResourcePtr` object:
`GetResourceID()`, `IsUnloaded()` and `GetInstallDependencies()`. -/
structure ResourcePtr (ResourceID : Type) where
  resourceID : ResourceID
  isUnloaded : Bool
  installDependencies : List ResourceID

/-- A request the workspace issues to the resource system (always with the
tools requester ID). The argument is the address of the `ResourcePtr` the call
is made for. -/
inductive ResourceRequest where
  | Unload (pResourcePtr : Nat)
  | Load (pResourcePtr : Nat)
  deriving DecidableEq, Repr

/-- The two entry points of `Resource::ResourceSystem` that the workspace
calls. Both take the `ResourcePtr` by reference, so each is given as the new
contents of that object, as a function of the requests issued so far and of its
old contents. Nothing is assumed about these functions. -/
structure ResourceSystem (ResourceID : Type) where
  UnloadResource : List ResourceRequest → ResourcePtr ResourceID → ResourcePtr ResourceID
  LoadResource : List ResourceRequest → ResourcePtr ResourceID → ResourcePtr ResourceID

/-- The members of the `PropertyGrid` that `Workspace.cpp` drives: the object
set by `SetTypeToEdit` and the flag behind `MarkDirty` / `ClearDirty`. -/
structure PropertyGrid (Descriptor : Type) where
  typeToEdit : Option Descriptor
  isDirty : Bool

/-- The outcome of reading the descriptor file in `LoadDescriptor`:
whether `archive.ReadFromFile( m_descriptorPath )` succeeded, and the pointer
that `Cast<ResourceDescriptor>( CreateAndReadNativeType( ... ) )` yields. -/
structure DescriptorFile (Descriptor : Type) where
  readFromFile : Bool
  created : Option Descriptor

/-- The members of a `ResourceDescriptorUndoableAction`: the descriptor as
serialised by `SerializeBeforeState` and by `SerializeAfterState`. -/
structure ResourceDescriptorUndoableAction where
  m_valueBefore : String
  m_valueAfter : String
  deriving DecidableEq, Repr

/-- The part of the `Workspace` state that hot reload, descriptor modification
and saving touch.

* `isADescriptorWorkspace` is the value of `IsADescriptorWorkspace()`, an inline
  function of `Workspace.h`; it is fixed at construction.
* `resourcePtrs` is the memory holding the `ResourcePtr` objects, by address;
  `m_requestedResources` and `m_reloadingResources` are vectors of addresses.
* `resourceSystemRequests` is the log of the calls made to the resource system,
  oldest first.
* `m_beginModificationCallCount` is an integer; its type is declared in
  `Workspace.h` and no bound is put on it.
* `m_pActiveUndoableAction` is the action that the pointer of that name points
  to, `none` for a null pointer.
* `m_undoStack` is the list of the actions passed to
  `m_undoStack.RegisterAction`, oldest first.

The members after `resourceSystemRequests` default to a clean workspace with no
descriptor modification begun and nothing on the undo stack. -/
structure Workspace (ResourceID Descriptor : Type) where
  isADescriptorWorkspace : Bool
  m_descriptorID : ResourceID
  m_pDescriptor : Option Descriptor
  m_pDescriptorPropertyGrid : Option (PropertyGrid Descriptor)
  resourcePtrs : Nat → ResourcePtr ResourceID
  m_requestedResources : List Nat
  m_reloadingResources : List Nat
  resourceSystemRequests : List ResourceRequest
  m_descriptorPath : String := ""
  m_isDirty : Bool := false
  m_beginModificationCallCount : Int := 0
  m_pActiveUndoableAction : Option ResourceDescriptorUndoableAction := none
  m_undoStack : List ResourceDescriptorUndoableAction := []

namespace Workspace

variable {ResourceID Descriptor : Type} [DecidableEq ResourceID]

/-- Accessor `IsDescriptorLoaded()`: `m_pDescriptor != nullptr`. -/
def IsDescriptorLoaded (w : Workspace ResourceID Descriptor) : Bool :=
  w.m_pDescriptor.isSome

/-- Store `value` at address `p` of the `ResourcePtr` memory. -/
def writeResourcePtr (memory : Nat → ResourcePtr ResourceID) (p : Nat)
    (value : ResourcePtr ResourceID) : Nat → ResourcePtr ResourceID :=
  fun q => if q = p then value else memory q

/-- The inner loop of `BeginHotReload` over `GetInstallDependencies()`:
the value of `shouldUnload` after the loop, given that it was `false` before. -/
def installDependenciesLoop (resourcesToBeReloaded : List ResourceID) :
    List ResourceID → Bool
  | [] => false
  | installDependency :: rest =>
    if VectorContains resourcesToBeReloaded installDependency then true
    else installDependenciesLoop resourcesToBeReloaded rest

/-- The value of the local `shouldUnload` of `BeginHotReload` when the test
`if ( shouldUnload )` is reached for `pLoadedResource`. -/
def shouldUnload (resourcesToBeReloaded : List ResourceID)
    (pLoadedResource : ResourcePtr ResourceID) : Bool :=
  if VectorContains resourcesToBeReloaded pLoadedResource.resourceID then true
  else installDependenciesLoop resourcesToBeReloaded pLoadedResource.installDependencies

/-- The loop `for ( auto& pLoadedResource : m_requestedResources )` of
`BeginHotReload`, run over the remaining addresses. -/
def unloadLoop (rs : ResourceSystem ResourceID) (resourcesToBeReloaded : List ResourceID) :
    List Nat → Workspace ResourceID Descriptor → Workspace ResourceID Descriptor
  | [], w => w
  | pLoadedResource :: rest, w =>
    if (w.resourcePtrs pLoadedResource).isUnloaded then
      unloadLoop rs resourcesToBeReloaded rest w
    else if shouldUnload resourcesToBeReloaded (w.resourcePtrs pLoadedResource) then
      unloadLoop rs resourcesToBeReloaded rest
        { w with
          resourcePtrs := writeResourcePtr w.resourcePtrs pLoadedResource
            (rs.UnloadResource w.resourceSystemRequests (w.resourcePtrs pLoadedResource))
          resourceSystemRequests :=
            w.resourceSystemRequests ++ [ResourceRequest.Unload pLoadedResource]
          m_reloadingResources := w.m_reloadingResources ++ [pLoadedResource] }
    else
      unloadLoop rs resourcesToBeReloaded rest w

/-- The function `Workspace::BeginHotReload`. `EE::Delete( m_pDescriptor )`
destroys the descriptor and nulls the pointer. `_usersToBeReloaded` is the
parameter `usersToBeReloaded`, which the body does not read. -/
def BeginHotReload (rs : ResourceSystem ResourceID) (w : Workspace ResourceID Descriptor)
    (_usersToBeReloaded : List Nat) (resourcesToBeReloaded : List ResourceID) :
    Workspace ResourceID Descriptor :=
  let w1 :=
    if w.isADescriptorWorkspace then
      if VectorContains resourcesToBeReloaded w.m_descriptorID then
        { w with m_pDescriptor := none }
      else w
    else w
  unloadLoop rs resourcesToBeReloaded w1.m_requestedResources w1

/-- The function `Workspace::LoadDescriptor`; `none` when one of its three
assertions fails. `ReadCustomDescriptorData` is a hook of derived workspaces and
touches none of the members modelled here. -/
def LoadDescriptor (file : DescriptorFile Descriptor) (w : Workspace ResourceID Descriptor) :
    Option (Workspace ResourceID Descriptor) :=
  if !w.isADescriptorWorkspace then none
  else if w.m_pDescriptor.isSome then none
  else
    match w.m_pDescriptorPropertyGrid with
    | none => none
    | some grid =>
      if !file.readFromFile then some w
      else
        some { w with
          m_pDescriptor := file.created
          m_pDescriptorPropertyGrid := some { grid with typeToEdit := file.created } }

/-- The loop `for ( auto& pReloadedResource : m_reloadingResources )` of
`EndHotReload`, run over the remaining addresses. -/
def loadLoop (rs : ResourceSystem ResourceID) :
    List Nat → Workspace ResourceID Descriptor → Workspace ResourceID Descriptor
  | [], w => w
  | pReloadedResource :: rest, w =>
    loadLoop rs rest
      { w with
        resourcePtrs := writeResourcePtr w.resourcePtrs pReloadedResource
          (rs.LoadResource w.resourceSystemRequests (w.resourcePtrs pReloadedResource))
        resourceSystemRequests :=
          w.resourceSystemRequests ++ [ResourceRequest.Load pReloadedResource] }

/-- The function `Workspace::EndHotReload`; `none` when an assertion of
`LoadDescriptor` fails. -/
def EndHotReload (rs : ResourceSystem ResourceID) (file : DescriptorFile Descriptor)
    (w : Workspace ResourceID Descriptor) : Option (Workspace ResourceID Descriptor) :=
  let w1 := loadLoop rs w.m_reloadingResources w
  let w2 := { w1 with m_reloadingResources := [] }
  if w2.isADescriptorWorkspace && !w2.IsDescriptorLoaded then
    LoadDescriptor file w2
  else
    some w2

end Workspace

/-! ## Definitions: `ResourceServer` and `ResourceServerWorker`

The scheduler and the worker are declared friends of `CompilationRequest`, but
their sources are outside the verified files. The definitions of this section
follow sections 4.2 to 4.4 and 5 of the specification. -/

/-- Modelled from the spec: the verdict of the `UpToDateChecker` (section 4.2),
"{UpToDate, Stale(reason)}". The checker, which is absent from the sources and
reads the file system, is given to the scheduler as a function from resource
IDs to verdicts. -/
inductive UpToDateVerdict where
  | UpToDate
  | Stale (reason : String)
  deriving DecidableEq, Repr

/-- Modelled from the spec: the "exit signal" of the external compiler process
that `ResourceServerWorker` (absent from the sources) observes, section 4.3: an
exit with an exit code, a crash, or the forced termination after the
timeout. -/
inductive ExitSignal where
  | Exited (exitCode : Int)
  | Crashed
  | TimedOut
  deriving DecidableEq, Repr

/-- Modelled from the spec: the worker slot of section 3, the "binding of one
ResourceServerWorker to at most one in-flight CompilationRequest"; the class
`ResourceServerWorker` is absent from the sources. `m_pRequest` is the handle
of the request in flight, `none` when the worker is free. -/
structure ResourceServerWorker where
  m_pRequest : Option Nat
  deriving DecidableEq, Repr

namespace ResourceServerWorker

/-- Modelled from the spec: the status mapping of `ResourceServerWorker`
(absent from the sources), section 4.3: "exit code 0 with no warning markers in
the log → Succeeded; exit code 0 with warning markers → SucceededWithWarnings;
non-zero exit, crash, or timeout → Failed". The log convention for warnings is
left open by the specification and passed as `hasWarningMarkers`. -/
def MapExitSignalToStatus (hasWarningMarkers : String → Bool) (exitSignal : ExitSignal)
    (log : String) : Status :=
  match exitSignal with
  | ExitSignal.Exited exitCode =>
    if exitCode = 0 then
      if hasWarningMarkers log then Status.SucceededWithWarnings else Status.Succeeded
    else Status.Failed
  | ExitSignal.Crashed => Status.Failed
  | ExitSignal.TimedOut => Status.Failed

/-- Modelled from the spec: the operation "Assign(request) → accepted|busy" of
`ResourceServerWorker` (absent from the sources), which "fails with busy if the
worker already holds an in-flight request"; `none` stands for busy. -/
def Assign (worker : ResourceServerWorker) (handle : Nat) : Option ResourceServerWorker :=
  match worker.m_pRequest with
  | some _ => none
  | none => some { m_pRequest := some handle }

end ResourceServerWorker

/-- Modelled from the spec: a request owned by the `ResourceServer` (absent
from the sources) together with the "requestHandle" that `Submit` returns for
it. -/
structure RequestEntry (Nanoseconds : Type) where
  handle : Nat
  request : CompilationRequest Nanoseconds

/-- Modelled from the spec: the state of the `ResourceServer` (absent from the
sources), section 4.4: the request queue, the worker pool, the next free
handle, and a log of the handles for which a compiler process was spawned,
oldest first. -/
structure ResourceServer (Nanoseconds : Type) where
  m_requests : List (RequestEntry Nanoseconds)
  m_workers : List ResourceServerWorker
  m_nextHandle : Nat
  m_spawnedProcesses : List Nat

/-- Modelled from the spec: one operation of the `ResourceServer` or of its
workers (absent from the sources): `Submit` (section 4.4; a file-watcher event
or a package build is a `Submit` with that origin), one run of the scheduling
loop with the verdicts of the up-to-date checker, the completion of the
compilation run by a worker (section 4.3; a dead worker is a completion with
`Crashed`), the cancellation of a request (section 5) and the retirement of a
terminal request (section 4.4). The clock is an explicit argument. -/
inductive ServerOperation (Nanoseconds : Type) where
  | Submit (timeRequested : Nat) (resourceID : String) (origin : Origin)
      (clientID : Option Nat)
  | SchedulingLoop (checkUpToDate : String → UpToDateVerdict) (now : Nanoseconds)
  | WorkerCompleted (worker : Nat) (exitSignal : ExitSignal) (output : String)
      (now : Nanoseconds)
  | Cancel (handle : Nat) (now : Nanoseconds)
  | Retire (handle : Nat)

namespace ResourceServer

variable {Nanoseconds Milliseconds : Type}

/-- Modelled from the spec: the initial state of the `ResourceServer` (absent
from the sources): no request, a pool of free workers. -/
def Create (numWorkers : Nat) : ResourceServer Nanoseconds where
  m_requests := []
  m_workers := List.replicate numWorkers { m_pRequest := none }
  m_nextHandle := 0
  m_spawnedProcesses := []

/-- Modelled from the spec: the test of `Submit` (absent from the sources) for
"an equivalent request (same resourceID) is already Pending or Compiling". -/
def IsActiveFor (resourceID : String) (entry : RequestEntry Nanoseconds) : Bool :=
  (entry.request.IsPending || entry.request.IsExecuting) &&
    entry.request.m_resourceID == resourceID

/-- Modelled from the spec: the operation "Submit(resourceID, origin,
clientID?) → requestHandle" of the `ResourceServer` (absent from the sources),
section 4.4: "if an equivalent request (same resourceID) is already Pending or
Compiling, returns the existing request instead of creating a duplicate";
"newly created requests start Pending". The client ID is stored for an external
origin and is "0 for internally originated requests" (section 3). -/
def Submit (U : TimeUnits Nanoseconds Milliseconds) (server : ResourceServer Nanoseconds)
    (timeRequested : Nat) (resourceID : String) (origin : Origin) (clientID : Option Nat) :
    ResourceServer Nanoseconds × Nat :=
  match server.m_requests.find? (IsActiveFor resourceID) with
  | some existing => (server, existing.handle)
  | none =>
    ({ server with
        m_requests := server.m_requests ++
          [{ handle := server.m_nextHandle
             request :=
              { CompilationRequest.defaultInit U timeRequested with
                m_resourceID := resourceID
                m_origin := origin
                m_clientID := if origin = Origin.External then clientID.getD 0 else 0 } }]
        m_nextHandle := server.m_nextHandle + 1 },
      server.m_nextHandle)

/-- Modelled from the spec: the search of the scheduling loop of the
`ResourceServer` (absent from the sources) for a free worker, "if stale and a
worker is free, assign it": the pool after the first worker that accepts the
request has taken it, `none` when every worker is busy. -/
def assignToFreeWorker (handle : Nat) :
    List ResourceServerWorker → Option (List ResourceServerWorker)
  | [] => none
  | worker :: rest =>
    match worker.Assign handle with
    | some assigned => some (assigned :: rest)
    | none => (assignToFreeWorker handle rest).map (fun pool => worker :: pool)

/-- Modelled from the spec: the scheduling loop of the `ResourceServer` (absent
from the sources), section 4.4, run over the requests in queue order: "for each
Pending request, run the UpToDateChecker; if up-to-date, transition directly to
Succeeded without invoking a worker (cache hit — no compiler process spawned);
if stale and a worker is free, assign it; if stale and no worker is free, the
request remains Pending". The assigned worker "transitions it to Compiling"
(section 2) and spawns the compiler process. The result is the new queue, the
new pool and the new log of spawned processes. -/
def schedulingLoop (checkUpToDate : String → UpToDateVerdict) (now : Nanoseconds) :
    List (RequestEntry Nanoseconds) → List ResourceServerWorker → List Nat →
      List (RequestEntry Nanoseconds) × List ResourceServerWorker × List Nat
  | [], workers, spawned => ([], workers, spawned)
  | entry :: rest, workers, spawned =>
    if entry.request.IsPending then
      match checkUpToDate entry.request.m_resourceID with
      | UpToDateVerdict.UpToDate =>
        let result := schedulingLoop checkUpToDate now rest workers spawned
        ({ entry with request := { entry.request with m_status := Status.Succeeded } }
          :: result.1, result.2)
      | UpToDateVerdict.Stale _ =>
        match assignToFreeWorker entry.handle workers with
        | some pool =>
          let result := schedulingLoop checkUpToDate now rest pool (spawned ++ [entry.handle])
          ({ entry with
              request :=
                { entry.request with
                  m_status := Status.Compiling
                  m_compilationTimeStarted := now } } :: result.1, result.2)
        | none =>
          let result := schedulingLoop checkUpToDate now rest workers spawned
          (entry :: result.1, result.2)
    else
      let result := schedulingLoop checkUpToDate now rest workers spawned
      (entry :: result.1, result.2)

/-- Modelled from the spec: one run of the scheduling loop of the
`ResourceServer` (absent from the sources) on the server state. -/
def SchedulingLoop (server : ResourceServer Nanoseconds)
    (checkUpToDate : String → UpToDateVerdict) (now : Nanoseconds) :
    ResourceServer Nanoseconds :=
  let result := schedulingLoop checkUpToDate now server.m_requests server.m_workers
    server.m_spawnedProcesses
  { server with
    m_requests := result.1
    m_workers := result.2.1
    m_spawnedProcesses := result.2.2 }

/-- Modelled from the spec: what the completion of a compilation does to a
request of the `ResourceServer` (absent from the sources), section 4.3: the
captured output is added to the log, the exit signal is mapped to the status,
and the worker "stamps compilationTimeFinished". Only the request in flight,
which is Compiling, is changed. -/
def completeRequest (hasWarningMarkers : String → Bool) (handle : Nat)
    (exitSignal : ExitSignal) (output : String) (now : Nanoseconds)
    (entry : RequestEntry Nanoseconds) : RequestEntry Nanoseconds :=
  if entry.handle = handle ∧ entry.request.IsExecuting = true then
    { entry with
      request :=
        { entry.request with
          m_log := entry.request.m_log ++ output
          m_status := ResourceServerWorker.MapExitSignalToStatus hasWarningMarkers exitSignal
            (entry.request.m_log ++ output)
          m_compilationTimeFinished := now } }
  else entry

/-- Modelled from the spec: the worker pool of the `ResourceServer` (absent
from the sources) after the worker holding `handle` "releases itself back to
the pool". -/
def releaseWorker (handle : Nat) (workers : List ResourceServerWorker) :
    List ResourceServerWorker :=
  workers.map (fun worker =>
    if worker.m_pRequest = some handle then { m_pRequest := none } else worker)

/-- Modelled from the spec: the completion of the compilation run by worker
number `worker` of the `ResourceServer` (absent from the sources), section 4.3:
the worker maps the exit signal to the request status, stamps the finish time,
releases itself and "returns the completed request to the ResourceServer".
Nothing happens when that worker is free. -/
def WorkerCompleted (hasWarningMarkers : String → Bool) (server : ResourceServer Nanoseconds)
    (worker : Nat) (exitSignal : ExitSignal) (output : String) (now : Nanoseconds) :
    ResourceServer Nanoseconds :=
  match server.m_workers.get? worker with
  | some { m_pRequest := some handle } =>
    { server with
      m_requests := server.m_requests.map
        (completeRequest hasWarningMarkers handle exitSignal output now)
      m_workers := releaseWorker handle server.m_workers }
  | _ => server

/-- Modelled from the spec: what a cancellation does to a request of the
`ResourceServer` (absent from the sources), section 5: "a request may be
cancelled while Pending (simply removed from the queue); a request already
Compiling is cancelled by instructing its worker to terminate the external
process, which resolves to Failed with a cancelled log marker". `none` stands
for the removal. -/
def cancelRequest (handle : Nat) (now : Nanoseconds) (entry : RequestEntry Nanoseconds) :
    Option (RequestEntry Nanoseconds) :=
  if entry.handle = handle then
    if entry.request.IsPending then none
    else if entry.request.IsExecuting then
      some { entry with
        request :=
          { entry.request with
            m_log := entry.request.m_log ++ "cancelled"
            m_status := Status.Failed
            m_compilationTimeFinished := now } }
    else some entry
  else some entry

/-- Modelled from the spec: the cancellation of the request `handle` by the
`ResourceServer` (absent from the sources), section 5; the worker that ran it,
if any, returns to the pool. -/
def Cancel (server : ResourceServer Nanoseconds) (handle : Nat) (now : Nanoseconds) :
    ResourceServer Nanoseconds :=
  { server with
    m_requests := server.m_requests.filterMap (cancelRequest handle now)
    m_workers := releaseWorker handle server.m_workers }

/-- Modelled from the spec: the retirement of the request `handle` by the
`ResourceServer` (absent from the sources), section 4.4: "a terminal request is
retained for a bounded time/window for late queries, then discarded". A request
that is not terminal is kept. -/
def Retire (server : ResourceServer Nanoseconds) (handle : Nat) :
    ResourceServer Nanoseconds :=
  { server with
    m_requests := server.m_requests.filterMap (fun entry =>
      if entry.handle = handle ∧ entry.request.IsComplete = true then none else some entry) }

/-- Modelled from the spec: the effect of one operation on the state of the
`ResourceServer` (absent from the sources). -/
def Apply (U : TimeUnits Nanoseconds Milliseconds) (hasWarningMarkers : String → Bool)
    (server : ResourceServer Nanoseconds) :
    ServerOperation Nanoseconds → ResourceServer Nanoseconds
  | ServerOperation.Submit timeRequested resourceID origin clientID =>
    (server.Submit U timeRequested resourceID origin clientID).1
  | ServerOperation.SchedulingLoop checkUpToDate now =>
    server.SchedulingLoop checkUpToDate now
  | ServerOperation.WorkerCompleted worker exitSignal output now =>
    server.WorkerCompleted hasWarningMarkers worker exitSignal output now
  | ServerOperation.Cancel handle now => server.Cancel handle now
  | ServerOperation.Retire handle => server.Retire handle

/-- Modelled from the spec: the state of the `ResourceServer` (absent from the
sources) after a sequence of operations, oldest first. -/
def Run (U : TimeUnits Nanoseconds Milliseconds) (hasWarningMarkers : String → Bool)
    (server : ResourceServer Nanoseconds) (operations : List (ServerOperation Nanoseconds)) :
    ResourceServer Nanoseconds :=
  operations.foldl (Apply U hasWarningMarkers) server

end ResourceServer

/-- The status changes of one request that keep the order Pending, Compiling,
terminal: no change, Pending to Compiling, Pending to Succeeded (the cache hit
of the scheduling loop), Compiling to a terminal status. -/
def StatusStep (before after : Status) : Prop :=
  after = before ∨
    (before = Status.Pending ∧ after = Status.Compiling) ∨
    (before = Status.Pending ∧ after = Status.Succeeded) ∨
    (before = Status.Compiling ∧
      (after = Status.Succeeded ∨ after = Status.SucceededWithWarnings ∨
        after = Status.Failed))

/-- The status changes that the data model of the specification lists:
Pending to Compiling and Compiling to a terminal status, or no change. -/
def ListedStatusStep (before after : Status) : Prop :=
  after = before ∨
    (before = Status.Pending ∧ after = Status.Compiling) ∨
    (before = Status.Compiling ∧
      (after = Status.Succeeded ∨ after = Status.SucceededWithWarnings ∨
        after = Status.Failed))

/-- One request of the server before and after an operation: the handle, the
resource ID, the origin and the client ID are kept and the status makes a
`StatusStep`. -/
def EntryStep {Nanoseconds : Type} (before after : RequestEntry Nanoseconds) : Prop :=
  after.handle = before.handle ∧
    after.request.m_resourceID = before.request.m_resourceID ∧
    after.request.m_origin = before.request.m_origin ∧
    after.request.m_clientID = before.request.m_clientID ∧
    StatusStep before.request.m_status after.request.m_status

/-- The queue of the server before and after an operation that creates no
request: each request is either kept, with an `EntryStep`, or removed. -/
inductive RequestsEvolve {Nanoseconds : Type} :
    List (RequestEntry Nanoseconds) → List (RequestEntry Nanoseconds) → Prop where
  | nil : RequestsEvolve [] []
  | keep {before after : RequestEntry Nanoseconds}
      {rest restAfter : List (RequestEntry Nanoseconds)} :
      EntryStep before after → RequestsEvolve rest restAfter →
      RequestsEvolve (before :: rest) (after :: restAfter)
  | remove {before : RequestEntry Nanoseconds}
      {rest restAfter : List (RequestEntry Nanoseconds)} :
      RequestsEvolve rest restAfter → RequestsEvolve (before :: rest) restAfter

/-- The handles of the queue are pairwise different and below the next free
handle. -/
def ResourceServer.HandlesAreFresh {Nanoseconds : Type} (server : ResourceServer Nanoseconds) :
    Prop :=
  (server.m_requests.map (fun entry => entry.handle)).Nodup ∧
    ∀ entry, entry ∈ server.m_requests → entry.handle < server.m_nextHandle

/-! ## Definitions: `ResourceWorkspaceFactory::CreateWorkspace` -/

/-- What `CreateWorkspace` asks of a `ResourceID` and of its resource type ID:
`resourceID.IsValid()`, `resourceID.GetResourceTypeID()` and
`resourceTypeID.IsValid()`. The two classes are declared outside the verified
files. -/
structure ResourceIDInterface (ResourceID TypeID : Type) where
  IsValid : ResourceID → Bool
  GetResourceTypeID : ResourceID → TypeID
  IsValidTypeID : TypeID → Bool

/-- One `ResourceWorkspaceFactory` of the global registry: the resource type
ID it supports and the workspace that its `CreateWorkspaceInternal` makes for a
resource ID. The registry, a list linked through `GetNextItem()` from
`s_pHead`, is the list of its factories in that order. -/
structure ResourceWorkspaceFactory (ResourceID TypeID WorkspaceT : Type) where
  GetSupportedResourceTypeID : TypeID
  CreateWorkspaceInternal : ResourceID → WorkspaceT

/-- The workspace that `CreateWorkspace` returns: the one made by a registered
factory, or the generic descriptor workspace
`EE::New<Workspace>( pToolsContext, pWorld, resourceID )`. -/
inductive CreatedWorkspace (ResourceID WorkspaceT : Type) where
  | ByFactory (workspace : WorkspaceT)
  | Generic (resourceID : ResourceID)

namespace ResourceWorkspaceFactory

variable {ResourceID TypeID WorkspaceT : Type} [DecidableEq TypeID]

/-- The loop `while ( pCurrentFactory != nullptr )` of `CreateWorkspace` over
the remaining factories: the workspace returned from inside the loop, `none`
when the loop ends without returning. -/
def factoryLoop (resourceTypeID : TypeID) (resourceID : ResourceID) :
    List (ResourceWorkspaceFactory ResourceID TypeID WorkspaceT) → Option WorkspaceT
  | [] => none
  | pCurrentFactory :: next =>
    if resourceTypeID = pCurrentFactory.GetSupportedResourceTypeID then
      some (pCurrentFactory.CreateWorkspaceInternal resourceID)
    else factoryLoop resourceTypeID resourceID next

/-- The loop of `CreateWorkspace` over `resourceDescriptorTypes`, given as the
list of the values `pDefaultInstance->GetCompiledResourceTypeID()` of the
descriptor types: whether the loop returns the generic workspace. -/
def descriptorLoop (resourceTypeID : TypeID) : List TypeID → Bool
  | [] => false
  | compiledResourceTypeID :: rest =>
    if compiledResourceTypeID = resourceTypeID then true
    else descriptorLoop resourceTypeID rest

/-- The function `ResourceWorkspaceFactory::CreateWorkspace`; `none` when one
of the two assertions fails or `EE_UNREACHABLE_CODE()` is reached. -/
def CreateWorkspace (ids : ResourceIDInterface ResourceID TypeID)
    (registry : List (ResourceWorkspaceFactory ResourceID TypeID WorkspaceT))
    (resourceDescriptorTypes : List TypeID) (resourceID : ResourceID) :
    Option (CreatedWorkspace ResourceID WorkspaceT) :=
  if !ids.IsValid resourceID then none
  else if !ids.IsValidTypeID (ids.GetResourceTypeID resourceID) then none
  else
    match factoryLoop (ids.GetResourceTypeID resourceID) resourceID registry with
    | some workspace => some (CreatedWorkspace.ByFactory workspace)
    | none =>
      if descriptorLoop (ids.GetResourceTypeID resourceID) resourceDescriptorTypes then
        some (CreatedWorkspace.Generic resourceID)
      else none

end ResourceWorkspaceFactory

/-! ## Definitions: `GraphInstance` control parameters -/

/-- The value of an integer expression converted to `int16_t`: reduction
modulo `2^16` into the range from -32768 to 32767. -/
def toInt16 (x : Int) : Int := (x + 32768) % 65536 - 32768

/-- The value of an integer expression converted to `int32_t`: reduction
modulo `2^32` into the range from `-2^31` to `2^31 - 1`. -/
def toInt32 (x : Int) : Int := (x + 2147483648) % 4294967296 - 2147483648

/-- The value of a signed integer converted to the unsigned 64-bit type of
`size()`, as the comparison of an `int16_t` with a `size()` does. -/
def toSizeT (x : Int) : Int := x % 18446744073709551616

/-- The ways a control parameter accessor can fail to return: a failed
`EE_ASSERT`, an index outside the vector it is applied to, and a loop that is
still running when the fuel of the model is used up. -/
inductive Fault where
  | AssertionFailed
  | OutOfRange (index : Int)
  | OutOfFuel
  deriving DecidableEq, Repr

/-- The element access `vector[index]` of a vector: the element, or the fault
`OutOfRange` when the index is negative or not below the size. -/
def vectorAt {α : Type} (vector : List α) (index : Int) : Except Fault α :=
  if index < 0 then Except.error (Fault.OutOfRange index)
  else
    match vector[index.toNat]? with
    | some element => Except.ok element
    | none => Except.error (Fault.OutOfRange index)

/-- What the control parameter accessors read of a `GraphInstance`:
`m_pGraphVariation->m_pGraphDefinition->m_controlParameterIDs`, the size of
`m_pGraphVariation->m_pGraphDefinition->m_nodeSettings`, and the value type of
each node of `m_nodes`. -/
structure GraphInstance (StringID GraphValueType : Type) where
  m_controlParameterIDs : List StringID
  numNodeSettings : Nat
  m_nodes : List GraphValueType

namespace GraphInstance

variable {StringID GraphValueType : Type} [DecidableEq StringID]

/-- Accessor `IsValidNodeIndex( nodeIdx )`: `nodeIdx < m_nodeSettings.size()`,
a comparison with an unsigned size, for which `nodeIdx` is converted to the
unsigned type. -/
def IsValidNodeIndex (g : GraphInstance StringID GraphValueType) (nodeIdx : Int) : Bool :=
  decide (toSizeT nodeIdx < (g.numNodeSettings : Int))

/-- Accessor `GetNumControlParameters()`:
`(int32_t) m_controlParameterIDs.size()`. -/
def GetNumControlParameters (g : GraphInstance StringID GraphValueType) : Int :=
  toInt32 (g.m_controlParameterIDs.length : Int)

/-- Accessor `IsControlParameter( nodeIdx )`:
`nodeIdx < GetNumControlParameters()`, a comparison of signed integers. -/
def IsControlParameter (g : GraphInstance StringID GraphValueType) (nodeIdx : Int) : Bool :=
  decide (nodeIdx < g.GetNumControlParameters)

/-- The loop `for ( int16_t i = 0; i < numParams; i++ )` of
`GetControlParameterIndex` from counter value `i` on, with the `return
InvalidIndex` that follows it. `i++` stores `i + 1` converted to `int16_t`.
`InvalidIndex` is the engine constant of that name, declared outside the
verified files, and is passed in; the function returns it converted to
`int16_t`. Each loop test uses one unit of fuel. -/
def controlParameterIndexLoop (g : GraphInstance StringID GraphValueType)
    (parameterID : StringID) (InvalidIndex : Int) : Nat → Int → Except Fault Int
  | 0, _ => Except.error Fault.OutOfFuel
  | fuel + 1, i =>
    if i < g.GetNumControlParameters then
      match vectorAt g.m_controlParameterIDs i with
      | Except.error fault => Except.error fault
      | Except.ok controlParameterID =>
        if controlParameterID = parameterID then Except.ok i
        else controlParameterIndexLoop g parameterID InvalidIndex fuel (toInt16 (i + 1))
    else Except.ok (toInt16 InvalidIndex)

/-- The function `GetControlParameterIndex( parameterID )`, run with the given
fuel. -/
def GetControlParameterIndex (fuel : Nat) (g : GraphInstance StringID GraphValueType)
    (parameterID : StringID) (InvalidIndex : Int) : Except Fault Int :=
  controlParameterIndexLoop g parameterID InvalidIndex fuel 0

/-- The function `GetControlParameterID( parameterNodeIdx )`:
`EE_ASSERT( IsControlParameter( parameterNodeIdx ) )`, then
`m_controlParameterIDs[parameterNodeIdx]`. -/
def GetControlParameterID (g : GraphInstance StringID GraphValueType)
    (parameterNodeIdx : Int) : Except Fault StringID :=
  if !g.IsControlParameter parameterNodeIdx then Except.error Fault.AssertionFailed
  else vectorAt g.m_controlParameterIDs parameterNodeIdx

/-- The function `GetControlParameterType( parameterNodeIdx )`:
`EE_ASSERT( IsControlParameter( parameterNodeIdx ) )`, then the value type of
`m_nodes[parameterNodeIdx]`. `SetControlParameterValue` and
`GetControlParameterValue` make the same assertion and the same access to
`m_nodes`. -/
def GetControlParameterType (g : GraphInstance StringID GraphValueType)
    (parameterNodeIdx : Int) : Except Fault GraphValueType :=
  if !g.IsControlParameter parameterNodeIdx then Except.error Fault.AssertionFailed
  else vectorAt g.m_nodes parameterNodeIdx

end GraphInstance

/-! ## Definitions: `Workspace` construction, descriptor modification and saving -/

namespace ResourceDescriptorUndoableAction

variable {Descriptor : Type}

/-- Constructor `ResourceDescriptorUndoableAction( typeRegistry, pWorkspace )`,
called with `pWorkspace = this`: `EE_ASSERT( m_pWorkspace->m_pDescriptor != nullptr )`;
both strings start empty. `none` when the assertion fails. -/
def New (pDescriptor : Option Descriptor) : Option ResourceDescriptorUndoableAction :=
  match pDescriptor with
  | none => none
  | some _ => some { m_valueBefore := "", m_valueAfter := "" }

/-- The function `SerializeBeforeState()`: the JSON text of the workspace's
descriptor becomes `m_valueBefore`. `serialize` is the text that
`WriteNativeTypeContents` and `WriteCustomDescriptorData` write between
`StartObject` and `EndObject`; both are declared outside this file, and
`Descriptor` stands for all that they read. Writing through a null descriptor
pointer is a fault, `none`. -/
def SerializeBeforeState (serialize : Descriptor → String) (pDescriptor : Option Descriptor)
    (action : ResourceDescriptorUndoableAction) : Option ResourceDescriptorUndoableAction :=
  match pDescriptor with
  | none => none
  | some descriptor => some { action with m_valueBefore := serialize descriptor }

/-- The function `SerializeAfterState()`, its effect on the action: the JSON text
of the workspace's descriptor becomes `m_valueAfter`. It also sets the
workspace's `m_isDirty`, which `Workspace.EndDescriptorModification` records. -/
def SerializeAfterState (serialize : Descriptor → String) (pDescriptor : Option Descriptor)
    (action : ResourceDescriptorUndoableAction) : Option ResourceDescriptorUndoableAction :=
  match pDescriptor with
  | none => none
  | some descriptor => some { action with m_valueAfter := serialize descriptor }

end ResourceDescriptorUndoableAction

/-- A call on a workspace whose descriptor is being modified:
`BeginDescriptorModification()`, `EndDescriptorModification()`, or an edit of the
descriptor in place by the caller, such as the property grid makes between its
pre-edit and its post-edit event, after which the descriptor holds `newValue`. -/
inductive DescriptorCall (Descriptor : Type) where
  | beginModification
  | endModification
  | edit (newValue : Descriptor)
  deriving DecidableEq, Repr

namespace Workspace

variable {ResourceID Descriptor : Type}

/-- Constructor `Workspace( pToolsContext, pWorld, resourceID )`.
`declared` is the object as the default member initialisers of `Workspace.h`
leave it, with the value that `IsADescriptorWorkspace()` has for it; the
constructor assigns `m_descriptorID`, `m_descriptorPath` and
`m_pDescriptorPropertyGrid`, and only binds the two edit callbacks.
`IsValid` is `ResourceID::IsValid`, `GetFileSystemPath` the function of that
name, `newPropertyGrid` the grid that `EE::New<PropertyGrid>` returns.
`none` when `EE_ASSERT( resourceID.IsValid() )` fails. -/
def FromResourceID (declared : Workspace ResourceID Descriptor) (IsValid : ResourceID → Bool)
    (GetFileSystemPath : ResourceID → String) (newPropertyGrid : PropertyGrid Descriptor)
    (resourceID : ResourceID) : Option (Workspace ResourceID Descriptor) :=
  if IsValid resourceID then
    some { declared with
      m_descriptorID := resourceID
      m_descriptorPath := GetFileSystemPath resourceID
      m_pDescriptorPropertyGrid := some newPropertyGrid }
  else none

/-- Constructor `Workspace( pToolsContext, pWorld, displayName )`: it assigns none
of the members of the model. `declared` is as for `FromResourceID`. -/
def FromDisplayName (declared : Workspace ResourceID Descriptor) :
    Workspace ResourceID Descriptor :=
  declared

/-- The function `Workspace::BeginDescriptorModification()`. On the first call
(call count 0) it creates the undoable action, serialises the before state into
it and makes it the active action; every call increments the call count. -/
def BeginDescriptorModification (serialize : Descriptor → String)
    (w : Workspace ResourceID Descriptor) : Option (Workspace ResourceID Descriptor) :=
  if w.m_beginModificationCallCount = 0 then
    match ResourceDescriptorUndoableAction.New w.m_pDescriptor with
    | none => none
    | some created =>
      match created.SerializeBeforeState serialize w.m_pDescriptor with
      | none => none
      | some pUndoableAction =>
        some { w with
          m_pActiveUndoableAction := some pUndoableAction
          m_beginModificationCallCount := w.m_beginModificationCallCount + 1 }
  else
    some { w with m_beginModificationCallCount := w.m_beginModificationCallCount + 1 }

/-- The function `Workspace::EndDescriptorModification()`. `none` when one of
`EE_ASSERT( m_beginModificationCallCount > 0 )` and
`EE_ASSERT( m_pActiveUndoableAction != nullptr )` fails. It decrements the call
count; when the count reaches 0 it serialises the after state into the active
action, registers the action on the undo stack, clears the active action and
sets `m_isDirty`. -/
def EndDescriptorModification (serialize : Descriptor → String)
    (w : Workspace ResourceID Descriptor) : Option (Workspace ResourceID Descriptor) :=
  if 0 < w.m_beginModificationCallCount then
    match w.m_pActiveUndoableAction with
    | none => none
    | some active =>
      if w.m_beginModificationCallCount - 1 = 0 then
        match active.SerializeAfterState serialize w.m_pDescriptor with
        | none => none
        | some pUndoableAction =>
          some { w with
            m_beginModificationCallCount := w.m_beginModificationCallCount - 1
            m_undoStack := w.m_undoStack ++ [pUndoableAction]
            m_pActiveUndoableAction := none
            m_isDirty := true }
      else
        some { w with m_beginModificationCallCount := w.m_beginModificationCallCount - 1 }
  else none

/-- One call of a `DescriptorCall` on a workspace. An edit needs a descriptor to
edit and replaces its contents. -/
def ApplyDescriptorCall (serialize : Descriptor → String)
    (w : Workspace ResourceID Descriptor) :
    DescriptorCall Descriptor → Option (Workspace ResourceID Descriptor)
  | DescriptorCall.beginModification => w.BeginDescriptorModification serialize
  | DescriptorCall.endModification => w.EndDescriptorModification serialize
  | DescriptorCall.edit newValue =>
    match w.m_pDescriptor with
    | none => none
    | some _ => some { w with m_pDescriptor := some newValue }

/-- A sequence of calls, made one after the other; `none` as soon as one of them
fails an assertion. -/
def RunDescriptorCalls (serialize : Descriptor → String) :
    List (DescriptorCall Descriptor) → Workspace ResourceID Descriptor →
      Option (Workspace ResourceID Descriptor)
  | [], w => some w
  | call :: rest, w =>
    match w.ApplyDescriptorCall serialize call with
    | none => none
    | some next => RunDescriptorCalls serialize rest next

/-- The function `Workspace::Save()`: the workspace afterwards and the value
returned. `IsFilePath` is `FileSystem::Path::IsFilePath`; `WriteToFile contents
path` is whether `descriptorWriter.WriteToFile( path )` succeeds for a writer
holding `contents`; `serialize` is as for `SerializeBeforeState`;
`ClearDirty()` resets the dirty flag of the property grid. `none` when one of
the three assertions fails. -/
def Save (IsFilePath : String → Bool) (WriteToFile : String → String → Bool)
    (serialize : Descriptor → String) (w : Workspace ResourceID Descriptor) :
    Option (Workspace ResourceID Descriptor × Bool) :=
  if w.isADescriptorWorkspace then
    if IsFilePath w.m_descriptorPath then
      match w.m_pDescriptor, w.m_pDescriptorPropertyGrid with
      | some descriptor, some grid =>
        if WriteToFile (serialize descriptor) w.m_descriptorPath then
          some ({ w with
                  m_pDescriptorPropertyGrid := some { grid with isDirty := false }
                  m_isDirty := false }, true)
        else
          some (w, false)
      | _, _ => none
    else none
  else
    some (w, true)

end Workspace

/-- The predicate of the descriptor-modification state: the active undoable
action is non-null exactly when the call count is positive. -/
def ActionMatchesCallCount {ResourceID Descriptor : Type}
    (w : Workspace ResourceID Descriptor) : Prop :=
  w.m_pActiveUndoableAction.isSome = true ↔ 0 < w.m_beginModificationCallCount

/-- Whether a sequence of calls is balanced when read at nesting depth `depth`:
no `EndDescriptorModification` without an open `BeginDescriptorModification`,
and every begin closed at the end. -/
def balancedFrom {Descriptor : Type} : Nat → List (DescriptorCall Descriptor) → Bool
  | depth, [] => depth == 0
  | depth, DescriptorCall.beginModification :: rest => balancedFrom (depth + 1) rest
  | 0, DescriptorCall.endModification :: _ => false
  | depth + 1, DescriptorCall.endModification :: rest => balancedFrom depth rest
  | depth, DescriptorCall.edit _ :: rest => balancedFrom depth rest

/-- The contents of a descriptor that held `descriptor` after the edits among
`calls`: the value of the last edit, if there is one. -/
def descriptorAfter {Descriptor : Type} (descriptor : Descriptor) :
    List (DescriptorCall Descriptor) → Descriptor
  | [] => descriptor
  | DescriptorCall.edit newValue :: rest => descriptorAfter newValue rest
  | DescriptorCall.beginModification :: rest => descriptorAfter descriptor rest
  | DescriptorCall.endModification :: rest => descriptorAfter descriptor rest

/-! ## Concrete requests and workspaces used as test inputs -/

/-- A request that is being compiled: its up-to-date check ran from clock
reading 5 to clock reading 7 and its compilation started at clock reading 10. -/
def compilingRequest : CompilationRequest Int where
  m_clientID := 3
  m_resourceID := "data://A.mesh"
  m_compilerVersion := 2
  m_fileTimestamp := 0
  m_sourceTimestampHash := 0
  m_sourceFile := "A.msh"
  m_destinationFile := "A.mesh"
  m_compilerArgs := ""
  m_timeRequested := 1
  m_compilationTimeStarted := 10
  m_compilationTimeFinished := 0
  m_upToDateCheckTimeStarted := 5
  m_upToDateCheckTimeFinished := 7
  m_log := ""
  m_status := Status.Compiling
  m_origin := Origin.External

/-- The request `compilingRequest` once its compilation has finished, at clock
reading 25, with the given terminal status. -/
def finishedRequest (status : Status) : CompilationRequest Int :=
  { compilingRequest with m_compilationTimeFinished := 25, m_status := status }

/-- A resource system whose `UnloadResource` leaves the `ResourcePtr` unloaded
and whose `LoadResource` leaves it not unloaded. -/
def simpleResourceSystem : ResourceSystem Nat where
  UnloadResource := fun _ r => { r with isUnloaded := true }
  LoadResource := fun _ r => { r with isUnloaded := false }

/-- A `ResourcePtr` memory with three objects: address 1 holds resource 10
(loaded, no install dependency), address 2 holds resource 20 (loaded, install
dependency 10), address 3 holds resource 30 (loaded, install dependency 40);
every other address holds an unloaded resource 0. -/
def sampleResourcePtrs : Nat → ResourcePtr Nat := fun p =>
  if p = 1 then { resourceID := 10, isUnloaded := false, installDependencies := [] }
  else if p = 2 then { resourceID := 20, isUnloaded := false, installDependencies := [10] }
  else if p = 3 then { resourceID := 30, isUnloaded := false, installDependencies := [40] }
  else { resourceID := 0, isUnloaded := true, installDependencies := [] }

/-- A workspace without descriptor that has requested the resources at
addresses 1, 2 and 3 and is not in the middle of a hot reload. -/
def sampleWorkspace : Workspace Nat Unit where
  isADescriptorWorkspace := false
  m_descriptorID := 0
  m_pDescriptor := none
  m_pDescriptorPropertyGrid := none
  resourcePtrs := sampleResourcePtrs
  m_requestedResources := [1, 2, 3]
  m_reloadingResources := []
  resourceSystemRequests := []

/-- The workspace `sampleWorkspace` after `BeginHotReload` for resource 10 and
before the matching `EndHotReload`: addresses 1 and 2 are waiting to be
reloaded. -/
def midReloadWorkspace : Workspace Nat Unit :=
  Workspace.BeginHotReload simpleResourceSystem sampleWorkspace [] [10]

/-- A descriptor file that cannot be read. -/
def unreadableFile : DescriptorFile Unit where
  readFromFile := false
  created := none

/-- A log convention for the examples: a log has warning markers when it is
the text "warning". -/
def sampleWarningMarkers : String → Bool := fun log => log == "warning"

/-- The request that `Submit` creates for resource "A.mesh" on behalf of the
external client 1, under handle 0. -/
def pendingEntry : RequestEntry Int where
  handle := 0
  request :=
    { CompilationRequest.defaultInit exactUnits 0 with
      m_resourceID := "A.mesh"
      m_origin := Origin.External
      m_clientID := 1 }

/-- A server with one worker after client 1 has submitted resource "A.mesh". -/
def sampleServer : ResourceServer Int :=
  ResourceServer.Run exactUnits sampleWarningMarkers (ResourceServer.Create 1)
    [ServerOperation.Submit 0 "A.mesh" Origin.External (some 1)]

/-- An up-to-date checker that finds every resource up to date. -/
def allUpToDate : String → UpToDateVerdict := fun _ => UpToDateVerdict.UpToDate

/-- The request `pendingEntry` after the scheduling loop found it up to date. -/
def cacheHitEntry : RequestEntry Int :=
  { pendingEntry with request := { pendingEntry.request with m_status := Status.Succeeded } }

/-- A request with an internal origin that stores the client ID 3: the record
`compilingRequest` with origin FileWatcher. -/
def internalRequestWithClientID : CompilationRequest Int :=
  { compilingRequest with m_origin := Origin.FileWatcher }

/-- The request that `Submit` creates when the file watcher submits "B.anim"
and passes the client ID 7: the client ID is not stored. -/
def fileWatcherEntry : RequestEntry Int where
  handle := 0
  request :=
    { CompilationRequest.defaultInit exactUnits 4 with
      m_resourceID := "B.anim"
      m_origin := Origin.FileWatcher
      m_clientID := 0 }

/-- A descriptor workspace for resource 10 whose descriptor is loaded and which
has requested the resources at addresses 1, 2 and 3. -/
def descriptorWorkspace : Workspace Nat Unit where
  isADescriptorWorkspace := true
  m_descriptorID := 10
  m_pDescriptor := some ()
  m_pDescriptorPropertyGrid := some { typeToEdit := some (), isDirty := false }
  resourcePtrs := sampleResourcePtrs
  m_requestedResources := [1, 2, 3]
  m_reloadingResources := []
  resourceSystemRequests := []

/-- A descriptor file that can be read and yields a descriptor. -/
def readableFile : DescriptorFile Unit where
  readFromFile := true
  created := some ()

/-- Resource IDs for the examples: a resource ID is a natural number, valid
when it is not 0, and its type ID is its remainder modulo 10, valid when it is
not 0. -/
def sampleResourceIDs : ResourceIDInterface Nat Nat where
  IsValid := fun resourceID => resourceID != 0
  GetResourceTypeID := fun resourceID => resourceID % 10
  IsValidTypeID := fun typeID => typeID != 0

/-- A registry with three factories, for the type IDs 3, 5 and 3 again; each
makes a workspace named after its place in the registry. -/
def sampleRegistry : List (ResourceWorkspaceFactory Nat Nat String) :=
  [{ GetSupportedResourceTypeID := 3, CreateWorkspaceInternal := fun _ => "first" },
   { GetSupportedResourceTypeID := 5, CreateWorkspaceInternal := fun _ => "second" },
   { GetSupportedResourceTypeID := 3, CreateWorkspaceInternal := fun _ => "third" }]

/-- A graph instance with the three control parameters 7, 8 and 7 and five
nodes. -/
def sampleGraph : GraphInstance Nat Nat where
  m_controlParameterIDs := [7, 8, 7]
  numNodeSettings := 5
  m_nodes := [1, 1, 2, 3, 3]

/-- A graph instance with 32769 control parameters: 32768 times the ID 0, then
the ID 1. -/
def oversizedGraph : GraphInstance Nat Nat where
  m_controlParameterIDs := List.replicate 32768 0 ++ [1]
  numNodeSettings := 32769
  m_nodes := []

/-- A descriptor workspace for resource 10 whose descriptor holds the text
`"low"` and is saved at `"data/mesh.msh"`; no modification is begun, the
workspace is clean, and its property grid has an edit that is not yet saved. -/
def textWorkspace : Workspace Nat String where
  isADescriptorWorkspace := true
  m_descriptorID := 10
  m_pDescriptor := some "low"
  m_pDescriptorPropertyGrid := some { typeToEdit := some "low", isDirty := true }
  resourcePtrs := sampleResourcePtrs
  m_requestedResources := []
  m_reloadingResources := []
  resourceSystemRequests := []
  m_descriptorPath := "data/mesh.msh"

/-- A workspace before the body of a constructor runs: no descriptor, no property
grid, nothing requested, call count 0 and no active action. -/
def declaredWorkspace : Workspace Nat String where
  isADescriptorWorkspace := false
  m_descriptorID := 0
  m_pDescriptor := none
  m_pDescriptorPropertyGrid := none
  resourcePtrs := sampleResourcePtrs
  m_requestedResources := []
  m_reloadingResources := []
  resourceSystemRequests := []

/-- The workspace `textWorkspace` with unsaved changes. -/
def dirtyTextWorkspace : Workspace Nat String :=
  { textWorkspace with m_isDirty := true }

/-- A serialiser that wraps the descriptor text in braces. -/
def braces (descriptor : String) : String :=
  "\x7b" ++ descriptor ++ "\x7d"

/-- A nested modification: an outer begin, an edit to `"mid"`, an inner begin/end
pair around an edit to `"high"`, and the matching outer end. -/
def nestedEdit : List (DescriptorCall String) :=
  [DescriptorCall.beginModification, DescriptorCall.edit "mid",
   DescriptorCall.beginModification, DescriptorCall.edit "high",
   DescriptorCall.endModification, DescriptorCall.endModification]

/-- Two modifications one after the other, neither inside the other: a begin/end
pair around an edit to `"mid"`, then a begin/end pair around an edit to
`"high"`. -/
def twoModifications : List (DescriptorCall String) :=
  [DescriptorCall.beginModification, DescriptorCall.edit "mid",
   DescriptorCall.endModification,
   DescriptorCall.beginModification, DescriptorCall.edit "high",
   DescriptorCall.endModification]

/-- A path test that takes every path but the empty one for a file path. -/
def nonEmptyPath : String → Bool := fun path => path != ""

/-- A file system in which every write succeeds. -/
def writableDisk : String → String → Bool := fun _ _ => true

/-- A file system in which every write fails. -/
def readOnlyDisk : String → String → Bool := fun _ _ => false

/-! ## Theorems: `CompilationRequest` -/

section CompilationRequestTheorems

open CompilationRequest

variable {Nanoseconds Milliseconds : Type}

/-- C1: for a request whose status is Pending, `GetCompilationElapsedTime` and
`GetUptoDateCheckElapsedTime` both return 0 milliseconds, for all values of the
timing fields and every clock reading. -/
theorem pending_elapsed_times_are_zero (U : TimeUnits Nanoseconds Milliseconds)
    (r : CompilationRequest Nanoseconds) (now : Nanoseconds)
    (hPending : r.m_status = Status.Pending) :
    r.GetCompilationElapsedTime U now = U.milliseconds 0 ∧
      r.GetUptoDateCheckElapsedTime U = U.milliseconds 0 := by
  simp [GetCompilationElapsedTime, GetUptoDateCheckElapsedTime, hPending]

/-- Witness of C1 at the default-initialised request, exact units, clock reading 100. -/
theorem pending_elapsed_times_are_zero_witness :
    (defaultInit exactUnits 0).m_status = Status.Pending ∧
      (defaultInit exactUnits 0).GetCompilationElapsedTime exactUnits 100 = 0 ∧
      (defaultInit exactUnits 0).GetUptoDateCheckElapsedTime exactUnits = 0 := by
  have h := pending_elapsed_times_are_zero exactUnits (defaultInit exactUnits 0) 100 rfl
  refine ⟨rfl, ?_, ?_⟩
  · simpa [exactUnits] using h.1
  · simpa [exactUnits] using h.2

/-- C2: for a request whose status is Compiling and every clock reading `now`,
`GetCompilationElapsedTime` returns `now - m_compilationTimeStarted` converted to
milliseconds, and the result does not depend on `m_compilationTimeFinished`. -/
theorem compiling_elapsed_time_against_now (U : TimeUnits Nanoseconds Milliseconds)
    (r : CompilationRequest Nanoseconds) (now : Nanoseconds)
    (hCompiling : r.m_status = Status.Compiling) :
    r.GetCompilationElapsedTime U now
        = U.toMilliseconds (U.sub now r.m_compilationTimeStarted) ∧
      ∀ finished : Nanoseconds,
        GetCompilationElapsedTime U { r with m_compilationTimeFinished := finished } now
          = r.GetCompilationElapsedTime U now := by
  simp [GetCompilationElapsedTime, CompilationRequest.IsComplete, HasSucceeded, HasFailed,
    hCompiling]

/-- Witness of C2: at clock reading 100 a compilation started at reading 10 has
been running for 90 nanoseconds. -/
theorem compiling_elapsed_time_against_now_witness :
    compilingRequest.m_status = Status.Compiling ∧
      compilingRequest.GetCompilationElapsedTime exactUnits 100 = (90 : ℚ) / 1000000 := by
  have h := (compiling_elapsed_time_against_now exactUnits compilingRequest 100 rfl).1
  refine ⟨rfl, ?_⟩
  rw [h]
  norm_num [exactUnits, compilingRequest]

/-- C3: for a request in a terminal status (Succeeded, SucceededWithWarnings or
Failed), `GetCompilationElapsedTime` returns
`m_compilationTimeFinished - m_compilationTimeStarted` converted to
milliseconds, whatever the clock reading; and the result is strictly positive
when `m_compilationTimeFinished` is later than `m_compilationTimeStarted`.
Strict order is read through `ltN` on clock samples and `ltM` on millisecond
values, for units in which a later sample minus an earlier one is a positive
duration and a positive duration converts to a positive number of
milliseconds. -/
theorem terminal_elapsed_time_is_finished_minus_started
    (U : TimeUnits Nanoseconds Milliseconds)
    (ltN : Nanoseconds → Nanoseconds → Prop) (ltM : Milliseconds → Milliseconds → Prop)
    (hSub : ∀ a b, ltN a b → ltN (U.nanoseconds 0) (U.sub b a))
    (hConv : ∀ d, ltN (U.nanoseconds 0) d → ltM (U.milliseconds 0) (U.toMilliseconds d))
    (r : CompilationRequest Nanoseconds) (now : Nanoseconds)
    (hTerminal : r.m_status = Status.Succeeded ∨ r.m_status = Status.SucceededWithWarnings ∨
      r.m_status = Status.Failed) :
    r.GetCompilationElapsedTime U now
        = U.toMilliseconds (U.sub r.m_compilationTimeFinished r.m_compilationTimeStarted) ∧
      (∀ otherNow : Nanoseconds,
        r.GetCompilationElapsedTime U otherNow = r.GetCompilationElapsedTime U now) ∧
      (ltN r.m_compilationTimeStarted r.m_compilationTimeFinished →
        ltM (U.milliseconds 0) (r.GetCompilationElapsedTime U now)) := by
  have hEq : ∀ t : Nanoseconds, r.GetCompilationElapsedTime U t
      = U.toMilliseconds (U.sub r.m_compilationTimeFinished r.m_compilationTimeStarted) := by
    intro t
    rcases hTerminal with h | h | h <;>
      simp [GetCompilationElapsedTime, CompilationRequest.IsComplete, HasSucceeded, HasFailed, h]
  refine ⟨hEq now, fun t => by rw [hEq t, hEq now], fun hlt => ?_⟩
  rw [hEq now]
  exact hConv _ (hSub _ _ hlt)

/-- Witness of C3 with exact units: a compilation that succeeded, started at
reading 10 and finished at reading 25, took 15 nanoseconds, a positive time,
whatever the clock reads. -/
theorem terminal_elapsed_time_is_finished_minus_started_witness :
    (finishedRequest Status.Succeeded).GetCompilationElapsedTime exactUnits 100
        = (15 : ℚ) / 1000000 ∧
      (0 : ℚ) < (finishedRequest Status.Succeeded).GetCompilationElapsedTime exactUnits 100 := by
  have h := terminal_elapsed_time_is_finished_minus_started exactUnits
    (fun a b => a < b) (fun a b => a < b)
    (fun a b hab => by simpa [exactUnits] using hab)
    (fun d hd => by
      have hd0 : (0 : ℚ) < (d : ℚ) := by simpa [exactUnits] using hd
      simpa [exactUnits] using div_pos hd0 (by norm_num : (0 : ℚ) < 1000000))
    (finishedRequest Status.Succeeded) 100 (Or.inl rfl)
  refine ⟨?_, ?_⟩
  · rw [h.1]
    norm_num [exactUnits, finishedRequest, compilingRequest]
  · have hpos := h.2.2 (by norm_num [finishedRequest, compilingRequest])
    simpa [exactUnits] using hpos

/-- C4, as stated, fails: at clock reading 100 the request `compilingRequest`
(status Compiling, up-to-date check from reading 5 to reading 7) reports the 2
nanoseconds between the two stored samples, not the 95 nanoseconds between the
start of the check and the clock reading. -/
theorem upToDateCheck_elapsed_time_not_against_now :
    compilingRequest.m_status = Status.Compiling ∧
      compilingRequest.GetUptoDateCheckElapsedTime exactUnits = (2 : ℚ) / 1000000 ∧
      exactUnits.toMilliseconds (exactUnits.sub 100 compilingRequest.m_upToDateCheckTimeStarted)
        = (95 : ℚ) / 1000000 ∧
      compilingRequest.GetUptoDateCheckElapsedTime exactUnits
        ≠ exactUnits.toMilliseconds
            (exactUnits.sub 100 compilingRequest.m_upToDateCheckTimeStarted) := by
  have hCode : compilingRequest.GetUptoDateCheckElapsedTime exactUnits = (2 : ℚ) / 1000000 := by
    simp [GetUptoDateCheckElapsedTime, exactUnits, compilingRequest]
  have hClaim : exactUnits.toMilliseconds
      (exactUnits.sub 100 compilingRequest.m_upToDateCheckTimeStarted) = (95 : ℚ) / 1000000 := by
    norm_num [exactUnits, compilingRequest]
  refine ⟨rfl, hCode, hClaim, ?_⟩
  rw [hCode, hClaim]
  norm_num

/-- C4, amended: for a request whose status is Compiling,
`GetUptoDateCheckElapsedTime` returns
`m_upToDateCheckTimeFinished - m_upToDateCheckTimeStarted` converted to
milliseconds; the clock is not read. -/
theorem compiling_upToDateCheck_elapsed_time (U : TimeUnits Nanoseconds Milliseconds)
    (r : CompilationRequest Nanoseconds) (hCompiling : r.m_status = Status.Compiling) :
    r.GetUptoDateCheckElapsedTime U
      = U.toMilliseconds (U.sub r.m_upToDateCheckTimeFinished r.m_upToDateCheckTimeStarted) := by
  simp [GetUptoDateCheckElapsedTime, hCompiling]

/-- Witness of the amended C4 at `compilingRequest`. -/
theorem compiling_upToDateCheck_elapsed_time_witness :
    compilingRequest.m_status = Status.Compiling ∧
      compilingRequest.GetUptoDateCheckElapsedTime exactUnits
        = exactUnits.toMilliseconds (exactUnits.sub 7 5) :=
  ⟨rfl, compiling_upToDateCheck_elapsed_time exactUnits compilingRequest rfl⟩

/-- C5: exactly one of `IsPending()`, `IsExecuting()`, `HasSucceeded()`,
`HasFailed()` is true, and `IsComplete()` is true if and only if the status is
Succeeded, SucceededWithWarnings or Failed, if and only if the request is
neither pending nor executing. -/
theorem status_predicates_partition (r : CompilationRequest Nanoseconds) :
    [r.IsPending, r.IsExecuting, r.HasSucceeded, r.HasFailed].count true = 1 ∧
      (r.IsComplete = true ↔
        (r.m_status = Status.Succeeded ∨ r.m_status = Status.SucceededWithWarnings ∨
          r.m_status = Status.Failed)) ∧
      (r.IsComplete = true ↔ (r.IsPending = false ∧ r.IsExecuting = false)) := by
  cases h : r.m_status <;>
    simp [IsPending, IsExecuting, HasSucceeded, HasFailed, CompilationRequest.IsComplete, h]

/-- Witness of C5 at a request that succeeded with warnings. -/
theorem status_predicates_partition_witness :
    (finishedRequest Status.SucceededWithWarnings).IsPending = false ∧
      (finishedRequest Status.SucceededWithWarnings).IsExecuting = false ∧
      (finishedRequest Status.SucceededWithWarnings).HasSucceeded = true ∧
      (finishedRequest Status.SucceededWithWarnings).HasFailed = false ∧
      (finishedRequest Status.SucceededWithWarnings).IsComplete = true :=
  ⟨rfl, rfl, rfl, rfl,
    (status_predicates_partition (finishedRequest Status.SucceededWithWarnings)).2.1.mpr
      (Or.inr (Or.inl rfl))⟩

/-- C6: `HasSucceededWithWarnings()` implies `HasSucceeded()` and excludes
`HasFailed()`; a request with `HasSucceeded()` true and
`HasSucceededWithWarnings()` false has status Succeeded; and the two success
statuses give different values of `HasSucceededWithWarnings()` while both give
`HasSucceeded()`. -/
theorem success_with_warnings_distinguishable (r : CompilationRequest Nanoseconds) :
    (r.HasSucceededWithWarnings = true → r.HasSucceeded = true ∧ r.HasFailed = false) ∧
      (r.HasSucceeded = true → r.HasSucceededWithWarnings = false →
        r.m_status = Status.Succeeded) ∧
      (r.m_status = Status.Succeeded →
        r.HasSucceeded = true ∧ r.HasSucceededWithWarnings = false) ∧
      (r.m_status = Status.SucceededWithWarnings →
        r.HasSucceeded = true ∧ r.HasSucceededWithWarnings = true) := by
  cases h : r.m_status <;>
    simp [HasSucceeded, HasSucceededWithWarnings, HasFailed, h]

/-- Witness of C6 at a request that succeeded with warnings and at one that
succeeded without. -/
theorem success_with_warnings_distinguishable_witness :
    ((finishedRequest Status.SucceededWithWarnings).HasSucceededWithWarnings = true ∧
        (finishedRequest Status.SucceededWithWarnings).HasSucceeded = true ∧
        (finishedRequest Status.SucceededWithWarnings).HasFailed = false) ∧
      ((finishedRequest Status.Succeeded).HasSucceeded = true ∧
        (finishedRequest Status.Succeeded).HasSucceededWithWarnings = false ∧
        (finishedRequest Status.Succeeded).m_status = Status.Succeeded) :=
  ⟨⟨rfl, (success_with_warnings_distinguishable
      (finishedRequest Status.SucceededWithWarnings)).1 rfl⟩,
    ⟨rfl, rfl, (success_with_warnings_distinguishable
      (finishedRequest Status.Succeeded)).2.1 rfl rfl⟩⟩

/-- C7: `IsInternalRequest()` is true if and only if the origin is
ManualCompile, FileWatcher or Package; the assertion of `GetClientID()` passes
if and only if the origin is External, in which case the stored `m_clientID` is
returned unchanged; for an internal request the assertion fails and no value is
returned. -/
theorem clientID_only_for_external (r : CompilationRequest Nanoseconds) :
    (r.IsInternalRequest = true ↔
        (r.m_origin = Origin.ManualCompile ∨ r.m_origin = Origin.FileWatcher ∨
          r.m_origin = Origin.Package)) ∧
      (r.GetClientID.isSome = true ↔ r.m_origin = Origin.External) ∧
      (r.m_origin = Origin.External → r.GetClientID = some r.m_clientID) ∧
      (r.IsInternalRequest = true → r.GetClientID = none) := by
  cases h : r.m_origin <;> simp [IsInternalRequest, GetClientID, h]

/-- Witness of C7: the external request `compilingRequest` returns its client
ID 3, and the same request with origin FileWatcher fails the assertion. -/
theorem clientID_only_for_external_witness :
    compilingRequest.GetClientID = some 3 ∧
      GetClientID { compilingRequest with m_origin := Origin.FileWatcher } = none :=
  ⟨(clientID_only_for_external compilingRequest).2.2.1 rfl,
    (clientID_only_for_external
      { compilingRequest with m_origin := Origin.FileWatcher }).2.2.2 rfl⟩

/-- C8: a default-initialised request has status Pending, compiler version -1,
client ID 0, file timestamp and source timestamp hash 0 and the four timing
fields 0; `IsPending()` is true, `IsComplete()` is false and both elapsed-time
accessors return 0 milliseconds at every clock reading. -/
theorem default_request_is_pending (U : TimeUnits Nanoseconds Milliseconds)
    (timeRequested : Nat) (now : Nanoseconds) :
    (defaultInit U timeRequested).m_status = Status.Pending ∧
      (defaultInit U timeRequested).m_compilerVersion = -1 ∧
      (defaultInit U timeRequested).m_clientID = 0 ∧
      (defaultInit U timeRequested).m_fileTimestamp = 0 ∧
      (defaultInit U timeRequested).m_sourceTimestampHash = 0 ∧
      (defaultInit U timeRequested).m_compilationTimeStarted = U.nanoseconds 0 ∧
      (defaultInit U timeRequested).m_compilationTimeFinished = U.nanoseconds 0 ∧
      (defaultInit U timeRequested).m_upToDateCheckTimeStarted = U.nanoseconds 0 ∧
      (defaultInit U timeRequested).m_upToDateCheckTimeFinished = U.nanoseconds 0 ∧
      (defaultInit U timeRequested).IsPending = true ∧
      (defaultInit U timeRequested).IsComplete = false ∧
      (defaultInit U timeRequested).GetCompilationElapsedTime U now = U.milliseconds 0 ∧
      (defaultInit U timeRequested).GetUptoDateCheckElapsedTime U = U.milliseconds 0 := by
  simp [defaultInit, IsPending, CompilationRequest.IsComplete, HasSucceeded, HasFailed,
    GetCompilationElapsedTime, GetUptoDateCheckElapsedTime]

end CompilationRequestTheorems

/-! ## Theorems: `Workspace` hot reload -/

section LoadLoopTheorems

open Workspace

variable {ResourceID Descriptor : Type}

/-- The load loop changes only the memory and the request log, to which it
appends one `Load` per address iterated over, in order. -/
theorem loadLoop_spec (rs : ResourceSystem ResourceID) (ps : List Nat) :
    ∀ w : Workspace ResourceID Descriptor,
      ∃ memory1 : Nat → ResourcePtr ResourceID,
        loadLoop rs ps w =
          { w with
            resourcePtrs := memory1
            resourceSystemRequests := w.resourceSystemRequests ++ ps.map ResourceRequest.Load } := by
  induction ps with
  | nil =>
    intro w
    exact ⟨w.resourcePtrs, by simp [loadLoop]⟩
  | cons p ps ih =>
    intro w
    obtain ⟨memory1, hEq⟩ := ih
      { w with
        resourcePtrs := writeResourcePtr w.resourcePtrs p
          (rs.LoadResource w.resourceSystemRequests (w.resourcePtrs p))
        resourceSystemRequests := w.resourceSystemRequests ++ [ResourceRequest.Load p] }
    refine ⟨memory1, ?_⟩
    rw [loadLoop, hEq]
    simp [List.append_assoc]

/-- When its three assertions hold, `LoadDescriptor` returns, and it leaves the
request log and the two resource vectors as they were. -/
theorem loadDescriptor_spec (file : DescriptorFile Descriptor)
    (w : Workspace ResourceID Descriptor)
    (hDescriptorWorkspace : w.isADescriptorWorkspace = true)
    (hNotLoaded : w.m_pDescriptor = none)
    (hGrid : w.m_pDescriptorPropertyGrid.isSome = true) :
    ∃ w2 : Workspace ResourceID Descriptor,
      LoadDescriptor file w = some w2 ∧
      w2.resourceSystemRequests = w.resourceSystemRequests ∧
      w2.m_reloadingResources = w.m_reloadingResources ∧
      w2.m_requestedResources = w.m_requestedResources := by
  cases hg : w.m_pDescriptorPropertyGrid with
  | none => simp [hg] at hGrid
  | some grid =>
    by_cases hRead : file.readFromFile = true
    · refine ⟨{ w with
          m_pDescriptor := file.created
          m_pDescriptorPropertyGrid := some { grid with typeToEdit := file.created } },
        ?_, rfl, rfl, rfl⟩
      simp [LoadDescriptor, hDescriptorWorkspace, hNotLoaded, hg, hRead]
    · refine ⟨w, ?_, rfl, rfl, rfl⟩
      simp [LoadDescriptor, hDescriptorWorkspace, hNotLoaded, hg, hRead]

/-- When a descriptor workspace has its property grid, `EndHotReload` returns;
it appends one `Load` per entry of `m_reloadingResources`, in order, to the
request log, empties `m_reloadingResources` and keeps `m_requestedResources`. -/
theorem endHotReload_spec (rs : ResourceSystem ResourceID) (file : DescriptorFile Descriptor)
    (w : Workspace ResourceID Descriptor)
    (hGrid : w.isADescriptorWorkspace = true → w.m_pDescriptorPropertyGrid.isSome = true) :
    ∃ w2 : Workspace ResourceID Descriptor,
      EndHotReload rs file w = some w2 ∧
      w2.resourceSystemRequests
        = w.resourceSystemRequests ++ w.m_reloadingResources.map ResourceRequest.Load ∧
      w2.m_reloadingResources = [] ∧
      w2.m_requestedResources = w.m_requestedResources := by
  obtain ⟨memory1, hLoop⟩ := loadLoop_spec rs w.m_reloadingResources w
  by_cases hGuard : (w.isADescriptorWorkspace && !w.m_pDescriptor.isSome) = true
  · have hDescriptorWorkspace : w.isADescriptorWorkspace = true := by
      cases hd : w.isADescriptorWorkspace <;> simp_all
    have hNotLoaded : w.m_pDescriptor = none := by
      cases hp : w.m_pDescriptor <;> simp_all
    obtain ⟨w2, hSome, hReq, hRel, hRqd⟩ := loadDescriptor_spec file
      { w with
        resourcePtrs := memory1
        resourceSystemRequests :=
          w.resourceSystemRequests ++ w.m_reloadingResources.map ResourceRequest.Load
        m_reloadingResources := [] }
      hDescriptorWorkspace hNotLoaded (hGrid hDescriptorWorkspace)
    refine ⟨w2, ?_, hReq, hRel, hRqd⟩
    rw [← hSome]
    simp only [EndHotReload, hLoop, IsDescriptorLoaded, hGuard, if_true]
  · refine ⟨{ w with
        resourcePtrs := memory1
        resourceSystemRequests :=
          w.resourceSystemRequests ++ w.m_reloadingResources.map ResourceRequest.Load
        m_reloadingResources := [] }, ?_, rfl, rfl, rfl⟩
    simp only [EndHotReload, hLoop, IsDescriptorLoaded]
    rw [if_neg hGuard]

end LoadLoopTheorems

section WorkspaceTheorems

open Workspace

variable {ResourceID Descriptor : Type} [DecidableEq ResourceID]

/-- The install-dependency loop sets `shouldUnload` exactly when some install
dependency is in `resourcesToBeReloaded`. -/
theorem installDependenciesLoop_iff (resourcesToBeReloaded deps : List ResourceID) :
    installDependenciesLoop resourcesToBeReloaded deps = true ↔
      ∃ d, d ∈ deps ∧ d ∈ resourcesToBeReloaded := by
  induction deps with
  | nil => simp [installDependenciesLoop]
  | cons d ds ih =>
    by_cases h : d ∈ resourcesToBeReloaded
    · have hTrue : installDependenciesLoop resourcesToBeReloaded (d :: ds) = true := by
        simp [installDependenciesLoop, VectorContains, h]
      exact ⟨fun _ => ⟨d, List.mem_cons_self d ds, h⟩, fun _ => hTrue⟩
    · have hStep : installDependenciesLoop resourcesToBeReloaded (d :: ds)
          = installDependenciesLoop resourcesToBeReloaded ds := by
        simp [installDependenciesLoop, VectorContains, h]
      rw [hStep, ih]
      constructor
      · rintro ⟨e, he, her⟩
        exact ⟨e, List.mem_cons_of_mem d he, her⟩
      · rintro ⟨e, he, her⟩
        rcases List.mem_cons.mp he with rfl | he
        · exact absurd her h
        · exact ⟨e, he, her⟩

/-- The local `shouldUnload` is true exactly when the resource ID or one of
the install dependencies is in `resourcesToBeReloaded`. -/
theorem shouldUnload_iff (resourcesToBeReloaded : List ResourceID)
    (r : ResourcePtr ResourceID) :
    shouldUnload resourcesToBeReloaded r = true ↔
      (r.resourceID ∈ resourcesToBeReloaded ∨
        ∃ d, d ∈ r.installDependencies ∧ d ∈ resourcesToBeReloaded) := by
  by_cases h : r.resourceID ∈ resourcesToBeReloaded
  · simp [shouldUnload, VectorContains, h]
  · simp [shouldUnload, VectorContains, h, installDependenciesLoop_iff]

/-- One iteration of the unload loop that skips its resource. -/
theorem unloadLoop_cons_skip (rs : ResourceSystem ResourceID)
    (resourcesToBeReloaded : List ResourceID) (p : Nat) (ps : List Nat)
    (w : Workspace ResourceID Descriptor)
    (h : (w.resourcePtrs p).isUnloaded = true ∨
      shouldUnload resourcesToBeReloaded (w.resourcePtrs p) = false) :
    unloadLoop rs resourcesToBeReloaded (p :: ps) w = unloadLoop rs resourcesToBeReloaded ps w := by
  rcases h with h | h
  · simp [unloadLoop, h]
  · simp [unloadLoop, h]

/-- One iteration of the unload loop that unloads its resource. -/
theorem unloadLoop_cons_unload (rs : ResourceSystem ResourceID)
    (resourcesToBeReloaded : List ResourceID) (p : Nat) (ps : List Nat)
    (w : Workspace ResourceID Descriptor)
    (hLoaded : (w.resourcePtrs p).isUnloaded = false)
    (hShould : shouldUnload resourcesToBeReloaded (w.resourcePtrs p) = true) :
    unloadLoop rs resourcesToBeReloaded (p :: ps) w =
      unloadLoop rs resourcesToBeReloaded ps
        { w with
          resourcePtrs := writeResourcePtr w.resourcePtrs p
            (rs.UnloadResource w.resourceSystemRequests (w.resourcePtrs p))
          resourceSystemRequests := w.resourceSystemRequests ++ [ResourceRequest.Unload p]
          m_reloadingResources := w.m_reloadingResources ++ [p] } := by
  simp [unloadLoop, hLoaded, hShould]

/-- Invariant of the unload loop. `memory0` is the `ResourcePtr` memory when
`BeginHotReload` was entered and `done` lists the addresses unloaded so far: the
memory differs from `memory0` at most there. The loop changes only the memory,
the request log and `m_reloadingResources`; the addresses `us` it unloads are
appended to both lists, form a sublist of the addresses iterated over, and are
those that were loaded and due for unloading in `memory0`. -/
theorem unloadLoop_spec (rs : ResourceSystem ResourceID)
    (resourcesToBeReloaded : List ResourceID) (memory0 : Nat → ResourcePtr ResourceID)
    (ps : List Nat) :
    ∀ (w : Workspace ResourceID Descriptor) (done : List Nat),
      (∀ q, q ∉ done → w.resourcePtrs q = memory0 q) →
      (∀ q, q ∈ done → (memory0 q).isUnloaded = false ∧
        shouldUnload resourcesToBeReloaded (memory0 q) = true) →
      ∃ (us : List Nat) (memory1 : Nat → ResourcePtr ResourceID),
        unloadLoop rs resourcesToBeReloaded ps w =
          { w with
            resourcePtrs := memory1
            resourceSystemRequests := w.resourceSystemRequests ++ us.map ResourceRequest.Unload
            m_reloadingResources := w.m_reloadingResources ++ us } ∧
        us.Sublist ps ∧
        (∀ q, q ∈ us → (memory0 q).isUnloaded = false ∧
          shouldUnload resourcesToBeReloaded (memory0 q) = true) ∧
        (∀ q, q ∈ ps → (memory0 q).isUnloaded = false →
          shouldUnload resourcesToBeReloaded (memory0 q) = true → q ∈ done ∨ q ∈ us) := by
  induction ps with
  | nil =>
    intro w done _ _
    exact ⟨[], w.resourcePtrs, by simp [unloadLoop], List.Sublist.refl _, by simp, by simp⟩
  | cons p ps ih =>
    intro w done hMem hDone
    by_cases hU : (w.resourcePtrs p).isUnloaded = true
    · -- the resource is already unloaded: `continue`
      obtain ⟨us, memory1, hEq, hSub, hUs, hAll⟩ := ih w done hMem hDone
      refine ⟨us, memory1, ?_, hSub.cons p, hUs, ?_⟩
      · rw [unloadLoop_cons_skip rs resourcesToBeReloaded p ps w (Or.inl hU), hEq]
      · intro q hq hq1 hq2
        rcases List.mem_cons.mp hq with rfl | hq
        · by_cases hd : q ∈ done
          · exact Or.inl hd
          · rw [hMem q hd, hq1] at hU
            exact absurd hU (by simp)
        · exact hAll q hq hq1 hq2
    · have hL : (w.resourcePtrs p).isUnloaded = false := by simpa using hU
      by_cases hS : shouldUnload resourcesToBeReloaded (w.resourcePtrs p) = true
      · -- the resource is unloaded and tracked
        have hp0 : (memory0 p).isUnloaded = false ∧
            shouldUnload resourcesToBeReloaded (memory0 p) = true := by
          by_cases hd : p ∈ done
          · exact hDone p hd
          · rw [← hMem p hd]
            exact ⟨hL, hS⟩
        obtain ⟨us, memory1, hEq, hSub, hUs, hAll⟩ :=
          ih { w with
              resourcePtrs := writeResourcePtr w.resourcePtrs p
                (rs.UnloadResource w.resourceSystemRequests (w.resourcePtrs p))
              resourceSystemRequests := w.resourceSystemRequests ++ [ResourceRequest.Unload p]
              m_reloadingResources := w.m_reloadingResources ++ [p] }
            (p :: done)
            (by
              intro q hq
              have hqp : q ≠ p := fun h => hq (h ▸ List.mem_cons_self _ _)
              have hqd : q ∉ done := fun h => hq (List.mem_cons_of_mem _ h)
              simp only [writeResourcePtr, if_neg hqp]
              exact hMem q hqd)
            (by
              intro q hq
              rcases List.mem_cons.mp hq with rfl | hq
              · exact hp0
              · exact hDone q hq)
        refine ⟨p :: us, memory1, ?_, hSub.cons₂ p, ?_, ?_⟩
        · rw [unloadLoop_cons_unload rs resourcesToBeReloaded p ps w hL hS, hEq]
          simp [List.append_assoc]
        · intro q hq
          rcases List.mem_cons.mp hq with rfl | hq
          · exact hp0
          · exact hUs q hq
        · intro q hq hq1 hq2
          rcases List.mem_cons.mp hq with rfl | hq
          · exact Or.inr (List.mem_cons_self _ _)
          · rcases hAll q hq hq1 hq2 with h | h
            · rcases List.mem_cons.mp h with rfl | h
              · exact Or.inr (List.mem_cons_self _ _)
              · exact Or.inl h
            · exact Or.inr (List.mem_cons_of_mem _ h)
      · -- the resource is not due for unloading
        have hS0 : shouldUnload resourcesToBeReloaded (w.resourcePtrs p) = false := by
          simpa using hS
        obtain ⟨us, memory1, hEq, hSub, hUs, hAll⟩ := ih w done hMem hDone
        refine ⟨us, memory1, ?_, hSub.cons p, hUs, ?_⟩
        · rw [unloadLoop_cons_skip rs resourcesToBeReloaded p ps w (Or.inr hS0), hEq]
        · intro q hq hq1 hq2
          rcases List.mem_cons.mp hq with rfl | hq
          · by_cases hd : q ∈ done
            · exact Or.inl hd
            · rw [hMem q hd, hq2] at hS0
              exact absurd hS0 (by simp)
          · exact hAll q hq hq1 hq2

/-- What `BeginHotReload` does to the workspace: only the descriptor pointer,
the `ResourcePtr` memory, the request log and `m_reloadingResources` change. The
addresses `us` for which it requests an unload are appended, in order, to the
log and to `m_reloadingResources`; they form a sublist of
`m_requestedResources` and are the requested addresses whose resource was not
unloaded and has its own ID or an install dependency in
`resourcesToBeReloaded`. -/
theorem beginHotReload_spec (rs : ResourceSystem ResourceID)
    (w : Workspace ResourceID Descriptor) (usersToBeReloaded : List Nat)
    (resourcesToBeReloaded : List ResourceID) :
    ∃ (us : List Nat) (memory1 : Nat → ResourcePtr ResourceID) (descriptor : Option Descriptor),
      BeginHotReload rs w usersToBeReloaded resourcesToBeReloaded =
        { w with
          m_pDescriptor := descriptor
          resourcePtrs := memory1
          resourceSystemRequests := w.resourceSystemRequests ++ us.map ResourceRequest.Unload
          m_reloadingResources := w.m_reloadingResources ++ us } ∧
      us.Sublist w.m_requestedResources ∧
      (∀ p, p ∈ us ↔
        (p ∈ w.m_requestedResources ∧ (w.resourcePtrs p).isUnloaded = false ∧
          ((w.resourcePtrs p).resourceID ∈ resourcesToBeReloaded ∨
            ∃ d, d ∈ (w.resourcePtrs p).installDependencies ∧ d ∈ resourcesToBeReloaded))) := by
  have key : ∀ w1 : Workspace ResourceID Descriptor,
      w1.resourcePtrs = w.resourcePtrs → w1.m_requestedResources = w.m_requestedResources →
      ∃ (us : List Nat) (memory1 : Nat → ResourcePtr ResourceID),
        unloadLoop rs resourcesToBeReloaded w1.m_requestedResources w1 =
          { w1 with
            resourcePtrs := memory1
            resourceSystemRequests := w1.resourceSystemRequests ++ us.map ResourceRequest.Unload
            m_reloadingResources := w1.m_reloadingResources ++ us } ∧
        us.Sublist w.m_requestedResources ∧
        (∀ p, p ∈ us ↔
          (p ∈ w.m_requestedResources ∧ (w.resourcePtrs p).isUnloaded = false ∧
            ((w.resourcePtrs p).resourceID ∈ resourcesToBeReloaded ∨
              ∃ d, d ∈ (w.resourcePtrs p).installDependencies ∧
                d ∈ resourcesToBeReloaded))) := by
    intro w1 hPtrs hReq
    obtain ⟨us, memory1, hEq, hSub, hUs, hAll⟩ :=
      unloadLoop_spec rs resourcesToBeReloaded w.resourcePtrs w1.m_requestedResources w1 []
        (fun q _ => by rw [hPtrs]) (fun q hq => absurd hq (List.not_mem_nil q))
    rw [hReq] at hSub hAll
    refine ⟨us, memory1, hEq, hSub, fun p => ⟨fun hp => ?_, fun hp => ?_⟩⟩
    · exact ⟨hSub.subset hp, (hUs p hp).1,
        (shouldUnload_iff resourcesToBeReloaded (w.resourcePtrs p)).mp (hUs p hp).2⟩
    · rcases hAll p hp.1 hp.2.1
          ((shouldUnload_iff resourcesToBeReloaded (w.resourcePtrs p)).mpr hp.2.2) with h | h
      · exact absurd h (List.not_mem_nil p)
      · exact h
  by_cases hDelete : w.isADescriptorWorkspace = true ∧
      VectorContains resourcesToBeReloaded w.m_descriptorID = true
  · obtain ⟨us, memory1, hEq, hSub, hIff⟩ := key { w with m_pDescriptor := none } rfl rfl
    refine ⟨us, memory1, none, ?_, hSub, hIff⟩
    simpa [BeginHotReload, hDelete.1, hDelete.2] using hEq
  · obtain ⟨us, memory1, hEq, hSub, hIff⟩ := key w rfl rfl
    refine ⟨us, memory1, w.m_pDescriptor, ?_, hSub, hIff⟩
    have hStay : (if w.isADescriptorWorkspace = true then
          if VectorContains resourcesToBeReloaded w.m_descriptorID = true then
            { w with m_pDescriptor := none }
          else w
        else w) = w := by
      by_cases h1 : w.isADescriptorWorkspace = true
      · by_cases h2 : VectorContains resourcesToBeReloaded w.m_descriptorID = true
        · exact absurd ⟨h1, h2⟩ hDelete
        · simp [h1, h2]
      · simp [h1]
    simp only [BeginHotReload, hStay]
    simpa using hEq

/-- C9: `BeginHotReload` requests an unload for a resource of
`m_requestedResources` if and only if that resource is not already unloaded and
its own resource ID or at least one of its install dependencies is in
`resourcesToBeReloaded`; the resources appended to `m_reloadingResources` are
those for which an unload was requested, in the order of
`m_requestedResources`; and `m_requestedResources` is left unchanged. -/
theorem beginHotReload_unloads_exactly_the_invalidated (rs : ResourceSystem ResourceID)
    (w : Workspace ResourceID Descriptor) (usersToBeReloaded : List Nat)
    (resourcesToBeReloaded : List ResourceID) :
    ∃ unloaded : List Nat,
      (BeginHotReload rs w usersToBeReloaded resourcesToBeReloaded).resourceSystemRequests
        = w.resourceSystemRequests ++ unloaded.map ResourceRequest.Unload ∧
      (∀ p, p ∈ unloaded ↔
        (p ∈ w.m_requestedResources ∧ (w.resourcePtrs p).isUnloaded = false ∧
          ((w.resourcePtrs p).resourceID ∈ resourcesToBeReloaded ∨
            ∃ d, d ∈ (w.resourcePtrs p).installDependencies ∧ d ∈ resourcesToBeReloaded))) ∧
      (BeginHotReload rs w usersToBeReloaded resourcesToBeReloaded).m_reloadingResources
        = w.m_reloadingResources ++ unloaded ∧
      unloaded.Sublist w.m_requestedResources ∧
      (BeginHotReload rs w usersToBeReloaded resourcesToBeReloaded).m_requestedResources
        = w.m_requestedResources := by
  obtain ⟨us, memory1, descriptor, hEq, hSub, hIff⟩ :=
    beginHotReload_spec rs w usersToBeReloaded resourcesToBeReloaded
  refine ⟨us, ?_, hIff, ?_, hSub, ?_⟩ <;> rw [hEq]

/-- Witness of C9 at `sampleWorkspace` with resource 10 to be reloaded: the
resource at address 1 (resource 10 itself) and the one at address 2 (install
dependency 10) are unloaded, the one at address 3 is not. -/
theorem beginHotReload_unloads_exactly_the_invalidated_witness :
    ∃ unloaded : List Nat,
      (BeginHotReload simpleResourceSystem sampleWorkspace [] [10]).resourceSystemRequests
        = unloaded.map ResourceRequest.Unload ∧
      1 ∈ unloaded ∧ 2 ∈ unloaded ∧ 3 ∉ unloaded := by
  obtain ⟨us, hReq, hIff, _, _, _⟩ :=
    beginHotReload_unloads_exactly_the_invalidated simpleResourceSystem sampleWorkspace [] [10]
  refine ⟨us, by simpa [sampleWorkspace] using hReq, (hIff 1).mpr ?_, (hIff 2).mpr ?_,
    fun h => ?_⟩
  · simp [sampleWorkspace, sampleResourcePtrs]
  · simp [sampleWorkspace, sampleResourcePtrs]
  · have h3 := (hIff 3).mp h
    simp [sampleWorkspace, sampleResourcePtrs] at h3

/-- C10, as stated, fails. The workspace `midReloadWorkspace` already tracks
addresses 1 and 2 in `m_reloadingResources`. `BeginHotReload` with nothing to
reload requests no unload, yet the `EndHotReload` that follows requests a load
for addresses 1 and 2. -/
theorem endHotReload_loads_without_unload :
    midReloadWorkspace.m_reloadingResources = [1, 2] ∧
      (BeginHotReload simpleResourceSystem midReloadWorkspace [] []).resourceSystemRequests
        = midReloadWorkspace.resourceSystemRequests ∧
      (EndHotReload simpleResourceSystem unreadableFile
          (BeginHotReload simpleResourceSystem midReloadWorkspace [] [])).map
          (fun w2 => w2.resourceSystemRequests)
        = some (midReloadWorkspace.resourceSystemRequests ++
            [ResourceRequest.Load 1, ResourceRequest.Load 2]) := by
  refine ⟨by decide, by decide, by decide⟩

/-- C10, amended: for a workspace that is not in the middle of a hot reload
(`m_reloadingResources` empty), whose `m_requestedResources` holds no address
twice and whose property grid exists if it is a descriptor workspace, and for
every hot-reload set, `EndHotReload` after `BeginHotReload` returns; the loads it
requests are for the addresses `unloaded` that `BeginHotReload` requested to
unload, one load each and none for any other address; all of them come after
all the unloads in the request log; and `m_reloadingResources` is empty
afterwards. -/
theorem hotReload_loads_exactly_the_unloaded (rs : ResourceSystem ResourceID)
    (file : DescriptorFile Descriptor) (w : Workspace ResourceID Descriptor)
    (usersToBeReloaded : List Nat) (resourcesToBeReloaded : List ResourceID)
    (hIdle : w.m_reloadingResources = [])
    (hDistinct : w.m_requestedResources.Nodup)
    (hGrid : w.isADescriptorWorkspace = true → w.m_pDescriptorPropertyGrid.isSome = true) :
    ∃ (unloaded : List Nat) (w2 : Workspace ResourceID Descriptor),
      EndHotReload rs file (BeginHotReload rs w usersToBeReloaded resourcesToBeReloaded)
        = some w2 ∧
      (BeginHotReload rs w usersToBeReloaded resourcesToBeReloaded).resourceSystemRequests
        = w.resourceSystemRequests ++ unloaded.map ResourceRequest.Unload ∧
      w2.resourceSystemRequests
        = w.resourceSystemRequests ++ unloaded.map ResourceRequest.Unload
            ++ unloaded.map ResourceRequest.Load ∧
      (∀ p, (unloaded.map ResourceRequest.Load).count (ResourceRequest.Load p)
        = if p ∈ unloaded then 1 else 0) ∧
      unloaded.Nodup ∧
      w2.m_reloadingResources = [] := by
  obtain ⟨us, memory1, descriptor, hEq, hSub, _⟩ :=
    beginHotReload_spec rs w usersToBeReloaded resourcesToBeReloaded
  have hNodup : us.Nodup := hSub.nodup hDistinct
  obtain ⟨w2, hSome, hReq, hRel, _⟩ := endHotReload_spec rs file
    (BeginHotReload rs w usersToBeReloaded resourcesToBeReloaded)
    (by rw [hEq]; exact hGrid)
  refine ⟨us, w2, hSome, by rw [hEq], ?_, ?_, hNodup, hRel⟩
  · rw [hReq, hEq]
    simp [hIdle]
  · intro p
    have hInj : Function.Injective ResourceRequest.Load := by
      intro a b hab
      cases hab
      rfl
    rw [List.count_map_of_injective _ _ hInj, List.count_eq_of_nodup hNodup]

/-- Witness of the amended C10 at `sampleWorkspace`, with resource 10 to be
reloaded. -/
theorem hotReload_loads_exactly_the_unloaded_witness :
    ∃ (unloaded : List Nat) (w2 : Workspace Nat Unit),
      EndHotReload simpleResourceSystem unreadableFile
          (BeginHotReload simpleResourceSystem sampleWorkspace [] [10]) = some w2 ∧
      (BeginHotReload simpleResourceSystem sampleWorkspace [] [10]).resourceSystemRequests
        = sampleWorkspace.resourceSystemRequests ++ unloaded.map ResourceRequest.Unload ∧
      w2.resourceSystemRequests
        = sampleWorkspace.resourceSystemRequests ++ unloaded.map ResourceRequest.Unload
            ++ unloaded.map ResourceRequest.Load ∧
      (∀ p, (unloaded.map ResourceRequest.Load).count (ResourceRequest.Load p)
        = if p ∈ unloaded then 1 else 0) ∧
      unloaded.Nodup ∧
      w2.m_reloadingResources = [] :=
  hotReload_loads_exactly_the_unloaded simpleResourceSystem unreadableFile sampleWorkspace
    [] [10] rfl (by decide) (by intro h; cases h)

end WorkspaceTheorems

/-! ## Theorems: `ResourceServer` and `ResourceServerWorker` -/

/-- The accessor `IsComplete()` holds exactly in the three terminal statuses. -/
theorem isComplete_iff_terminal {Nanoseconds : Type}
    (r : CompilationRequest Nanoseconds) :
    r.IsComplete = true ↔
      (r.m_status = Status.Succeeded ∨ r.m_status = Status.SucceededWithWarnings ∨
        r.m_status = Status.Failed) := by
  cases h : r.m_status <;>
    simp [CompilationRequest.IsComplete, CompilationRequest.HasSucceeded,
      CompilationRequest.HasFailed, h]

section ResourceServerTheorems

open ResourceServer

variable {Nanoseconds Milliseconds : Type}

/-- A status step never makes a request Pending or Compiling that was not. -/
theorem StatusStep.active_of_active {before after : Status} (h : StatusStep before after)
    (hActive : after = Status.Pending ∨ after = Status.Compiling) :
    before = Status.Pending ∨ before = Status.Compiling := by
  rcases h with h | ⟨h, _⟩ | ⟨h, h'⟩ | ⟨h, _⟩
  · rw [← h]; exact hActive
  · exact Or.inl h
  · exact Or.inl h
  · exact Or.inr h

/-- A status step leaves a terminal status as it is. -/
theorem StatusStep.eq_of_complete {before after : Status} (h : StatusStep before after)
    (hTerminal : before = Status.Succeeded ∨ before = Status.SucceededWithWarnings ∨
      before = Status.Failed) : after = before := by
  rcases h with h | ⟨h, _⟩ | ⟨h, _⟩ | ⟨h, _⟩
  · exact h
  · rcases hTerminal with t | t | t <;> rw [h] at t <;> cases t
  · rcases hTerminal with t | t | t <;> rw [h] at t <;> cases t
  · rcases hTerminal with t | t | t <;> rw [h] at t <;> cases t

/-- Every request is an entry step of itself. -/
theorem entryStep_refl (entry : RequestEntry Nanoseconds) : EntryStep entry entry :=
  ⟨rfl, rfl, rfl, rfl, Or.inl rfl⟩

/-- A request that is active for a resource after an entry step was active for
it before. -/
theorem EntryStep.isActiveFor {before after : RequestEntry Nanoseconds}
    (h : EntryStep before after) (resourceID : String)
    (hActive : IsActiveFor resourceID after = true) :
    IsActiveFor resourceID before = true := by
  obtain ⟨_, hRid, _, _, hStatus⟩ := h
  simp only [IsActiveFor, CompilationRequest.IsPending, CompilationRequest.IsExecuting,
    Bool.and_eq_true, Bool.or_eq_true, beq_iff_eq] at hActive ⊢
  exact ⟨hStatus.active_of_active hActive.1, by rw [← hRid]; exact hActive.2⟩

/-- The unchanged queue evolves from itself. -/
theorem requestsEvolve_refl (entries : List (RequestEntry Nanoseconds)) :
    RequestsEvolve entries entries := by
  induction entries with
  | nil => exact RequestsEvolve.nil
  | cons entry rest ih => exact RequestsEvolve.keep (entryStep_refl entry) ih

/-- Mapping an entry step over the queue evolves it. -/
theorem requestsEvolve_map (f : RequestEntry Nanoseconds → RequestEntry Nanoseconds)
    (hf : ∀ entry, EntryStep entry (f entry)) (entries : List (RequestEntry Nanoseconds)) :
    RequestsEvolve entries (entries.map f) := by
  induction entries with
  | nil => exact RequestsEvolve.nil
  | cons entry rest ih => exact RequestsEvolve.keep (hf entry) ih

/-- Removing some requests and applying an entry step to the others evolves
the queue. -/
theorem requestsEvolve_filterMap
    (g : RequestEntry Nanoseconds → Option (RequestEntry Nanoseconds))
    (hg : ∀ entry after, g entry = some after → EntryStep entry after)
    (entries : List (RequestEntry Nanoseconds)) :
    RequestsEvolve entries (entries.filterMap g) := by
  induction entries with
  | nil => exact RequestsEvolve.nil
  | cons entry rest ih =>
    cases hEntry : g entry with
    | none =>
      rw [List.filterMap_cons_none hEntry]
      exact RequestsEvolve.remove ih
    | some after =>
      rw [List.filterMap_cons_some hEntry]
      exact RequestsEvolve.keep (hg entry after hEntry) ih

/-- Every request of an evolved queue comes from a request of the queue
before, by an entry step. -/
theorem RequestsEvolve.exists_of_mem {before after : List (RequestEntry Nanoseconds)}
    (h : RequestsEvolve before after) :
    ∀ entryAfter, entryAfter ∈ after →
      ∃ entry, entry ∈ before ∧ EntryStep entry entryAfter := by
  induction h with
  | nil => intro entryAfter hMem; cases hMem
  | keep hStep _ ih =>
    intro entryAfter hMem
    rcases List.mem_cons.mp hMem with rfl | hMem
    · exact ⟨_, List.mem_cons_self _ _, hStep⟩
    · obtain ⟨entry, hIn, hS⟩ := ih entryAfter hMem
      exact ⟨entry, List.mem_cons_of_mem _ hIn, hS⟩
  | remove _ ih =>
    intro entryAfter hMem
    obtain ⟨entry, hIn, hS⟩ := ih entryAfter hMem
    exact ⟨entry, List.mem_cons_of_mem _ hIn, hS⟩

/-- The handles of an evolved queue are a sublist of the handles before. -/
theorem RequestsEvolve.handles_sublist {before after : List (RequestEntry Nanoseconds)}
    (h : RequestsEvolve before after) :
    (after.map (fun entry => entry.handle)).Sublist (before.map (fun entry => entry.handle)) := by
  induction h with
  | nil => exact List.Sublist.slnil
  | keep hStep _ ih =>
    simp only [List.map_cons]
    rw [hStep.1]
    exact ih.cons₂ _
  | remove _ ih =>
    simp only [List.map_cons]
    exact ih.cons _

/-- An evolved queue has no more active requests for a resource than the queue
before. -/
theorem RequestsEvolve.countP_le {before after : List (RequestEntry Nanoseconds)}
    (h : RequestsEvolve before after) (resourceID : String) :
    after.countP (IsActiveFor resourceID) ≤ before.countP (IsActiveFor resourceID) := by
  induction h with
  | nil => exact Nat.le_refl _
  | @keep entry entryAfter rest restAfter hStep _ ih =>
    by_cases hA : IsActiveFor resourceID entryAfter = true
    · rw [List.countP_cons_of_pos _ _ hA,
        List.countP_cons_of_pos _ _ (hStep.isActiveFor resourceID hA)]
      exact Nat.succ_le_succ ih
    · rw [List.countP_cons_of_neg _ _ hA]
      exact Nat.le_trans ih (List.countP_mono_left (fun _ _ h => h) |>.trans
        (by rw [List.countP_cons]; exact Nat.le_add_right _ _))
  | @remove entry rest restAfter _ ih =>
    exact Nat.le_trans ih (by rw [List.countP_cons]; exact Nat.le_add_right _ _)

/-- The scheduling loop evolves the queue: it removes nothing and moves
Pending requests to Succeeded or to Compiling. -/
theorem schedulingLoop_evolves (checkUpToDate : String → UpToDateVerdict) (now : Nanoseconds) :
    ∀ (entries : List (RequestEntry Nanoseconds)) (workers : List ResourceServerWorker)
      (spawned : List Nat),
      RequestsEvolve entries (schedulingLoop checkUpToDate now entries workers spawned).1 := by
  intro entries
  induction entries with
  | nil =>
    intro workers spawned
    exact RequestsEvolve.nil
  | cons entry rest ih =>
    intro workers spawned
    rw [schedulingLoop]
    split
    · next hP =>
      have hPending : entry.request.m_status = Status.Pending := by
        simpa [CompilationRequest.IsPending] using hP
      split
      · exact RequestsEvolve.keep
          ⟨rfl, rfl, rfl, rfl, Or.inr (Or.inr (Or.inl ⟨hPending, rfl⟩))⟩ (ih _ _)
      · split
        · exact RequestsEvolve.keep
            ⟨rfl, rfl, rfl, rfl, Or.inr (Or.inl ⟨hPending, rfl⟩)⟩ (ih _ _)
        · exact RequestsEvolve.keep (entryStep_refl entry) (ih _ _)
    · exact RequestsEvolve.keep (entryStep_refl entry) (ih _ _)

/-- The completion of a compilation is an entry step of every request. -/
theorem completeRequest_entryStep (hasWarningMarkers : String → Bool) (handle : Nat)
    (exitSignal : ExitSignal) (output : String) (now : Nanoseconds)
    (entry : RequestEntry Nanoseconds) :
    EntryStep entry (completeRequest hasWarningMarkers handle exitSignal output now entry) := by
  unfold completeRequest
  split
  · next h =>
    have hCompiling : entry.request.m_status = Status.Compiling := by
      simpa [CompilationRequest.IsExecuting] using h.2
    refine ⟨rfl, rfl, rfl, rfl, Or.inr (Or.inr (Or.inr ⟨hCompiling, ?_⟩))⟩
    cases exitSignal with
    | Exited exitCode =>
      by_cases hCode : exitCode = 0
      · by_cases hWarn : hasWarningMarkers (entry.request.m_log ++ output) = true
        · exact Or.inr (Or.inl (by
            simp [ResourceServerWorker.MapExitSignalToStatus, hCode, hWarn]))
        · exact Or.inl (by
            simp [ResourceServerWorker.MapExitSignalToStatus, hCode, hWarn])
      · exact Or.inr (Or.inr (by
          simp [ResourceServerWorker.MapExitSignalToStatus, hCode]))
    | Crashed => exact Or.inr (Or.inr rfl)
    | TimedOut => exact Or.inr (Or.inr rfl)
  · exact entryStep_refl entry

/-- A cancellation removes a request or is an entry step of it. -/
theorem cancelRequest_entryStep (handle : Nat) (now : Nanoseconds)
    (entry after : RequestEntry Nanoseconds)
    (h : cancelRequest handle now entry = some after) : EntryStep entry after := by
  unfold cancelRequest at h
  split at h
  · split at h
    · cases h
    · split at h
      · next hExecuting =>
        have hCompiling : entry.request.m_status = Status.Compiling := by
          simpa [CompilationRequest.IsExecuting] using hExecuting
        cases h
        exact ⟨rfl, rfl, rfl, rfl, Or.inr (Or.inr (Or.inr ⟨hCompiling, Or.inr (Or.inr rfl)⟩))⟩
      · cases h
        exact entryStep_refl entry
  · cases h
    exact entryStep_refl entry

/-- What an operation does to the queue: either it creates no request, the
queue evolves and the next free handle stays, or it is a `Submit` that appends
one Pending request under the next free handle, for a resource that had no
active request, with client ID 0 if the origin is internal. -/
theorem apply_requests (U : TimeUnits Nanoseconds Milliseconds)
    (hasWarningMarkers : String → Bool) (server : ResourceServer Nanoseconds)
    (operation : ServerOperation Nanoseconds) :
    (RequestsEvolve server.m_requests (Apply U hasWarningMarkers server operation).m_requests ∧
        (Apply U hasWarningMarkers server operation).m_nextHandle = server.m_nextHandle) ∨
      ∃ created : RequestEntry Nanoseconds,
        (Apply U hasWarningMarkers server operation).m_requests
          = server.m_requests ++ [created] ∧
        (Apply U hasWarningMarkers server operation).m_nextHandle = server.m_nextHandle + 1 ∧
        created.handle = server.m_nextHandle ∧
        created.request.m_status = Status.Pending ∧
        (created.request.IsInternalRequest = true → created.request.m_clientID = 0) ∧
        (∀ entry, entry ∈ server.m_requests →
          IsActiveFor created.request.m_resourceID entry = false) := by
  cases operation with
  | Submit timeRequested resourceID origin clientID =>
    cases hFind : server.m_requests.find? (IsActiveFor resourceID) with
    | some existing =>
      left
      have hSame : Apply U hasWarningMarkers server
          (ServerOperation.Submit timeRequested resourceID origin clientID) = server := by
        simp only [Apply, Submit, hFind]
      rw [hSame]
      exact ⟨requestsEvolve_refl _, rfl⟩
    | none =>
      right
      refine ⟨{ handle := server.m_nextHandle
                request :=
                  { CompilationRequest.defaultInit U timeRequested with
                    m_resourceID := resourceID
                    m_origin := origin
                    m_clientID := if origin = Origin.External then clientID.getD 0 else 0 } },
        ?_, ?_, rfl, rfl, ?_, ?_⟩
      · simp only [Apply, Submit, hFind]
      · simp only [Apply, Submit, hFind]
      · intro hInternal
        have hOrigin : origin ≠ Origin.External := by
          simpa [CompilationRequest.IsInternalRequest] using hInternal
        simp [hOrigin]
      · intro entry hMem
        have hNone := List.find?_eq_none.mp hFind entry hMem
        simpa using hNone
  | SchedulingLoop checkUpToDate now =>
    left
    exact ⟨schedulingLoop_evolves checkUpToDate now _ _ _, rfl⟩
  | WorkerCompleted worker exitSignal output now =>
    left
    simp only [Apply, WorkerCompleted]
    split
    · exact ⟨requestsEvolve_map _
        (completeRequest_entryStep hasWarningMarkers _ exitSignal output now) _, rfl⟩
    · exact ⟨requestsEvolve_refl _, rfl⟩
  | Cancel handle now =>
    left
    exact ⟨requestsEvolve_filterMap _ (cancelRequest_entryStep handle now) _, rfl⟩
  | Retire handle =>
    left
    refine ⟨requestsEvolve_filterMap _ ?_ _, rfl⟩
    intro entry after h
    split at h
    · cases h
    · cases h
      exact entryStep_refl entry

/-- A property of the server state that holds initially and is kept by every
operation holds after every sequence of operations. -/
theorem run_induction (U : TimeUnits Nanoseconds Milliseconds)
    (hasWarningMarkers : String → Bool) (P : ResourceServer Nanoseconds → Prop)
    (hStep : ∀ server operation, P server → P (Apply U hasWarningMarkers server operation))
    (operations : List (ServerOperation Nanoseconds)) :
    ∀ server, P server → P (Run U hasWarningMarkers server operations) := by
  induction operations with
  | nil => intro server h; exact h
  | cons operation rest ih =>
    intro server h
    exact ih _ (hStep server operation h)

/-- Every operation keeps the handles of the queue fresh. -/
theorem apply_handlesAreFresh (U : TimeUnits Nanoseconds Milliseconds)
    (hasWarningMarkers : String → Bool) (server : ResourceServer Nanoseconds)
    (operation : ServerOperation Nanoseconds) (h : server.HandlesAreFresh) :
    (Apply U hasWarningMarkers server operation).HandlesAreFresh := by
  rcases apply_requests U hasWarningMarkers server operation with
    ⟨hEvolve, hNext⟩ | ⟨created, hReq, hNext, hHandle, _, _, _⟩
  · refine ⟨h.1.sublist hEvolve.handles_sublist, ?_⟩
    intro entryAfter hMem
    obtain ⟨entry, hIn, hStep⟩ := hEvolve.exists_of_mem entryAfter hMem
    rw [hNext, hStep.1]
    exact h.2 entry hIn
  · refine ⟨?_, ?_⟩
    · rw [hReq, List.map_append, List.nodup_append]
      refine ⟨h.1, by simp, ?_⟩
      intro a ha hb
      simp only [List.map_cons, List.map_nil, List.mem_singleton] at hb
      obtain ⟨entry, hIn, hEq⟩ := List.mem_map.mp ha
      have hLt := h.2 entry hIn
      rw [hEq, hb, hHandle] at hLt
      exact Nat.lt_irrefl _ hLt
    · intro entry hMem
      rw [hReq] at hMem
      rw [hNext]
      rcases List.mem_append.mp hMem with hOld | hNew
      · exact Nat.lt_succ_of_lt (h.2 entry hOld)
      · rw [List.mem_singleton.mp hNew, hHandle]
        exact Nat.lt_succ_self _

/-- The handles are fresh in every state reached from the initial state. -/
theorem run_handlesAreFresh (U : TimeUnits Nanoseconds Milliseconds)
    (hasWarningMarkers : String → Bool) (numWorkers : Nat)
    (operations : List (ServerOperation Nanoseconds)) :
    (Run U hasWarningMarkers (Create numWorkers) operations).HandlesAreFresh :=
  run_induction U hasWarningMarkers (fun server => server.HandlesAreFresh)
    (fun server operation h => apply_handlesAreFresh U hasWarningMarkers server operation h)
    operations (Create numWorkers)
    ⟨by simp [Create], by intro entry hMem; simp [Create] at hMem⟩

/-- In a queue with pairwise different handles that evolves, a request and its
successor under the same handle are related by an entry step. -/
theorem RequestsEvolve.entryStep_of_handle {before after : List (RequestEntry Nanoseconds)}
    (h : RequestsEvolve before after)
    (hNodup : (before.map (fun entry => entry.handle)).Nodup)
    {entry entryAfter : RequestEntry Nanoseconds} (hBefore : entry ∈ before)
    (hAfter : entryAfter ∈ after) (hSame : entryAfter.handle = entry.handle) :
    EntryStep entry entryAfter := by
  obtain ⟨source, hIn, hStep⟩ := h.exists_of_mem entryAfter hAfter
  have hEq : source = entry :=
    List.inj_on_of_nodup_map hNodup hIn hBefore (by rw [← hStep.1, hSame])
  rw [← hEq]
  exact hStep

/-- In a state with fresh handles, a request and its successor under the same
handle after one operation are related by an entry step. -/
theorem apply_entryStep (U : TimeUnits Nanoseconds Milliseconds)
    (hasWarningMarkers : String → Bool) (server : ResourceServer Nanoseconds)
    (operation : ServerOperation Nanoseconds) (hFresh : server.HandlesAreFresh)
    {entry entryAfter : RequestEntry Nanoseconds} (hBefore : entry ∈ server.m_requests)
    (hAfter : entryAfter ∈ (Apply U hasWarningMarkers server operation).m_requests)
    (hSame : entryAfter.handle = entry.handle) : EntryStep entry entryAfter := by
  rcases apply_requests U hasWarningMarkers server operation with
    ⟨hEvolve, _⟩ | ⟨created, hReq, _, hHandle, _, _, _⟩
  · exact hEvolve.entryStep_of_handle hFresh.1 hBefore hAfter hSame
  · rw [hReq] at hAfter
    rcases List.mem_append.mp hAfter with hOld | hNew
    · have hEq : entryAfter = entry :=
        List.inj_on_of_nodup_map hFresh.1 hOld hBefore hSame
      rw [hEq]
      exact entryStep_refl entry
    · have hLt := hFresh.2 entry hBefore
      rw [← hSame, List.mem_singleton.mp hNew, hHandle] at hLt
      exact absurd hLt (Nat.lt_irrefl _)

/-- C11, as stated, fails on the scheduler of the specification. The request
of `sampleServer` is Pending; one run of the scheduling loop that finds it up
to date leaves it Succeeded, and Pending to Succeeded is not one of the listed
changes (Pending to Compiling, Compiling to a terminal status). -/
theorem cacheHit_goes_from_pending_to_succeeded :
    sampleServer.m_requests.map (fun entry => (entry.handle, entry.request.m_status))
        = [(0, Status.Pending)] ∧
      (Apply exactUnits sampleWarningMarkers sampleServer
          (ServerOperation.SchedulingLoop allUpToDate 5)).m_requests.map
          (fun entry => (entry.handle, entry.request.m_status))
        = [(0, Status.Succeeded)] ∧
      ¬ ListedStatusStep Status.Pending Status.Succeeded := by
  refine ⟨by decide, by decide, ?_⟩
  simp [ListedStatusStep]

/-- C11, amended: in every state that the server reaches from its initial
state, one operation changes the status of a request (followed by its handle)
only from Pending to Compiling, from Pending to Succeeded, or from Compiling to
Succeeded, SucceededWithWarnings or Failed; and it does not change the status
of a request that is in a terminal status. -/
theorem status_is_monotonic (U : TimeUnits Nanoseconds Milliseconds)
    (hasWarningMarkers : String → Bool) (numWorkers : Nat)
    (operations : List (ServerOperation Nanoseconds))
    (operation : ServerOperation Nanoseconds)
    (entry entryAfter : RequestEntry Nanoseconds)
    (hBefore : entry ∈ (Run U hasWarningMarkers (Create numWorkers) operations).m_requests)
    (hAfter : entryAfter ∈ (Apply U hasWarningMarkers
      (Run U hasWarningMarkers (Create numWorkers) operations) operation).m_requests)
    (hSame : entryAfter.handle = entry.handle) :
    (entryAfter.request.m_status = entry.request.m_status ∨
        (entry.request.m_status = Status.Pending ∧
          entryAfter.request.m_status = Status.Compiling) ∨
        (entry.request.m_status = Status.Pending ∧
          entryAfter.request.m_status = Status.Succeeded) ∨
        (entry.request.m_status = Status.Compiling ∧
          (entryAfter.request.m_status = Status.Succeeded ∨
            entryAfter.request.m_status = Status.SucceededWithWarnings ∨
            entryAfter.request.m_status = Status.Failed))) ∧
      (entry.request.IsComplete = true →
        entryAfter.request.m_status = entry.request.m_status) := by
  have hStep := (apply_entryStep U hasWarningMarkers _ operation
    (run_handlesAreFresh U hasWarningMarkers numWorkers operations)
    hBefore hAfter hSame).2.2.2.2
  refine ⟨hStep, fun hComplete => hStep.eq_of_complete ?_⟩
  exact (isComplete_iff_terminal entry.request).mp hComplete

/-- Witness of the amended C11: the Pending request of `sampleServer` and its
successor after a scheduling loop that finds it up to date. -/
theorem status_is_monotonic_witness :
    (cacheHitEntry.request.m_status = pendingEntry.request.m_status ∨
        (pendingEntry.request.m_status = Status.Pending ∧
          cacheHitEntry.request.m_status = Status.Compiling) ∨
        (pendingEntry.request.m_status = Status.Pending ∧
          cacheHitEntry.request.m_status = Status.Succeeded) ∨
        (pendingEntry.request.m_status = Status.Compiling ∧
          (cacheHitEntry.request.m_status = Status.Succeeded ∨
            cacheHitEntry.request.m_status = Status.SucceededWithWarnings ∨
            cacheHitEntry.request.m_status = Status.Failed))) ∧
      (pendingEntry.request.IsComplete = true →
        cacheHitEntry.request.m_status = pendingEntry.request.m_status) :=
  status_is_monotonic exactUnits sampleWarningMarkers 1
    [ServerOperation.Submit 0 "A.mesh" Origin.External (some 1)]
    (ServerOperation.SchedulingLoop allUpToDate 5) pendingEntry cacheHitEntry
    (by
      show pendingEntry ∈ [pendingEntry]
      exact List.Mem.head _)
    (by
      show cacheHitEntry ∈ [cacheHitEntry]
      exact List.Mem.head _)
    rfl

/-- C12: in every state that the server reaches from its initial state, each
resource ID has at most one request that is Pending or Compiling; and `Submit`
for a resource ID that has such a request leaves the server as it is and
returns the handle of an existing Pending or Compiling request for that
resource ID. -/
theorem active_requests_are_deduplicated (U : TimeUnits Nanoseconds Milliseconds)
    (hasWarningMarkers : String → Bool) (numWorkers : Nat)
    (operations : List (ServerOperation Nanoseconds)) :
    (∀ resourceID : String,
        (Run U hasWarningMarkers (Create numWorkers) operations).m_requests.countP
          (fun entry => (entry.request.IsPending || entry.request.IsExecuting) &&
            entry.request.m_resourceID == resourceID) ≤ 1) ∧
      (∀ (timeRequested : Nat) (resourceID : String) (origin : Origin) (clientID : Option Nat),
        (∃ entry, entry ∈ (Run U hasWarningMarkers (Create numWorkers) operations).m_requests ∧
          (entry.request.IsPending || entry.request.IsExecuting) = true ∧
          entry.request.m_resourceID = resourceID) →
        ∃ existing,
          existing ∈ (Run U hasWarningMarkers (Create numWorkers) operations).m_requests ∧
          (existing.request.IsPending || existing.request.IsExecuting) = true ∧
          existing.request.m_resourceID = resourceID ∧
          Submit U (Run U hasWarningMarkers (Create numWorkers) operations)
              timeRequested resourceID origin clientID
            = (Run U hasWarningMarkers (Create numWorkers) operations, existing.handle)) := by
  constructor
  · intro resourceID
    refine run_induction U hasWarningMarkers
      (fun server => ∀ rid : String, server.m_requests.countP (IsActiveFor rid) ≤ 1)
      ?_ operations (Create numWorkers) (by intro rid; simp [Create]) resourceID
    intro server operation hInv rid
    rcases apply_requests U hasWarningMarkers server operation with
      ⟨hEvolve, _⟩ | ⟨created, hReq, _, _, _, _, hNoActive⟩
    · exact Nat.le_trans (hEvolve.countP_le rid) (hInv rid)
    · rw [hReq, List.countP_append]
      by_cases hRid : created.request.m_resourceID = rid
      · have hZero : server.m_requests.countP (IsActiveFor rid) = 0 := by
          rw [List.countP_eq_zero]
          intro entry hMem
          rw [← hRid, hNoActive entry hMem]
          simp
        rw [hZero, List.countP_cons]
        simp only [List.countP_nil, Nat.zero_add]
        split <;> simp
      · have hNot : IsActiveFor rid created = false := by
          simp [IsActiveFor, hRid]
        rw [List.countP_cons, hNot]
        simpa using hInv rid
  · intro timeRequested resourceID origin clientID hExists
    obtain ⟨entry, hMem, hActive, hRid⟩ := hExists
    cases hFind : (Run U hasWarningMarkers (Create numWorkers) operations).m_requests.find?
        (IsActiveFor resourceID) with
    | none =>
      have hNone := List.find?_eq_none.mp hFind entry hMem
      exact absurd (by simp [IsActiveFor, hActive, hRid]) hNone
    | some existing =>
      have hProp := List.find?_some hFind
      simp only [IsActiveFor, Bool.and_eq_true, beq_iff_eq] at hProp
      exact ⟨existing, List.mem_of_find?_eq_some hFind, hProp.1, hProp.2, by
        simp only [Submit, hFind]⟩

/-- Witness of C12 at `sampleServer`: a second `Submit` for "A.mesh", from the
file watcher, returns the handle of the request that is already Pending. -/
theorem active_requests_are_deduplicated_witness :
    ∃ existing,
      existing ∈ sampleServer.m_requests ∧
      (existing.request.IsPending || existing.request.IsExecuting) = true ∧
      existing.request.m_resourceID = "A.mesh" ∧
      Submit exactUnits sampleServer 9 "A.mesh" Origin.FileWatcher none
        = (sampleServer, existing.handle) :=
  (active_requests_are_deduplicated exactUnits sampleWarningMarkers 1
    [ServerOperation.Submit 0 "A.mesh" Origin.External (some 1)]).2
    9 "A.mesh" Origin.FileWatcher none
    ⟨pendingEntry, by
      show pendingEntry ∈ [pendingEntry]
      exact List.Mem.head _, rfl, rfl⟩

/-- A pool in which a free worker took a request consists of workers of the
old pool and of a worker holding that request. -/
theorem assignToFreeWorker_spec (handle : Nat) :
    ∀ (workers pool : List ResourceServerWorker),
      assignToFreeWorker handle workers = some pool →
      ∀ worker, worker ∈ pool → worker ∈ workers ∨ worker.m_pRequest = some handle := by
  intro workers
  induction workers with
  | nil =>
    intro pool h
    simp [assignToFreeWorker] at h
  | cons first rest ih =>
    intro pool h worker hMem
    rw [assignToFreeWorker] at h
    cases hAssign : first.Assign handle with
    | some assigned =>
      rw [hAssign] at h
      simp only [Option.some.injEq] at h
      rw [← h] at hMem
      rcases List.mem_cons.mp hMem with rfl | hRest
      · right
        unfold ResourceServerWorker.Assign at hAssign
        cases hReq : first.m_pRequest with
        | some held => rw [hReq] at hAssign; cases hAssign
        | none =>
          rw [hReq] at hAssign
          simp only [Option.some.injEq] at hAssign
          rw [← hAssign]
      · exact Or.inl (List.mem_cons_of_mem _ hRest)
    | none =>
      rw [hAssign] at h
      cases hRec : assignToFreeWorker handle rest with
      | none => rw [hRec] at h; cases h
      | some restPool =>
        rw [hRec] at h
        simp only [Option.map_some', Option.some.injEq] at h
        rw [← h] at hMem
        rcases List.mem_cons.mp hMem with rfl | hRest
        · exact Or.inl (List.mem_cons_self _ _)
        · rcases ih restPool hRec worker hRest with hOld | hNew
          · exact Or.inl (List.mem_cons_of_mem _ hOld)
          · exact Or.inr hNew

/-- What one run of the scheduling loop does besides evolving the queue. The
handles `added` to the log of spawned processes belong to requests that were
Pending and not up to date; a worker of the new pool is a worker of the old
pool or holds one of the handles `added`; every request keeps its place in the
queue under its handle, and a request that was Pending and up to date is
Succeeded afterwards. -/
theorem schedulingLoop_spec (checkUpToDate : String → UpToDateVerdict) (now : Nanoseconds) :
    ∀ (entries : List (RequestEntry Nanoseconds)) (workers : List ResourceServerWorker)
      (spawned : List Nat),
      ∃ added : List Nat,
        (schedulingLoop checkUpToDate now entries workers spawned).2.2 = spawned ++ added ∧
        (∀ handle, handle ∈ added →
          ∃ entry, entry ∈ entries ∧ entry.handle = handle ∧
            entry.request.IsPending = true ∧
            checkUpToDate entry.request.m_resourceID ≠ UpToDateVerdict.UpToDate) ∧
        (∀ worker, worker ∈ (schedulingLoop checkUpToDate now entries workers spawned).2.1 →
          worker ∈ workers ∨ ∃ handle, handle ∈ added ∧ worker.m_pRequest = some handle) ∧
        (∀ entry, entry ∈ entries →
          ∃ entryAfter,
            entryAfter ∈ (schedulingLoop checkUpToDate now entries workers spawned).1 ∧
            entryAfter.handle = entry.handle) ∧
        (∀ entryAfter,
          entryAfter ∈ (schedulingLoop checkUpToDate now entries workers spawned).1 →
          ∃ entry, entry ∈ entries ∧ entryAfter.handle = entry.handle ∧
            (entry.request.IsPending = true →
              checkUpToDate entry.request.m_resourceID = UpToDateVerdict.UpToDate →
              entryAfter.request.m_status = Status.Succeeded)) := by
  intro entries
  induction entries with
  | nil =>
    intro workers spawned
    exact ⟨[], by simp [schedulingLoop], by simp, by simp [schedulingLoop], by simp,
      by simp [schedulingLoop]⟩
  | cons first rest ih =>
    intro workers spawned
    by_cases hP : first.request.IsPending = true
    · cases hV : checkUpToDate first.request.m_resourceID with
      | UpToDate =>
        obtain ⟨added, hSp, hAdded, hWorkers, hKept, hAfter⟩ := ih workers spawned
        have hEq : schedulingLoop checkUpToDate now (first :: rest) workers spawned
            = ({ first with request := { first.request with m_status := Status.Succeeded } }
                :: (schedulingLoop checkUpToDate now rest workers spawned).1,
              (schedulingLoop checkUpToDate now rest workers spawned).2) := by
          rw [schedulingLoop]
          simp only [hP, if_true, hV]
        rw [hEq]
        refine ⟨added, hSp, ?_, hWorkers, ?_, ?_⟩
        · intro handle hIn
          obtain ⟨entry, hMem, hRest⟩ := hAdded handle hIn
          exact ⟨entry, List.mem_cons_of_mem _ hMem, hRest⟩
        · intro entry hMem
          rcases List.mem_cons.mp hMem with rfl | hMem
          · exact ⟨_, List.mem_cons_self _ _, rfl⟩
          · obtain ⟨entryAfter, hIn, hH⟩ := hKept entry hMem
            exact ⟨entryAfter, List.mem_cons_of_mem _ hIn, hH⟩
        · intro entryAfter hMem
          rcases List.mem_cons.mp hMem with rfl | hMem
          · exact ⟨first, List.mem_cons_self _ _, rfl, fun _ _ => rfl⟩
          · obtain ⟨entry, hIn, hRest⟩ := hAfter entryAfter hMem
            exact ⟨entry, List.mem_cons_of_mem _ hIn, hRest⟩
      | Stale reason =>
        cases hA : assignToFreeWorker first.handle workers with
        | some pool =>
          obtain ⟨added, hSp, hAdded, hWorkers, hKept, hAfter⟩ :=
            ih pool (spawned ++ [first.handle])
          have hEq : schedulingLoop checkUpToDate now (first :: rest) workers spawned
              = ({ first with
                    request :=
                      { first.request with
                        m_status := Status.Compiling
                        m_compilationTimeStarted := now } }
                  :: (schedulingLoop checkUpToDate now rest pool
                        (spawned ++ [first.handle])).1,
                (schedulingLoop checkUpToDate now rest pool (spawned ++ [first.handle])).2) := by
            rw [schedulingLoop]
            simp only [hP, if_true, hV, hA]
          rw [hEq]
          refine ⟨first.handle :: added, ?_, ?_, ?_, ?_, ?_⟩
          · rw [hSp]
            simp
          · intro handle hIn
            rcases List.mem_cons.mp hIn with rfl | hIn
            · exact ⟨first, List.mem_cons_self _ _, rfl, hP, by rw [hV]; simp⟩
            · obtain ⟨entry, hMem, hRest⟩ := hAdded handle hIn
              exact ⟨entry, List.mem_cons_of_mem _ hMem, hRest⟩
          · intro worker hMem
            rcases hWorkers worker hMem with hPool | ⟨handle, hIn, hHeld⟩
            · rcases assignToFreeWorker_spec first.handle workers pool hA worker hPool with
                hOld | hNew
              · exact Or.inl hOld
              · exact Or.inr ⟨first.handle, List.mem_cons_self _ _, hNew⟩
            · exact Or.inr ⟨handle, List.mem_cons_of_mem _ hIn, hHeld⟩
          · intro entry hMem
            rcases List.mem_cons.mp hMem with rfl | hMem
            · exact ⟨_, List.mem_cons_self _ _, rfl⟩
            · obtain ⟨entryAfter, hIn, hH⟩ := hKept entry hMem
              exact ⟨entryAfter, List.mem_cons_of_mem _ hIn, hH⟩
          · intro entryAfter hMem
            rcases List.mem_cons.mp hMem with rfl | hMem
            · refine ⟨first, List.mem_cons_self _ _, rfl, fun _ hUp => ?_⟩
              rw [hV] at hUp
              cases hUp
            · obtain ⟨entry, hIn, hRest⟩ := hAfter entryAfter hMem
              exact ⟨entry, List.mem_cons_of_mem _ hIn, hRest⟩
        | none =>
          obtain ⟨added, hSp, hAdded, hWorkers, hKept, hAfter⟩ := ih workers spawned
          have hEq : schedulingLoop checkUpToDate now (first :: rest) workers spawned
              = (first :: (schedulingLoop checkUpToDate now rest workers spawned).1,
                (schedulingLoop checkUpToDate now rest workers spawned).2) := by
            rw [schedulingLoop]
            simp only [hP, if_true, hV, hA]
          rw [hEq]
          refine ⟨added, hSp, ?_, hWorkers, ?_, ?_⟩
          · intro handle hIn
            obtain ⟨entry, hMem, hRest⟩ := hAdded handle hIn
            exact ⟨entry, List.mem_cons_of_mem _ hMem, hRest⟩
          · intro entry hMem
            rcases List.mem_cons.mp hMem with rfl | hMem
            · exact ⟨_, List.mem_cons_self _ _, rfl⟩
            · obtain ⟨entryAfter, hIn, hH⟩ := hKept entry hMem
              exact ⟨entryAfter, List.mem_cons_of_mem _ hIn, hH⟩
          · intro entryAfter hMem
            rcases List.mem_cons.mp hMem with hHead | hMem
            · rw [hHead]
              refine ⟨first, List.mem_cons_self _ _, rfl, fun _ hUp => ?_⟩
              rw [hV] at hUp
              cases hUp
            · obtain ⟨entry, hIn, hRest⟩ := hAfter entryAfter hMem
              exact ⟨entry, List.mem_cons_of_mem _ hIn, hRest⟩
    · obtain ⟨added, hSp, hAdded, hWorkers, hKept, hAfter⟩ := ih workers spawned
      have hEq : schedulingLoop checkUpToDate now (first :: rest) workers spawned
          = (first :: (schedulingLoop checkUpToDate now rest workers spawned).1,
            (schedulingLoop checkUpToDate now rest workers spawned).2) := by
        rw [schedulingLoop]
        simp only [hP]
        rfl
      rw [hEq]
      refine ⟨added, hSp, ?_, hWorkers, ?_, ?_⟩
      · intro handle hIn
        obtain ⟨entry, hMem, hRest⟩ := hAdded handle hIn
        exact ⟨entry, List.mem_cons_of_mem _ hMem, hRest⟩
      · intro entry hMem
        rcases List.mem_cons.mp hMem with rfl | hMem
        · exact ⟨_, List.mem_cons_self _ _, rfl⟩
        · obtain ⟨entryAfter, hIn, hH⟩ := hKept entry hMem
          exact ⟨entryAfter, List.mem_cons_of_mem _ hIn, hH⟩
      · intro entryAfter hMem
        rcases List.mem_cons.mp hMem with hHead | hMem
        · rw [hHead]
          exact ⟨first, List.mem_cons_self _ _, rfl, fun hPending => absurd hPending hP⟩
        · obtain ⟨entry, hIn, hRest⟩ := hAfter entryAfter hMem
          exact ⟨entry, List.mem_cons_of_mem _ hIn, hRest⟩

/-- C13: when the scheduling loop finds a Pending request up to date, in any
state that the server reaches from its initial state, the request stays in the
queue and is Succeeded after the loop; no worker is assigned to it (a worker
that holds its handle after the loop was in the pool, holding it, before); and
no compiler process is spawned for it (its handle is not among the handles
added to the log of spawned processes). -/
theorem upToDate_request_succeeds_without_worker (U : TimeUnits Nanoseconds Milliseconds)
    (hasWarningMarkers : String → Bool) (numWorkers : Nat)
    (operations : List (ServerOperation Nanoseconds))
    (checkUpToDate : String → UpToDateVerdict) (now : Nanoseconds)
    (entry : RequestEntry Nanoseconds)
    (hMem : entry ∈ (Run U hasWarningMarkers (Create numWorkers) operations).m_requests)
    (hPending : entry.request.IsPending = true)
    (hUpToDate : checkUpToDate entry.request.m_resourceID = UpToDateVerdict.UpToDate) :
    (∃ entryAfter,
        entryAfter ∈ (SchedulingLoop (Run U hasWarningMarkers (Create numWorkers) operations)
          checkUpToDate now).m_requests ∧
        entryAfter.handle = entry.handle) ∧
      (∀ entryAfter,
        entryAfter ∈ (SchedulingLoop (Run U hasWarningMarkers (Create numWorkers) operations)
          checkUpToDate now).m_requests →
        entryAfter.handle = entry.handle →
        entryAfter.request.m_status = Status.Succeeded) ∧
      (∀ worker,
        worker ∈ (SchedulingLoop (Run U hasWarningMarkers (Create numWorkers) operations)
          checkUpToDate now).m_workers →
        worker.m_pRequest = some entry.handle →
        worker ∈ (Run U hasWarningMarkers (Create numWorkers) operations).m_workers) ∧
      (∃ added : List Nat,
        (SchedulingLoop (Run U hasWarningMarkers (Create numWorkers) operations)
            checkUpToDate now).m_spawnedProcesses
          = (Run U hasWarningMarkers (Create numWorkers) operations).m_spawnedProcesses
              ++ added ∧
        entry.handle ∉ added) := by
  have hFresh := run_handlesAreFresh U hasWarningMarkers numWorkers operations
  obtain ⟨added, hSp, hAdded, hWorkers, hKept, hAfter⟩ :=
    schedulingLoop_spec checkUpToDate now
      (Run U hasWarningMarkers (Create numWorkers) operations).m_requests
      (Run U hasWarningMarkers (Create numWorkers) operations).m_workers
      (Run U hasWarningMarkers (Create numWorkers) operations).m_spawnedProcesses
  have hNotAdded : entry.handle ∉ added := by
    intro hIn
    obtain ⟨other, hOther, hHandle, _, hStale⟩ := hAdded entry.handle hIn
    have hEq : other = entry := List.inj_on_of_nodup_map hFresh.1 hOther hMem hHandle
    rw [hEq] at hStale
    exact hStale hUpToDate
  refine ⟨hKept entry hMem, ?_, ?_, ⟨added, hSp, hNotAdded⟩⟩
  · intro entryAfter hIn hSame
    obtain ⟨source, hSource, hHandle, hSucceeded⟩ := hAfter entryAfter hIn
    have hEq : source = entry :=
      List.inj_on_of_nodup_map hFresh.1 hSource hMem (by rw [← hHandle, hSame])
    rw [hEq] at hSucceeded
    exact hSucceeded hPending hUpToDate
  · intro worker hIn hHolds
    rcases hWorkers worker hIn with hOld | ⟨handle, hHandleIn, hHeld⟩
    · exact hOld
    · rw [hHolds] at hHeld
      simp only [Option.some.injEq] at hHeld
      rw [← hHeld] at hHandleIn
      exact absurd hHandleIn hNotAdded

/-- Witness of C13 at `sampleServer`, whose Pending request is found up to
date. -/
theorem upToDate_request_succeeds_without_worker_witness :
    (∃ entryAfter,
        entryAfter ∈ (SchedulingLoop sampleServer allUpToDate 5).m_requests ∧
        entryAfter.handle = pendingEntry.handle) ∧
      (∀ entryAfter,
        entryAfter ∈ (SchedulingLoop sampleServer allUpToDate 5).m_requests →
        entryAfter.handle = pendingEntry.handle →
        entryAfter.request.m_status = Status.Succeeded) ∧
      (∀ worker,
        worker ∈ (SchedulingLoop sampleServer allUpToDate 5).m_workers →
        worker.m_pRequest = some pendingEntry.handle →
        worker ∈ sampleServer.m_workers) ∧
      (∃ added : List Nat,
        (SchedulingLoop sampleServer allUpToDate 5).m_spawnedProcesses
          = sampleServer.m_spawnedProcesses ++ added ∧
        pendingEntry.handle ∉ added) :=
  upToDate_request_succeeds_without_worker exactUnits sampleWarningMarkers 1
    [ServerOperation.Submit 0 "A.mesh" Origin.External (some 1)] allUpToDate 5 pendingEntry
    (by
      show pendingEntry ∈ [pendingEntry]
      exact List.Mem.head _)
    rfl rfl

/-- C14: the worker maps the outcome of the compiler process to a status for
every outcome: exit code 0 without warning markers in the log gives Succeeded,
exit code 0 with warning markers gives SucceededWithWarnings, and a non-zero
exit code, a crash and a timeout give Failed. -/
theorem exit_signal_maps_to_status (hasWarningMarkers : String → Bool) (log : String) :
    (hasWarningMarkers log = false →
        ResourceServerWorker.MapExitSignalToStatus hasWarningMarkers (ExitSignal.Exited 0) log
          = Status.Succeeded) ∧
      (hasWarningMarkers log = true →
        ResourceServerWorker.MapExitSignalToStatus hasWarningMarkers (ExitSignal.Exited 0) log
          = Status.SucceededWithWarnings) ∧
      (∀ exitCode : Int, exitCode ≠ 0 →
        ResourceServerWorker.MapExitSignalToStatus hasWarningMarkers
          (ExitSignal.Exited exitCode) log = Status.Failed) ∧
      ResourceServerWorker.MapExitSignalToStatus hasWarningMarkers ExitSignal.Crashed log
        = Status.Failed ∧
      ResourceServerWorker.MapExitSignalToStatus hasWarningMarkers ExitSignal.TimedOut log
        = Status.Failed := by
  refine ⟨fun h => ?_, fun h => ?_, fun exitCode h => ?_, rfl, rfl⟩
  · simp [ResourceServerWorker.MapExitSignalToStatus, h]
  · simp [ResourceServerWorker.MapExitSignalToStatus, h]
  · simp [ResourceServerWorker.MapExitSignalToStatus, h]

/-- Witness of C14 with the log convention `sampleWarningMarkers`. -/
theorem exit_signal_maps_to_status_witness :
    ResourceServerWorker.MapExitSignalToStatus sampleWarningMarkers (ExitSignal.Exited 0) ""
        = Status.Succeeded ∧
      ResourceServerWorker.MapExitSignalToStatus sampleWarningMarkers (ExitSignal.Exited 0)
        "warning" = Status.SucceededWithWarnings ∧
      ResourceServerWorker.MapExitSignalToStatus sampleWarningMarkers (ExitSignal.Exited 1)
        "warning" = Status.Failed :=
  ⟨(exit_signal_maps_to_status sampleWarningMarkers "").1 (by decide),
    (exit_signal_maps_to_status sampleWarningMarkers "warning").2.1 (by decide),
    (exit_signal_maps_to_status sampleWarningMarkers "warning").2.2.1 1 (by decide)⟩

/-- C15, as stated, fails: the request type has a state with an internal
origin and a non-zero client ID. The record `internalRequestWithClientID` has
origin FileWatcher, so `IsInternalRequest()` is true, and stores the client ID
3; `GetClientID()` fails its assertion on it. -/
theorem internal_request_can_store_clientID :
    internalRequestWithClientID.IsInternalRequest = true ∧
      internalRequestWithClientID.m_clientID = 3 ∧
      internalRequestWithClientID.m_clientID ≠ 0 ∧
      internalRequestWithClientID.GetClientID = none := by
  refine ⟨rfl, rfl, by decide, rfl⟩

/-- C15, amended: in every state that the server reaches from its initial
state, every request of the queue with an internal origin (an origin other than
External) has client ID 0. -/
theorem server_internal_requests_have_clientID_zero (U : TimeUnits Nanoseconds Milliseconds)
    (hasWarningMarkers : String → Bool) (numWorkers : Nat)
    (operations : List (ServerOperation Nanoseconds)) (entry : RequestEntry Nanoseconds)
    (hMem : entry ∈ (Run U hasWarningMarkers (Create numWorkers) operations).m_requests)
    (hInternal : entry.request.IsInternalRequest = true) :
    entry.request.m_clientID = 0 := by
  refine run_induction U hasWarningMarkers
    (fun server => ∀ e, e ∈ server.m_requests →
      e.request.IsInternalRequest = true → e.request.m_clientID = 0)
    ?_ operations (Create numWorkers) (by intro e hIn; simp [Create] at hIn) entry hMem hInternal
  intro server operation hInv e hIn hInt
  rcases apply_requests U hasWarningMarkers server operation with
    ⟨hEvolve, _⟩ | ⟨created, hReq, _, _, _, hCreated, _⟩
  · obtain ⟨source, hSource, hStep⟩ := hEvolve.exists_of_mem e hIn
    rw [hStep.2.2.2.1]
    refine hInv source hSource ?_
    simpa [CompilationRequest.IsInternalRequest, hStep.2.2.1] using hInt
  · rw [hReq] at hIn
    rcases List.mem_append.mp hIn with hOld | hNew
    · exact hInv e hOld hInt
    · rw [List.mem_singleton.mp hNew] at hInt ⊢
      exact hCreated hInt

/-- Witness of the amended C15: the file watcher submits "B.anim" and passes
the client ID 7; the request created has client ID 0. -/
theorem server_internal_requests_have_clientID_zero_witness :
    fileWatcherEntry.request.IsInternalRequest = true ∧
      fileWatcherEntry.request.m_clientID = 0 :=
  ⟨rfl, server_internal_requests_have_clientID_zero exactUnits sampleWarningMarkers 2
    [ServerOperation.Submit 4 "B.anim" Origin.FileWatcher (some 7)] fileWatcherEntry
    (by
      show fileWatcherEntry ∈ [fileWatcherEntry]
      exact List.Mem.head _)
    rfl⟩

end ResourceServerTheorems

/-! ## Theorems: descriptor reload and `ResourceWorkspaceFactory::CreateWorkspace` -/

section DescriptorReloadTheorems

open Workspace

variable {ResourceID Descriptor : Type} [DecidableEq ResourceID]

/-- The unload loop of `BeginHotReload` leaves the descriptor pointer alone. -/
theorem unloadLoop_descriptor (rs : ResourceSystem ResourceID)
    (resourcesToBeReloaded : List ResourceID) (w : Workspace ResourceID Descriptor) :
    (unloadLoop rs resourcesToBeReloaded w.m_requestedResources w).m_pDescriptor
      = w.m_pDescriptor := by
  obtain ⟨us, memory1, hEq, _⟩ :=
    unloadLoop_spec rs resourcesToBeReloaded w.resourcePtrs w.m_requestedResources w []
      (fun q _ => rfl) (fun q hq => absurd hq (List.not_mem_nil q))
  rw [hEq]

/-- C16: `BeginHotReload` destroys the descriptor (the pointer is null
afterwards) if the workspace is a descriptor workspace and its descriptor ID is
in `resourcesToBeReloaded`, and leaves the descriptor pointer as it is
otherwise. `EndHotReload`, after its load loop has turned the workspace into
`w2`, returns what `LoadDescriptor` returns on `w2` if the workspace is a
descriptor workspace whose descriptor is not loaded, and returns `w2` without
calling `LoadDescriptor` otherwise; when it calls `LoadDescriptor`, `w2` is a
descriptor workspace with a null descriptor pointer, so the first two assertions
of `LoadDescriptor` hold and it fails only if the property grid is missing. -/
theorem descriptor_is_destroyed_and_reloaded (rs : ResourceSystem ResourceID)
    (file : DescriptorFile Descriptor) (w : Workspace ResourceID Descriptor)
    (usersToBeReloaded : List Nat) (resourcesToBeReloaded : List ResourceID) :
    (BeginHotReload rs w usersToBeReloaded resourcesToBeReloaded).m_pDescriptor
        = (if w.isADescriptorWorkspace = true ∧ w.m_descriptorID ∈ resourcesToBeReloaded
            then none else w.m_pDescriptor) ∧
      ∃ w2 : Workspace ResourceID Descriptor,
        w2.isADescriptorWorkspace = w.isADescriptorWorkspace ∧
        w2.m_pDescriptor = w.m_pDescriptor ∧
        w2.m_pDescriptorPropertyGrid = w.m_pDescriptorPropertyGrid ∧
        EndHotReload rs file w
          = (if w.isADescriptorWorkspace = true ∧ w.IsDescriptorLoaded = false
              then LoadDescriptor file w2 else some w2) ∧
        (w.isADescriptorWorkspace = true ∧ w.IsDescriptorLoaded = false →
          w2.isADescriptorWorkspace = true ∧ w2.m_pDescriptor = none ∧
          (LoadDescriptor file w2 = none ↔ w.m_pDescriptorPropertyGrid = none)) := by
  constructor
  · by_cases h1 : w.isADescriptorWorkspace = true
    · by_cases h2 : w.m_descriptorID ∈ resourcesToBeReloaded
      · have hStep : BeginHotReload rs w usersToBeReloaded resourcesToBeReloaded
            = unloadLoop rs resourcesToBeReloaded w.m_requestedResources
                { w with m_pDescriptor := none } := by
          simp [BeginHotReload, VectorContains, h1, h2]
        rw [hStep, if_pos ⟨h1, h2⟩]
        exact unloadLoop_descriptor rs resourcesToBeReloaded { w with m_pDescriptor := none }
      · have hStep : BeginHotReload rs w usersToBeReloaded resourcesToBeReloaded
            = unloadLoop rs resourcesToBeReloaded w.m_requestedResources w := by
          simp [BeginHotReload, VectorContains, h1, h2]
        rw [hStep, if_neg (fun h => h2 h.2)]
        exact unloadLoop_descriptor rs resourcesToBeReloaded w
    · have hStep : BeginHotReload rs w usersToBeReloaded resourcesToBeReloaded
          = unloadLoop rs resourcesToBeReloaded w.m_requestedResources w := by
        simp [BeginHotReload, h1]
      rw [hStep, if_neg (fun h => h1 h.1)]
      exact unloadLoop_descriptor rs resourcesToBeReloaded w
  · obtain ⟨memory1, hLoop⟩ := loadLoop_spec rs w.m_reloadingResources w
    refine ⟨{ w with
        resourcePtrs := memory1
        resourceSystemRequests :=
          w.resourceSystemRequests ++ w.m_reloadingResources.map ResourceRequest.Load
        m_reloadingResources := [] }, rfl, rfl, rfl, ?_, ?_⟩
    · by_cases hGuard : w.isADescriptorWorkspace = true ∧ w.IsDescriptorLoaded = false
      · rw [if_pos hGuard]
        have hTrue : (w.isADescriptorWorkspace && !w.m_pDescriptor.isSome) = true := by
          have h2 : w.m_pDescriptor.isSome = false := hGuard.2
          rw [hGuard.1, h2]
          rfl
        simp only [EndHotReload, hLoop, IsDescriptorLoaded]
        rw [if_pos hTrue]
      · rw [if_neg hGuard]
        have hFalse : ¬ ((w.isADescriptorWorkspace && !w.m_pDescriptor.isSome) = true) := by
          intro hTrue
          apply hGuard
          simp only [IsDescriptorLoaded]
          cases hd : w.isADescriptorWorkspace <;> cases hp : w.m_pDescriptor.isSome <;>
            simp_all
        simp only [EndHotReload, hLoop, IsDescriptorLoaded]
        rw [if_neg hFalse]
    · rintro ⟨h1, h2⟩
      have hNull : w.m_pDescriptor = none := by
        cases hp : w.m_pDescriptor with
        | none => rfl
        | some d => simp [IsDescriptorLoaded, hp] at h2
      refine ⟨h1, hNull, ?_⟩
      cases hg : w.m_pDescriptorPropertyGrid with
      | none => simp [LoadDescriptor, h1, hNull, hg]
      | some grid =>
        by_cases hRead : file.readFromFile = true
        · simp [LoadDescriptor, h1, hNull, hg, hRead]
        · simp [LoadDescriptor, h1, hNull, hg, hRead]

/-- Witness of C16 at `descriptorWorkspace`, whose descriptor ID 10 is to be
reloaded: `BeginHotReload` destroys the descriptor, and the `EndHotReload` that
follows returns what `LoadDescriptor` returns, which is not a failure. -/
theorem descriptor_is_destroyed_and_reloaded_witness :
    (BeginHotReload simpleResourceSystem descriptorWorkspace [] [10]).m_pDescriptor = none ∧
      ∃ w2 : Workspace Nat Unit,
        EndHotReload simpleResourceSystem readableFile
            (BeginHotReload simpleResourceSystem descriptorWorkspace [] [10])
          = LoadDescriptor readableFile w2 ∧
        LoadDescriptor readableFile w2 ≠ none := by
  have hBegin := (descriptor_is_destroyed_and_reloaded simpleResourceSystem readableFile
    descriptorWorkspace [] [10]).1
  have hNone : (BeginHotReload simpleResourceSystem descriptorWorkspace [] [10]).m_pDescriptor
      = none := by
    rw [hBegin]
    decide
  obtain ⟨w2, hKind, _, hGrid, hEnd, hPre⟩ :=
    (descriptor_is_destroyed_and_reloaded simpleResourceSystem readableFile
      (BeginHotReload simpleResourceSystem descriptorWorkspace [] [10]) [] [10]).2
  have hGuard : (BeginHotReload simpleResourceSystem descriptorWorkspace [] [10]).isADescriptorWorkspace
      = true ∧
      (BeginHotReload simpleResourceSystem descriptorWorkspace [] [10]).IsDescriptorLoaded
        = false :=
    ⟨by decide, by simp [IsDescriptorLoaded, hNone]⟩
  refine ⟨hNone, w2, ?_, ?_⟩
  · rw [hEnd, if_pos hGuard]
  · intro hFail
    have hNoGrid := (hPre hGuard).2.2.mp hFail
    have hHasGrid : (BeginHotReload simpleResourceSystem descriptorWorkspace [] [10]).m_pDescriptorPropertyGrid
        = some { typeToEdit := some (), isDirty := false } := by
      rfl
    rw [hHasGrid] at hNoGrid
    cases hNoGrid

end DescriptorReloadTheorems

section WorkspaceFactoryTheorems

open ResourceWorkspaceFactory

variable {ResourceID TypeID WorkspaceT : Type} [DecidableEq TypeID]

/-- The factory loop returns nothing exactly when no factory of the registry
supports the resource type. -/
theorem factoryLoop_eq_none_iff (resourceTypeID : TypeID) (resourceID : ResourceID)
    (registry : List (ResourceWorkspaceFactory ResourceID TypeID WorkspaceT)) :
    factoryLoop resourceTypeID resourceID registry = none ↔
      ∀ factory, factory ∈ registry → factory.GetSupportedResourceTypeID ≠ resourceTypeID := by
  induction registry with
  | nil => simp [factoryLoop]
  | cons first rest ih =>
    by_cases h : resourceTypeID = first.GetSupportedResourceTypeID
    · simp only [factoryLoop, h, if_true]
      constructor
      · intro hNone; cases hNone
      · intro hAll
        exact absurd rfl (hAll first (List.mem_cons_self _ _))
    · simp only [factoryLoop, h, if_false, ih]
      constructor
      · intro hAll factory hMem
        rcases List.mem_cons.mp hMem with hHead | hTail
        · rw [hHead]
          exact fun hEq => h hEq.symm
        · exact hAll factory hTail
      · intro hAll factory hMem
        exact hAll factory (List.mem_cons_of_mem _ hMem)

/-- When some factory of the registry supports the resource type, the factory
loop returns the workspace made by the first such factory. -/
theorem factoryLoop_first (resourceTypeID : TypeID) (resourceID : ResourceID)
    (registry : List (ResourceWorkspaceFactory ResourceID TypeID WorkspaceT))
    (hSome : ∃ factory, factory ∈ registry ∧
      factory.GetSupportedResourceTypeID = resourceTypeID) :
    ∃ before first after,
      registry = before ++ first :: after ∧
      (∀ factory, factory ∈ before → factory.GetSupportedResourceTypeID ≠ resourceTypeID) ∧
      first.GetSupportedResourceTypeID = resourceTypeID ∧
      factoryLoop resourceTypeID resourceID registry
        = some (first.CreateWorkspaceInternal resourceID) := by
  induction registry with
  | nil =>
    obtain ⟨factory, hMem, _⟩ := hSome
    cases hMem
  | cons head rest ih =>
    by_cases h : resourceTypeID = head.GetSupportedResourceTypeID
    · exact ⟨[], head, rest, rfl, by simp, h.symm, by simp [factoryLoop, h]⟩
    · obtain ⟨factory, hMem, hSupports⟩ := hSome
      have hRest : ∃ factory, factory ∈ rest ∧
          factory.GetSupportedResourceTypeID = resourceTypeID := by
        rcases List.mem_cons.mp hMem with hHead | hTail
        · rw [hHead] at hSupports
          exact absurd hSupports.symm h
        · exact ⟨factory, hTail, hSupports⟩
      obtain ⟨before, first, after, hSplit, hBefore, hFirst, hLoop⟩ := ih hRest
      refine ⟨head :: before, first, after, by rw [hSplit]; rfl, ?_, hFirst, ?_⟩
      · intro factory hIn
        rcases List.mem_cons.mp hIn with hHead | hTail
        · rw [hHead]
          exact fun hEq => h hEq.symm
        · exact hBefore factory hTail
      · simp only [factoryLoop, h, if_false]
        exact hLoop

/-- The descriptor loop returns the generic workspace exactly when some
descriptor type compiles to the resource type. -/
theorem descriptorLoop_iff (resourceTypeID : TypeID) (resourceDescriptorTypes : List TypeID) :
    descriptorLoop resourceTypeID resourceDescriptorTypes = true ↔
      resourceTypeID ∈ resourceDescriptorTypes := by
  induction resourceDescriptorTypes with
  | nil => simp [descriptorLoop]
  | cons first rest ih =>
    by_cases h : first = resourceTypeID
    · simp [descriptorLoop, h]
    · have h2 : ¬ resourceTypeID = first := fun hEq => h hEq.symm
      simp [descriptorLoop, h, h2, ih]

/-- C17: for a valid resource ID with a valid resource type ID, if some factory
of the registry supports the type ID, `CreateWorkspace` returns the workspace
made by the first such factory in list order; and it returns the generic
workspace if and only if no factory of the registry supports the type ID and
some resource descriptor type compiles to that resource type. -/
theorem createWorkspace_prefers_registered_factory
    (ids : ResourceIDInterface ResourceID TypeID)
    (registry : List (ResourceWorkspaceFactory ResourceID TypeID WorkspaceT))
    (resourceDescriptorTypes : List TypeID) (resourceID : ResourceID)
    (hValid : ids.IsValid resourceID = true)
    (hValidType : ids.IsValidTypeID (ids.GetResourceTypeID resourceID) = true) :
    ((∃ factory, factory ∈ registry ∧
          factory.GetSupportedResourceTypeID = ids.GetResourceTypeID resourceID) →
        ∃ before first after,
          registry = before ++ first :: after ∧
          (∀ factory, factory ∈ before →
            factory.GetSupportedResourceTypeID ≠ ids.GetResourceTypeID resourceID) ∧
          first.GetSupportedResourceTypeID = ids.GetResourceTypeID resourceID ∧
          CreateWorkspace ids registry resourceDescriptorTypes resourceID
            = some (CreatedWorkspace.ByFactory (first.CreateWorkspaceInternal resourceID))) ∧
      (∀ created : ResourceID,
        CreateWorkspace ids registry resourceDescriptorTypes resourceID
            = some (CreatedWorkspace.Generic created) ↔
          (created = resourceID ∧
            (∀ factory, factory ∈ registry →
              factory.GetSupportedResourceTypeID ≠ ids.GetResourceTypeID resourceID) ∧
            ids.GetResourceTypeID resourceID ∈ resourceDescriptorTypes)) := by
  constructor
  · intro hSome
    obtain ⟨before, first, after, hSplit, hBefore, hFirst, hLoop⟩ :=
      factoryLoop_first (ids.GetResourceTypeID resourceID) resourceID registry hSome
    exact ⟨before, first, after, hSplit, hBefore, hFirst, by
      simp [CreateWorkspace, hValid, hValidType, hLoop]⟩
  · intro created
    cases hLoop : factoryLoop (ids.GetResourceTypeID resourceID) resourceID registry with
    | some workspace =>
      have hNot : ¬ ∀ factory, factory ∈ registry →
          factory.GetSupportedResourceTypeID ≠ ids.GetResourceTypeID resourceID := by
        intro hAll
        rw [(factoryLoop_eq_none_iff _ resourceID registry).mpr hAll] at hLoop
        cases hLoop
      constructor
      · intro h
        simp [CreateWorkspace, hValid, hValidType, hLoop] at h
      · intro h
        exact absurd h.2.1 hNot
    | none =>
      have hAll := (factoryLoop_eq_none_iff _ resourceID registry).mp hLoop
      by_cases hDesc : descriptorLoop (ids.GetResourceTypeID resourceID)
          resourceDescriptorTypes = true
      · have hMem := (descriptorLoop_iff _ _).mp hDesc
        constructor
        · intro h
          simp [CreateWorkspace, hValid, hValidType, hLoop, hDesc] at h
          exact ⟨h.symm, hAll, hMem⟩
        · intro h
          simp [CreateWorkspace, hValid, hValidType, hLoop, hDesc, h.1]
      · have hNotMem : ids.GetResourceTypeID resourceID ∉ resourceDescriptorTypes :=
          fun hMem => hDesc ((descriptorLoop_iff _ _).mpr hMem)
        constructor
        · intro h
          simp [CreateWorkspace, hValid, hValidType, hLoop, hDesc] at h
        · intro h
          exact absurd h.2.2 hNotMem

/-- Witness of C17 with `sampleRegistry`: resource 13 has type ID 3, which a
factory supports, so a registered factory makes the workspace; resource 14 has
type ID 4, which no factory supports and to which a descriptor type compiles,
so the generic workspace is made. -/
theorem createWorkspace_prefers_registered_factory_witness :
    (∃ before first after,
        sampleRegistry = before ++ first :: after ∧
        (∀ factory, factory ∈ before → factory.GetSupportedResourceTypeID ≠ 3) ∧
        first.GetSupportedResourceTypeID = 3 ∧
        CreateWorkspace sampleResourceIDs sampleRegistry [4] 13
          = some (CreatedWorkspace.ByFactory (first.CreateWorkspaceInternal 13))) ∧
      CreateWorkspace sampleResourceIDs sampleRegistry [4] 14
        = some (CreatedWorkspace.Generic 14) :=
  ⟨(createWorkspace_prefers_registered_factory sampleResourceIDs sampleRegistry [4] 13
      rfl rfl).1
      ⟨{ GetSupportedResourceTypeID := 3, CreateWorkspaceInternal := fun _ => "third" },
        by simp [sampleRegistry], by decide⟩,
    ((createWorkspace_prefers_registered_factory sampleResourceIDs sampleRegistry [4] 14
      rfl rfl).2 14).mpr ⟨rfl, by simp [sampleRegistry, sampleResourceIDs], by decide⟩⟩

end WorkspaceFactoryTheorems

/-! ## Theorems: `GraphInstance` control parameters -/

section GraphInstanceTheorems

open GraphInstance

variable {StringID GraphValueType : Type} [DecidableEq StringID]

/-- A value in the range of `int16_t` is kept by the conversion. -/
theorem toInt16_of_inRange (x : Int) (hLow : -32768 ≤ x) (hHigh : x ≤ 32767) :
    toInt16 x = x := by
  unfold toInt16
  omega

/-- A size below `2^31` is kept by the conversion to `int32_t`. -/
theorem toInt32_of_size (n : Nat) (h : n < 2147483648) : toInt32 (n : Int) = (n : Int) := by
  unfold toInt32
  omega

/-- The element access at an index inside the vector returns the element. -/
theorem vectorAt_of_getElem? {α : Type} (vector : List α) (i : Nat) (element : α)
    (h : vector[i]? = some element) : vectorAt vector (i : Int) = Except.ok element := by
  have hNonneg : ¬ ((i : Int) < 0) := by omega
  simp only [vectorAt, hNonneg, if_false, Int.toNat_ofNat, h]

/-- The loop of `GetControlParameterIndex` on a graph with at most 32767
control parameters, started at counter `i` when no parameter before `i`
matches, with more fuel than parameters left: it returns `InvalidIndex` if no
parameter matches, and the index of the first match otherwise. -/
theorem controlParameterIndexLoop_small (g : GraphInstance StringID GraphValueType)
    (parameterID : StringID) (InvalidIndex : Int)
    (hSize : g.m_controlParameterIDs.length ≤ 32767) :
    ∀ (k i fuel : Nat), i + k = g.m_controlParameterIDs.length → k < fuel →
      (∀ j, j < i → g.m_controlParameterIDs[j]? ≠ some parameterID) →
      ∃ r : Int,
        controlParameterIndexLoop g parameterID InvalidIndex fuel (i : Int) = Except.ok r ∧
        ((r = toInt16 InvalidIndex ∧ parameterID ∉ g.m_controlParameterIDs) ∨
          ∃ m : Nat, r = (m : Int) ∧ m < g.m_controlParameterIDs.length ∧
            g.m_controlParameterIDs[m]? = some parameterID ∧
            ∀ j, j < m → g.m_controlParameterIDs[j]? ≠ some parameterID) := by
  have hNum : g.GetNumControlParameters = (g.m_controlParameterIDs.length : Int) := by
    unfold GetNumControlParameters
    exact toInt32_of_size _ (by omega)
  intro k
  induction k with
  | zero =>
    intro i fuel hSum hFuel hBefore
    obtain ⟨f, rfl⟩ : ∃ f, fuel = f + 1 := ⟨fuel - 1, by omega⟩
    have hEnd : ¬ ((i : Int) < g.GetNumControlParameters) := by
      rw [hNum]
      omega
    refine ⟨toInt16 InvalidIndex, by simp only [controlParameterIndexLoop, hEnd, if_false],
      Or.inl ⟨rfl, ?_⟩⟩
    intro hMem
    obtain ⟨j, hj⟩ := List.mem_iff_getElem?.mp hMem
    have hLt : j < g.m_controlParameterIDs.length := by
      obtain ⟨h, _⟩ := List.getElem?_eq_some.mp hj
      exact h
    exact hBefore j (by omega) hj
  | succ k ih =>
    intro i fuel hSum hFuel hBefore
    obtain ⟨f, rfl⟩ : ∃ f, fuel = f + 1 := ⟨fuel - 1, by omega⟩
    have hLt : i < g.m_controlParameterIDs.length := by omega
    have hIn : (i : Int) < g.GetNumControlParameters := by
      rw [hNum]
      omega
    have hAt := vectorAt_of_getElem? g.m_controlParameterIDs i _
      (List.getElem?_eq_getElem hLt)
    by_cases hMatch : g.m_controlParameterIDs[i] = parameterID
    · refine ⟨(i : Int), ?_, Or.inr ⟨i, rfl, hLt, ?_, hBefore⟩⟩
      · simp only [controlParameterIndexLoop, hIn, if_true, hAt, hMatch]
      · rw [List.getElem?_eq_getElem hLt, hMatch]
    · have hNext : toInt16 ((i : Int) + 1) = ((i + 1 : Nat) : Int) := by
        rw [toInt16_of_inRange _ (by omega) (by omega)]
        omega
      have hStep : controlParameterIndexLoop g parameterID InvalidIndex (f + 1) (i : Int)
          = controlParameterIndexLoop g parameterID InvalidIndex f ((i + 1 : Nat) : Int) := by
        simp only [controlParameterIndexLoop, hIn, if_true, hAt, hMatch, if_false, hNext]
      rw [hStep]
      refine ih (i + 1) f (by omega) (by omega) ?_
      intro j hj hEq
      by_cases hji : j = i
      · rw [hji, List.getElem?_eq_getElem hLt] at hEq
        exact hMatch (Option.some.inj hEq)
      · exact hBefore j (by omega) hEq

/-- The loop of `GetControlParameterIndex` on a graph with more than 32767
control parameters of which none of the first 32768 matches: from counter `i`
the loop runs through the counter values up to 32767, the increment wraps the
counter to -32768, which is below the bound, and the element access at -32768
is out of range. With too little fuel to get there the model is still running
when the fuel is used up. -/
theorem controlParameterIndexLoop_wraps (g : GraphInstance StringID GraphValueType)
    (parameterID : StringID) (InvalidIndex : Int)
    (hSize : 32768 ≤ g.m_controlParameterIDs.length)
    (hSize32 : g.m_controlParameterIDs.length < 2147483648)
    (hNoMatch : ∀ j, j < 32768 → g.m_controlParameterIDs[j]? ≠ some parameterID) :
    ∀ (k i fuel : Nat), i + k = 32767 →
      controlParameterIndexLoop g parameterID InvalidIndex fuel (i : Int)
        = if fuel < k + 2 then Except.error Fault.OutOfFuel
          else Except.error (Fault.OutOfRange (-32768)) := by
  have hNum : g.GetNumControlParameters = (g.m_controlParameterIDs.length : Int) := by
    unfold GetNumControlParameters
    exact toInt32_of_size _ hSize32
  have hStepAt : ∀ (i f : Nat), i ≤ 32767 →
      controlParameterIndexLoop g parameterID InvalidIndex (f + 1) (i : Int)
        = controlParameterIndexLoop g parameterID InvalidIndex f (toInt16 ((i : Int) + 1)) := by
    intro i f hi
    have hLt : i < g.m_controlParameterIDs.length := by omega
    have hIn : (i : Int) < g.GetNumControlParameters := by
      rw [hNum]
      omega
    have hAt := vectorAt_of_getElem? g.m_controlParameterIDs i _
      (List.getElem?_eq_getElem hLt)
    have hMatch : ¬ g.m_controlParameterIDs[i] = parameterID := by
      intro hEq
      exact hNoMatch i (by omega) (by rw [List.getElem?_eq_getElem hLt, hEq])
    simp only [controlParameterIndexLoop, hIn, if_true, hAt, hMatch, if_false]
  have hWrapped : ∀ f : Nat,
      controlParameterIndexLoop g parameterID InvalidIndex (f + 1) (-32768)
        = Except.error (Fault.OutOfRange (-32768)) := by
    intro f
    have hIn : (-32768 : Int) < g.GetNumControlParameters := by
      rw [hNum]
      omega
    simp only [controlParameterIndexLoop, hIn, if_true, vectorAt]
    rfl
  intro k
  induction k with
  | zero =>
    intro i fuel hSum
    have hi : i = 32767 := by omega
    subst hi
    have hNext : toInt16 (((32767 : Nat) : Int) + 1) = -32768 := by
      unfold toInt16
      omega
    match fuel with
    | 0 => simp [controlParameterIndexLoop]
    | 1 =>
      rw [hStepAt 32767 0 (by omega)]
      simp [controlParameterIndexLoop]
    | f + 2 =>
      rw [hStepAt 32767 (f + 1) (by omega), hNext, hWrapped f]
      simp
  | succ k ih =>
    intro i fuel hSum
    match fuel with
    | 0 => simp [controlParameterIndexLoop]
    | f + 1 =>
      have hNext : toInt16 ((i : Int) + 1) = ((i + 1 : Nat) : Int) := by
        rw [toInt16_of_inRange _ (by omega) (by omega)]
        omega
      rw [hStepAt i f (by omega), hNext, ih (i + 1) f (by omega)]
      by_cases hf : f < k + 2
      · have hf2 : f + 1 < k + 1 + 2 := by omega
        rw [if_pos hf, if_pos hf2]
      · have hf2 : ¬ f + 1 < k + 1 + 2 := by omega
        rw [if_neg hf, if_neg hf2]

/-- None of the first 32768 control parameters of `oversizedGraph` has the
ID 1. -/
theorem oversizedGraph_noMatch :
    ∀ j, j < 32768 → oversizedGraph.m_controlParameterIDs[j]? ≠ some 1 := by
  intro j hj
  have hLeft : oversizedGraph.m_controlParameterIDs[j]? = (List.replicate 32768 0)[j]? :=
    List.getElem?_append_left (by rw [List.length_replicate]; exact hj)
  rw [hLeft, List.getElem?_replicate_of_lt hj]
  simp

/-- C18, as stated, fails. In `oversizedGraph` the only control parameter with
the ID 1 has index 32768, the smallest index with that ID; the function does
not return it: the counter wraps from 32767 to -32768 and the element access at
-32768 is out of range. -/
theorem oversized_graph_index_is_not_found :
    oversizedGraph.m_controlParameterIDs.length = 32769 ∧
      oversizedGraph.m_controlParameterIDs[32768]? = some 1 ∧
      GetControlParameterIndex 32770 oversizedGraph 1 (-1)
        = Except.error (Fault.OutOfRange (-32768)) ∧
      ¬ ∃ fuel, GetControlParameterIndex fuel oversizedGraph 1 (-1) = Except.ok 32768 := by
  have hLength : oversizedGraph.m_controlParameterIDs.length = 32769 := by
    show (List.replicate 32768 0 ++ [1]).length = 32769
    rw [List.length_append, List.length_replicate]
    rfl
  have hWraps := controlParameterIndexLoop_wraps oversizedGraph 1 (-1)
    (by rw [hLength]; omega) (by rw [hLength]; omega) oversizedGraph_noMatch 32767 0
  refine ⟨hLength, ?_, ?_, ?_⟩
  · have hRight : oversizedGraph.m_controlParameterIDs[32768]? = [1][32768 - 32768]? := by
      have h := @List.getElem?_append_right Nat (List.replicate 32768 0) [1] 32768
        (by rw [List.length_replicate])
      rw [List.length_replicate] at h
      exact h
    rw [hRight]
    rfl
  · have h := hWraps 32770 (by omega)
    simpa [GetControlParameterIndex] using h
  · rintro ⟨fuel, hOk⟩
    have h := hWraps fuel (by omega)
    simp only [GetControlParameterIndex, Nat.cast_zero] at hOk h
    rw [h] at hOk
    split at hOk <;> cases hOk

/-- C18, amended: on a graph with at most 32767 control parameters,
`GetControlParameterIndex` returns (given more fuel than there are parameters)
`InvalidIndex` if and only if no control parameter has the ID, and otherwise the
smallest index at which `m_controlParameterIDs` holds the ID; for a result `r`
other than `InvalidIndex`, `IsControlParameter( r )` holds and
`GetControlParameterID( r )` is the ID. `InvalidIndex` is a negative `int16_t`
value. -/
theorem controlParameterIndex_is_first_match (g : GraphInstance StringID GraphValueType)
    (parameterID : StringID) (InvalidIndex : Int) (fuel : Nat)
    (hSize : g.m_controlParameterIDs.length ≤ 32767)
    (hInvalid : -32768 ≤ InvalidIndex ∧ InvalidIndex < 0)
    (hFuel : g.m_controlParameterIDs.length < fuel) :
    ∃ r : Int,
      GetControlParameterIndex fuel g parameterID InvalidIndex = Except.ok r ∧
      (r = InvalidIndex ↔ parameterID ∉ g.m_controlParameterIDs) ∧
      (r ≠ InvalidIndex →
        0 ≤ r ∧ r < g.GetNumControlParameters ∧
        g.m_controlParameterIDs[r.toNat]? = some parameterID ∧
        (∀ j, j < r.toNat → g.m_controlParameterIDs[j]? ≠ some parameterID) ∧
        g.IsControlParameter r = true ∧
        g.GetControlParameterID r = Except.ok parameterID) := by
  have hNum : g.GetNumControlParameters = (g.m_controlParameterIDs.length : Int) := by
    unfold GetNumControlParameters
    exact toInt32_of_size _ (by omega)
  have hInv : toInt16 InvalidIndex = InvalidIndex :=
    toInt16_of_inRange _ hInvalid.1 (by omega)
  obtain ⟨r, hOk, hCases⟩ := controlParameterIndexLoop_small g parameterID InvalidIndex hSize
    g.m_controlParameterIDs.length 0 fuel (by omega) hFuel (fun j hj => absurd hj (by omega))
  refine ⟨r, by simpa [GetControlParameterIndex] using hOk, ?_, ?_⟩
  · rcases hCases with ⟨hr, hAbsent⟩ | ⟨m, hr, hm, hAt, _⟩
    · exact ⟨fun _ => hAbsent, fun _ => by rw [hr, hInv]⟩
    · constructor
      · intro hEq
        rw [hr] at hEq
        omega
      · intro hAbsent
        exact absurd (List.mem_iff_getElem?.mpr ⟨m, hAt⟩) hAbsent
  · intro hNe
    rcases hCases with ⟨hr, _⟩ | ⟨m, hr, hm, hAt, hFirst⟩
    · exact absurd (by rw [hr, hInv]) hNe
    · have hCtrl : g.IsControlParameter r = true := by
        simp only [IsControlParameter, decide_eq_true_eq]
        rw [hNum, hr]
        omega
      have hToNat : r.toNat = m := by
        rw [hr]
        exact Int.toNat_ofNat m
      refine ⟨by rw [hr]; omega, by rw [hNum, hr]; omega, by rw [hToNat]; exact hAt,
        by rw [hToNat]; exact hFirst, hCtrl, ?_⟩
      simp only [GetControlParameterID, hCtrl, Bool.not_true, Bool.false_eq_true, if_false]
      rw [hr]
      exact vectorAt_of_getElem? _ m _ hAt

/-- Witness of the amended C18 at `sampleGraph` and the ID 7, with
`InvalidIndex` -1 and fuel 4. -/
theorem controlParameterIndex_is_first_match_witness :
    ∃ r : Int,
      GetControlParameterIndex 4 sampleGraph 7 (-1) = Except.ok r ∧
      (r = -1 ↔ 7 ∉ sampleGraph.m_controlParameterIDs) ∧
      (r ≠ -1 →
        0 ≤ r ∧ r < sampleGraph.GetNumControlParameters ∧
        sampleGraph.m_controlParameterIDs[r.toNat]? = some 7 ∧
        (∀ j, j < r.toNat → sampleGraph.m_controlParameterIDs[j]? ≠ some 7) ∧
        sampleGraph.IsControlParameter r = true ∧
        sampleGraph.GetControlParameterID r = Except.ok 7) :=
  controlParameterIndex_is_first_match sampleGraph 7 (-1) 4 (by decide) (by decide) (by decide)

/-- C20 at the failing input: `sampleGraph` has three control parameters and
the index -1 is what `GetControlParameterIndex` returns for an unknown ID. The
guard `IsControlParameter( -1 )` holds although -1 is not an index of the
control parameter list, so the assertions of `GetControlParameterID` and
`GetControlParameterType` pass and their element accesses are out of range. The
guard `IsValidNodeIndex( -1 )` of the same class does not hold. -/
theorem isControlParameter_accepts_negative_index :
    GetControlParameterIndex 4 sampleGraph 9 (-1) = Except.ok (-1) ∧
      sampleGraph.IsControlParameter (-1) = true ∧
      ¬ (0 ≤ (-1 : Int) ∧ (-1 : Int) < sampleGraph.GetNumControlParameters) ∧
      sampleGraph.GetControlParameterID (-1) = Except.error (Fault.OutOfRange (-1)) ∧
      sampleGraph.GetControlParameterType (-1) = Except.error (Fault.OutOfRange (-1)) ∧
      sampleGraph.IsValidNodeIndex (-1) = false := by
  refine ⟨rfl, by decide, by decide, rfl, rfl, by decide⟩

end GraphInstanceTheorems

/-! ## Theorems: `Workspace` descriptor modification and saving -/

section DescriptorModificationTheorems

open Workspace

variable {ResourceID Descriptor : Type}

/-- The first `BeginDescriptorModification` of a workspace with a descriptor
creates the active action with the serialised before state. -/
theorem beginModification_outermost (serialize : Descriptor → String)
    (w : Workspace ResourceID Descriptor) (descriptor : Descriptor)
    (hCount : w.m_beginModificationCallCount = 0) (hDescriptor : w.m_pDescriptor = some descriptor) :
    w.BeginDescriptorModification serialize =
      some { w with
        m_pActiveUndoableAction :=
          some { m_valueBefore := serialize descriptor, m_valueAfter := "" }
        m_beginModificationCallCount := w.m_beginModificationCallCount + 1 } := by
  simp [BeginDescriptorModification, hCount, hDescriptor, ResourceDescriptorUndoableAction.New,
    ResourceDescriptorUndoableAction.SerializeBeforeState]

/-- A `BeginDescriptorModification` at a call count other than 0 only increments
the call count. -/
theorem beginModification_inner (serialize : Descriptor → String)
    (w : Workspace ResourceID Descriptor) (hCount : w.m_beginModificationCallCount ≠ 0) :
    w.BeginDescriptorModification serialize =
      some { w with m_beginModificationCallCount := w.m_beginModificationCallCount + 1 } := by
  simp [BeginDescriptorModification, hCount]

/-- An `EndDescriptorModification` at a call count above 1 only decrements the
call count. -/
theorem endModification_inner (serialize : Descriptor → String)
    (w : Workspace ResourceID Descriptor) (active : ResourceDescriptorUndoableAction)
    (hCount : 1 < w.m_beginModificationCallCount)
    (hActive : w.m_pActiveUndoableAction = some active) :
    w.EndDescriptorModification serialize =
      some { w with m_beginModificationCallCount := w.m_beginModificationCallCount - 1 } := by
  have hPositive : 0 < w.m_beginModificationCallCount := by omega
  have hNotLast : ¬ (w.m_beginModificationCallCount - 1 = 0) := by omega
  simp [EndDescriptorModification, hPositive, hActive, hNotLast]

/-- The `EndDescriptorModification` at call count 1 serialises the after state,
registers the action, clears the active action and marks the workspace dirty. -/
theorem endModification_outermost (serialize : Descriptor → String)
    (w : Workspace ResourceID Descriptor) (active : ResourceDescriptorUndoableAction)
    (descriptor : Descriptor)
    (hCount : w.m_beginModificationCallCount = 1)
    (hActive : w.m_pActiveUndoableAction = some active)
    (hDescriptor : w.m_pDescriptor = some descriptor) :
    w.EndDescriptorModification serialize =
      some { w with
        m_beginModificationCallCount := 0
        m_undoStack := w.m_undoStack ++ [{ active with m_valueAfter := serialize descriptor }]
        m_pActiveUndoableAction := none
        m_isDirty := true } := by
  simp [EndDescriptorModification, hCount, hActive, hDescriptor,
    ResourceDescriptorUndoableAction.SerializeAfterState]

/-- A run of two sequences one after the other is the run of the second from the
result of the first. -/
theorem runDescriptorCalls_append (serialize : Descriptor → String)
    (first second : List (DescriptorCall Descriptor)) (w : Workspace ResourceID Descriptor) :
    RunDescriptorCalls serialize (first ++ second) w =
      (RunDescriptorCalls serialize first w).bind (RunDescriptorCalls serialize second) := by
  induction first generalizing w with
  | nil => rfl
  | cons call rest ih =>
    simp only [List.cons_append, RunDescriptorCalls]
    cases hStep : w.ApplyDescriptorCall serialize call with
    | none => rfl
    | some next => exact ih next

/-- `BeginDescriptorModification` keeps the predicate `ActionMatchesCallCount`
and increments the call count. -/
theorem beginModification_keeps_match (serialize : Descriptor → String)
    (w w' : Workspace ResourceID Descriptor) (hMatch : ActionMatchesCallCount w)
    (hStep : w.BeginDescriptorModification serialize = some w') :
    ActionMatchesCallCount w' ∧
      w'.m_beginModificationCallCount = w.m_beginModificationCallCount + 1 := by
  unfold ActionMatchesCallCount at hMatch ⊢
  by_cases hCount : w.m_beginModificationCallCount = 0
  · cases hDescriptor : w.m_pDescriptor with
    | none =>
      simp [BeginDescriptorModification, hCount, hDescriptor,
        ResourceDescriptorUndoableAction.New] at hStep
    | some descriptor =>
      rw [beginModification_outermost serialize w descriptor hCount hDescriptor] at hStep
      cases hStep
      simp [hCount]
  · rw [beginModification_inner serialize w hCount] at hStep
    cases hStep
    refine ⟨⟨?_, ?_⟩, rfl⟩
    · intro hSome
      have hPositive := hMatch.mp hSome
      show 0 < w.m_beginModificationCallCount + 1
      omega
    · intro hPositive
      apply hMatch.mpr
      have hNext : 0 < w.m_beginModificationCallCount + 1 := hPositive
      omega

/-- After `EndDescriptorModification` the predicate `ActionMatchesCallCount`
holds and the call count is not negative. -/
theorem endModification_keeps_match (serialize : Descriptor → String)
    (w w' : Workspace ResourceID Descriptor)
    (hStep : w.EndDescriptorModification serialize = some w') :
    ActionMatchesCallCount w' ∧ 0 ≤ w'.m_beginModificationCallCount := by
  unfold ActionMatchesCallCount
  by_cases hPositive : 0 < w.m_beginModificationCallCount
  · cases hActive : w.m_pActiveUndoableAction with
    | none => simp [EndDescriptorModification, hPositive, hActive] at hStep
    | some active =>
      by_cases hLast : w.m_beginModificationCallCount = 1
      · cases hDescriptor : w.m_pDescriptor with
        | none =>
          simp [EndDescriptorModification, hLast, hActive, hDescriptor,
            ResourceDescriptorUndoableAction.SerializeAfterState] at hStep
        | some descriptor =>
          rw [endModification_outermost serialize w active descriptor hLast hActive
            hDescriptor] at hStep
          cases hStep
          simp
      · have hAbove : 1 < w.m_beginModificationCallCount := by omega
        rw [endModification_inner serialize w active hAbove hActive] at hStep
        cases hStep
        refine ⟨?_, ?_⟩
        · constructor
          · intro _
            show 0 < w.m_beginModificationCallCount - 1
            omega
          · intro _
            show w.m_pActiveUndoableAction.isSome = true
            simp [hActive]
        · show 0 ≤ w.m_beginModificationCallCount - 1
          omega
  · simp [EndDescriptorModification, hPositive] at hStep

/-- Along a run that fails no assertion the predicate `ActionMatchesCallCount`
keeps holding and the call count stays non-negative. -/
theorem runDescriptorCalls_keeps_match (serialize : Descriptor → String)
    (calls : List (DescriptorCall Descriptor)) (w w' : Workspace ResourceID Descriptor)
    (hMatch : ActionMatchesCallCount w) (hCount : 0 ≤ w.m_beginModificationCallCount)
    (hRun : RunDescriptorCalls serialize calls w = some w') :
    ActionMatchesCallCount w' ∧ 0 ≤ w'.m_beginModificationCallCount := by
  induction calls generalizing w with
  | nil =>
    simp only [RunDescriptorCalls, Option.some.injEq] at hRun
    rw [← hRun]
    exact ⟨hMatch, hCount⟩
  | cons call rest ih =>
    simp only [RunDescriptorCalls] at hRun
    cases hStep : w.ApplyDescriptorCall serialize call with
    | none => rw [hStep] at hRun; cases hRun
    | some next =>
      rw [hStep] at hRun
      have hNext : ActionMatchesCallCount next ∧ 0 ≤ next.m_beginModificationCallCount := by
        cases call with
        | beginModification =>
          have hBegin := beginModification_keeps_match serialize w next hMatch hStep
          refine ⟨hBegin.1, ?_⟩
          rw [hBegin.2]
          omega
        | endModification => exact endModification_keeps_match serialize w next hStep
        | edit newValue =>
          cases hDescriptor : w.m_pDescriptor with
          | none => simp [ApplyDescriptorCall, hDescriptor] at hStep
          | some descriptor =>
            simp only [ApplyDescriptorCall, hDescriptor, Option.some.injEq] at hStep
            rw [← hStep]
            exact ⟨hMatch, hCount⟩
      exact ih next hNext.1 hNext.2 hRun

/-- Claim C21. The predicate "the active undoable action is non-null exactly
when the call count is positive" holds for a workspace as either constructor
returns it, given that `Workspace.h` initialises the call count to 0 and the
active action to null; `BeginDescriptorModification` returns whenever the call
count is not 0 or a descriptor is loaded and keeps the predicate;
`EndDescriptorModification` returns under its two assertions (with a descriptor
loaded when it closes the outermost call) and keeps the predicate; and along
every sequence of calls that fails no assertion, started with the predicate and
a call count that is not negative, the predicate holds and the call count is not
negative after every call. -/
theorem active_action_matches_call_count (serialize : Descriptor → String) :
    (∀ (declared : Workspace ResourceID Descriptor) (IsValid : ResourceID → Bool)
        (GetFileSystemPath : ResourceID → String) (newPropertyGrid : PropertyGrid Descriptor)
        (resourceID : ResourceID),
        declared.m_beginModificationCallCount = 0 →
        declared.m_pActiveUndoableAction = none →
          ActionMatchesCallCount (FromDisplayName declared) ∧
          (IsValid resourceID = true →
            ∃ w, FromResourceID declared IsValid GetFileSystemPath newPropertyGrid resourceID
                  = some w ∧ ActionMatchesCallCount w)) ∧
    (∀ w : Workspace ResourceID Descriptor,
        (w.m_beginModificationCallCount ≠ 0 ∨ w.IsDescriptorLoaded = true) →
          ∃ w', w.BeginDescriptorModification serialize = some w') ∧
    (∀ w w' : Workspace ResourceID Descriptor, ActionMatchesCallCount w →
        w.BeginDescriptorModification serialize = some w' → ActionMatchesCallCount w') ∧
    (∀ w : Workspace ResourceID Descriptor, 0 < w.m_beginModificationCallCount →
        w.m_pActiveUndoableAction.isSome = true →
        (w.m_beginModificationCallCount = 1 → w.IsDescriptorLoaded = true) →
          ∃ w', w.EndDescriptorModification serialize = some w') ∧
    (∀ w w' : Workspace ResourceID Descriptor, ActionMatchesCallCount w →
        w.EndDescriptorModification serialize = some w' → ActionMatchesCallCount w') ∧
    (∀ (pre rest : List (DescriptorCall Descriptor)) (w w' : Workspace ResourceID Descriptor),
        ActionMatchesCallCount w → 0 ≤ w.m_beginModificationCallCount →
        RunDescriptorCalls serialize (pre ++ rest) w = some w' →
          ∃ mid, RunDescriptorCalls serialize pre w = some mid ∧
            ActionMatchesCallCount mid ∧ 0 ≤ mid.m_beginModificationCallCount) := by
  refine ⟨?_, ?_, ?_, ?_, ?_, ?_⟩
  · intro declared IsValid GetFileSystemPath newPropertyGrid resourceID hCount hActive
    refine ⟨?_, ?_⟩
    · simp [ActionMatchesCallCount, FromDisplayName, hCount, hActive]
    · intro hValid
      have hNew : FromResourceID declared IsValid GetFileSystemPath newPropertyGrid resourceID
          = some { declared with
              m_descriptorID := resourceID
              m_descriptorPath := GetFileSystemPath resourceID
              m_pDescriptorPropertyGrid := some newPropertyGrid } := by
        simp only [FromResourceID, hValid, if_true]
      refine ⟨_, hNew, ?_⟩
      simp [ActionMatchesCallCount, hCount, hActive]
  · intro w hReady
    by_cases hCount : w.m_beginModificationCallCount = 0
    · rcases hReady with hNot | hLoaded
      · exact absurd hCount hNot
      · cases hDescriptor : w.m_pDescriptor with
        | none => simp [IsDescriptorLoaded, hDescriptor] at hLoaded
        | some descriptor =>
          exact ⟨_, beginModification_outermost serialize w descriptor hCount hDescriptor⟩
    · exact ⟨_, beginModification_inner serialize w hCount⟩
  · intro w w' hMatch hStep
    exact (beginModification_keeps_match serialize w w' hMatch hStep).1
  · intro w hPositive hActive hLoaded
    cases hAction : w.m_pActiveUndoableAction with
    | none => simp [hAction] at hActive
    | some active =>
      by_cases hLast : w.m_beginModificationCallCount = 1
      · cases hDescriptor : w.m_pDescriptor with
        | none => simp [IsDescriptorLoaded, hDescriptor] at hLoaded; omega
        | some descriptor =>
          exact ⟨_, endModification_outermost serialize w active descriptor hLast hAction
            hDescriptor⟩
      · exact ⟨_, endModification_inner serialize w active (by omega) hAction⟩
  · intro w w' _ hStep
    exact (endModification_keeps_match serialize w w' hStep).1
  · intro pre rest w w' hMatch hCount hRun
    rw [runDescriptorCalls_append] at hRun
    cases hPre : RunDescriptorCalls serialize pre w with
    | none => rw [hPre] at hRun; cases hRun
    | some mid =>
      exact ⟨mid, rfl, runDescriptorCalls_keeps_match serialize pre w mid hMatch hCount hPre⟩

/-- The witness of claim C21: a workspace made from a display name satisfies the
predicate, and so does `textWorkspace` after two nested begins, with a call
count that is not negative. -/
theorem active_action_matches_call_count_witness :
    ActionMatchesCallCount (Workspace.FromDisplayName declaredWorkspace) ∧
    ∃ mid, Workspace.RunDescriptorCalls braces
        [DescriptorCall.beginModification, DescriptorCall.beginModification] textWorkspace
          = some mid ∧
      ActionMatchesCallCount mid ∧ 0 ≤ mid.m_beginModificationCallCount :=
  ⟨((active_action_matches_call_count braces).1 declaredWorkspace (fun _ => true)
      (fun _ => "") { typeToEdit := none, isDirty := false } 0 rfl rfl).1,
   (active_action_matches_call_count braces).2.2.2.2.2
      [DescriptorCall.beginModification, DescriptorCall.beginModification]
      [DescriptorCall.endModification, DescriptorCall.endModification]
      textWorkspace
      { textWorkspace with
        m_undoStack := [{ m_valueBefore := braces "low", m_valueAfter := braces "low" }]
        m_isDirty := true }
      (by simp [ActionMatchesCallCount, textWorkspace]) (by decide) rfl⟩

/-- Calls made inside an open modification, before the matching end, register
nothing: they keep the active action, the undo stack and the dirty flag, and
leave the call count above 0. -/
theorem inner_calls_register_nothing (serialize : Descriptor → String)
    (pre rest : List (DescriptorCall Descriptor)) (depth : Nat)
    (w : Workspace ResourceID Descriptor) (active : ResourceDescriptorUndoableAction)
    (descriptor : Descriptor)
    (hBalanced : balancedFrom depth (pre ++ rest) = true)
    (hCount : w.m_beginModificationCallCount = (depth : Int) + 1)
    (hActive : w.m_pActiveUndoableAction = some active)
    (hDescriptor : w.m_pDescriptor = some descriptor) :
    ∃ (mid : Workspace ResourceID Descriptor) (depthMid : Nat),
      RunDescriptorCalls serialize pre w = some mid ∧
      mid.m_beginModificationCallCount = (depthMid : Int) + 1 ∧
      balancedFrom depthMid rest = true ∧
      mid.m_pActiveUndoableAction = some active ∧
      mid.m_pDescriptor = some (descriptorAfter descriptor pre) ∧
      mid.m_undoStack = w.m_undoStack ∧ mid.m_isDirty = w.m_isDirty := by
  induction pre generalizing depth w descriptor with
  | nil => exact ⟨w, depth, rfl, hCount, hBalanced, hActive, hDescriptor, rfl, rfl⟩
  | cons call pre ih =>
    cases call with
    | beginModification =>
      simp only [List.cons_append, balancedFrom] at hBalanced
      have hNotFirst : w.m_beginModificationCallCount ≠ 0 := by omega
      have hStep := beginModification_inner serialize w hNotFirst
      obtain ⟨mid, depthMid, hRun, hRest⟩ :=
        ih (depth + 1)
          { w with m_beginModificationCallCount := w.m_beginModificationCallCount + 1 }
          descriptor hBalanced (by show w.m_beginModificationCallCount + 1 = _; push_cast; omega)
          hActive hDescriptor
      refine ⟨mid, depthMid, ?_, hRest⟩
      simp only [RunDescriptorCalls, ApplyDescriptorCall, hStep]
      exact hRun
    | endModification =>
      cases depth with
      | zero => simp [balancedFrom] at hBalanced
      | succ below =>
        simp only [List.cons_append, balancedFrom] at hBalanced
        have hAbove : 1 < w.m_beginModificationCallCount := by rw [hCount]; push_cast; omega
        have hStep := endModification_inner serialize w active hAbove hActive
        obtain ⟨mid, depthMid, hRun, hRest⟩ :=
          ih below
            { w with m_beginModificationCallCount := w.m_beginModificationCallCount - 1 }
            descriptor hBalanced
            (by show w.m_beginModificationCallCount - 1 = _; rw [hCount]; push_cast; omega)
            hActive hDescriptor
        refine ⟨mid, depthMid, ?_, hRest⟩
        simp only [RunDescriptorCalls, ApplyDescriptorCall, hStep]
        exact hRun
    | edit newValue =>
      simp only [List.cons_append, balancedFrom] at hBalanced
      obtain ⟨mid, depthMid, hRun, hRest⟩ :=
        ih depth { w with m_pDescriptor := some newValue } newValue hBalanced hCount hActive rfl
      refine ⟨mid, depthMid, ?_, hRest⟩
      simp only [RunDescriptorCalls, ApplyDescriptorCall, hDescriptor]
      exact hRun

/-- C22, as stated, fails. The sequence `twoModifications` is balanced and
`textWorkspace` has call count 0 and an empty undo stack, yet the run registers
two undoable actions, one at each `EndDescriptorModification` that brings the
call count back to 0: the first from `"low"` to `"mid"`, the second from `"mid"`
to `"high"`. -/
theorem balanced_sequence_registers_two_actions :
    balancedFrom 0 twoModifications = true ∧
    textWorkspace.m_beginModificationCallCount = 0 ∧
    textWorkspace.m_undoStack = [] ∧
    (Workspace.RunDescriptorCalls braces twoModifications textWorkspace).map
        (fun w => w.m_undoStack)
      = some [{ m_valueBefore := "\x7blow\x7d", m_valueAfter := "\x7bmid\x7d" },
              { m_valueBefore := "\x7bmid\x7d", m_valueAfter := "\x7bhigh\x7d" }] :=
  ⟨rfl, rfl, rfl, rfl⟩

/-- C22, amended: the sequence is a single nested modification, that is one
outermost `BeginDescriptorModification`, a balanced sequence `inner` of further
begin/end pairs and edits, and the matching outermost `EndDescriptorModification`. Started
at call count 0 on a workspace with a descriptor, it runs to its end and
registers exactly one action on the undo stack: the action holds the descriptor
as serialised at the outermost begin and as serialised at the outermost end;
the workspace is then dirty, the call count is 0 again and no action is active.
After the outermost begin and after every call of `inner` the undo stack and
the dirty flag are as they were at the start, so the inner pairs register
nothing. -/
theorem nested_modification_registers_one_action (serialize : Descriptor → String)
    (w : Workspace ResourceID Descriptor) (descriptor : Descriptor)
    (inner : List (DescriptorCall Descriptor))
    (hCount : w.m_beginModificationCallCount = 0)
    (hDescriptor : w.m_pDescriptor = some descriptor)
    (hInner : balancedFrom 0 inner = true) :
    (∃ w', RunDescriptorCalls serialize
          (DescriptorCall.beginModification :: inner ++ [DescriptorCall.endModification]) w
            = some w' ∧
        w'.m_undoStack = w.m_undoStack ++
          [{ m_valueBefore := serialize descriptor
             m_valueAfter := serialize (descriptorAfter descriptor inner) }] ∧
        w'.m_isDirty = true ∧
        w'.m_beginModificationCallCount = 0 ∧
        w'.m_pActiveUndoableAction = none) ∧
    (∀ pre rest : List (DescriptorCall Descriptor), inner = pre ++ rest →
      ∃ mid, RunDescriptorCalls serialize (DescriptorCall.beginModification :: pre) w
            = some mid ∧
        mid.m_undoStack = w.m_undoStack ∧
        mid.m_isDirty = w.m_isDirty ∧
        0 < mid.m_beginModificationCallCount ∧
        mid.m_pActiveUndoableAction =
          some { m_valueBefore := serialize descriptor, m_valueAfter := "" }) := by
  have hBegin := beginModification_outermost serialize w descriptor hCount hDescriptor
  have hOpen : ∀ pre rest : List (DescriptorCall Descriptor), inner = pre ++ rest →
      ∃ (mid : Workspace ResourceID Descriptor) (depthMid : Nat),
        RunDescriptorCalls serialize (DescriptorCall.beginModification :: pre) w = some mid ∧
        mid.m_beginModificationCallCount = (depthMid : Int) + 1 ∧
        balancedFrom depthMid rest = true ∧
        mid.m_pActiveUndoableAction =
          some { m_valueBefore := serialize descriptor, m_valueAfter := "" } ∧
        mid.m_pDescriptor = some (descriptorAfter descriptor pre) ∧
        mid.m_undoStack = w.m_undoStack ∧ mid.m_isDirty = w.m_isDirty := by
    intro pre rest hSplit
    obtain ⟨mid, depthMid, hRun, hRest⟩ :=
      inner_calls_register_nothing serialize pre rest 0
        { w with
          m_pActiveUndoableAction :=
            some { m_valueBefore := serialize descriptor, m_valueAfter := "" }
          m_beginModificationCallCount := w.m_beginModificationCallCount + 1 }
        { m_valueBefore := serialize descriptor, m_valueAfter := "" } descriptor
        (by rw [← hSplit]; exact hInner)
        (by show w.m_beginModificationCallCount + 1 = _; rw [hCount]; rfl) rfl hDescriptor
    refine ⟨mid, depthMid, ?_, hRest⟩
    simp only [RunDescriptorCalls, ApplyDescriptorCall, hBegin]
    exact hRun
  refine ⟨?_, ?_⟩
  · obtain ⟨mid, depthMid, hRun, hMidCount, hClosed, hActive, hMidDescriptor, hStack, _⟩ :=
      hOpen inner [] (List.append_nil inner).symm
    have hDepth : depthMid = 0 := by simpa [balancedFrom] using hClosed
    have hLast : mid.m_beginModificationCallCount = 1 := by rw [hMidCount, hDepth]; rfl
    have hEnd := endModification_outermost serialize mid _ _ hLast hActive hMidDescriptor
    refine ⟨{ mid with
        m_beginModificationCallCount := 0
        m_undoStack := mid.m_undoStack ++
          [{ m_valueBefore := serialize descriptor
             m_valueAfter := serialize (descriptorAfter descriptor inner) }]
        m_pActiveUndoableAction := none
        m_isDirty := true }, ?_, ?_, rfl, rfl, rfl⟩
    · have hAll := runDescriptorCalls_append serialize
        (DescriptorCall.beginModification :: inner) [DescriptorCall.endModification] w
      rw [hAll, hRun]
      simp only [Option.bind, RunDescriptorCalls, ApplyDescriptorCall, hEnd]
    · show mid.m_undoStack ++ _ = _
      rw [hStack]
  · intro pre rest hSplit
    obtain ⟨mid, depthMid, hRun, hMidCount, _, hActive, _, hStack, hDirty⟩ :=
      hOpen pre rest hSplit
    exact ⟨mid, hRun, hStack, hDirty, by rw [hMidCount]; omega, hActive⟩

/-- The witness of claim C22: the nested edit of `textWorkspace` registers the one
action from `"low"` to `"high"` and leaves the workspace dirty. -/
theorem nested_modification_registers_one_action_witness :
    ∃ w', Workspace.RunDescriptorCalls braces nestedEdit textWorkspace = some w' ∧
      w'.m_undoStack =
        [{ m_valueBefore := "\x7blow\x7d", m_valueAfter := "\x7bhigh\x7d" }] ∧
      w'.m_isDirty = true ∧
      w'.m_beginModificationCallCount = 0 ∧
      w'.m_pActiveUndoableAction = none :=
  (nested_modification_registers_one_action braces textWorkspace "low"
    [DescriptorCall.edit "mid", DescriptorCall.beginModification,
     DescriptorCall.edit "high", DescriptorCall.endModification]
    rfl rfl rfl).1

/-- Claim C23. On a workspace that is not a descriptor workspace `Save` returns
true and changes nothing. On a descriptor workspace that meets the three
assertions `Save` returns, and it returns true exactly when the descriptor file
is written; after a successful write the workspace differs from before only in
that `m_isDirty` and the dirty flag of the property grid are cleared; after a
failed write it returns false and the workspace is unchanged. -/
theorem save_returns_whether_descriptor_was_written (IsFilePath : String → Bool)
    (WriteToFile : String → String → Bool) (serialize : Descriptor → String)
    (w : Workspace ResourceID Descriptor) :
    (w.isADescriptorWorkspace = false →
      w.Save IsFilePath WriteToFile serialize = some (w, true)) ∧
    (w.isADescriptorWorkspace = true → IsFilePath w.m_descriptorPath = true →
      ∀ (descriptor : Descriptor) (grid : PropertyGrid Descriptor),
        w.m_pDescriptor = some descriptor → w.m_pDescriptorPropertyGrid = some grid →
        ∃ w' result, w.Save IsFilePath WriteToFile serialize = some (w', result) ∧
          (result = true ↔ WriteToFile (serialize descriptor) w.m_descriptorPath = true) ∧
          (result = true →
            w' = { w with
                   m_pDescriptorPropertyGrid := some { grid with isDirty := false }
                   m_isDirty := false }) ∧
          (result = false → w' = w)) := by
  refine ⟨?_, ?_⟩
  · intro hPlain
    simp [Save, hPlain]
  · intro hIsDescriptor hPath descriptor grid hDescriptor hGrid
    cases hWrite : WriteToFile (serialize descriptor) w.m_descriptorPath with
    | true =>
      refine ⟨_, true, ?_, by simp, fun _ => rfl, by simp⟩
      simp [Save, hIsDescriptor, hPath, hDescriptor, hGrid, hWrite]
    | false =>
      refine ⟨w, false, ?_, by simp, by simp, fun _ => rfl⟩
      simp [Save, hIsDescriptor, hPath, hDescriptor, hGrid, hWrite]

/-- The witness of claim C23: saving `sampleWorkspace`, which has no
descriptor, returns true and changes nothing; saving `dirtyTextWorkspace`
succeeds on a disk that takes every write. -/
theorem save_returns_whether_descriptor_was_written_witness :
    sampleWorkspace.Save nonEmptyPath readOnlyDisk (fun _ => "") = some (sampleWorkspace, true) ∧
    ∃ w' result, dirtyTextWorkspace.Save nonEmptyPath writableDisk braces = some (w', result) ∧
      (result = true ↔ writableDisk (braces "low") dirtyTextWorkspace.m_descriptorPath = true) ∧
      (result = true →
        w' = { dirtyTextWorkspace with
               m_pDescriptorPropertyGrid := some { typeToEdit := some "low", isDirty := false }
               m_isDirty := false }) ∧
      (result = false → w' = dirtyTextWorkspace) :=
  ⟨(save_returns_whether_descriptor_was_written nonEmptyPath readOnlyDisk (fun _ => "")
      sampleWorkspace).1 rfl,
   (save_returns_whether_descriptor_was_written nonEmptyPath writableDisk braces
      dirtyTextWorkspace).2 rfl (by decide) "low" { typeToEdit := some "low", isDirty := true }
      rfl rfl⟩

end DescriptorModificationTheorems

end EE
